import Mathlib

/-!
# libreswan `lib/libipsecconf/starterwhack.c`: the whack reply reader

A shallow embedding of `send_reply` and `starter_whack_read_reply`.

* Bytes (`char`) are natural numbers; a buffer is a `List Nat`.
* The socket is a script of read results (`ReadEv`); the end of the script is
  the peer closing the connection (`read` returns 0).
* The functions the C code calls but that live outside this file
  (`whack_get_secret`, `whack_get_value`, `write`) are oracles in `Env`.
* Every system call / library call with an observable effect is recorded as
  an `Event`; a run returns its `Outcome` together with the list of events.
* `unsigned long` is 64 bits wide and `int` is 32 bits wide (LP64).
* `strtoul`, `strchr`, `isspace`, `isdigit` follow ISO C in the C locale.
* The loops run on an iteration budget that `starter_whack_read_reply` sets
  from its input; `read_reply_total` shows that the budget is never used up.
-/

namespace StarterWhack

/-! ## Constants declared in headers that are not part of this file -/

/-- The constants of `whack.h` used by the reply reader. The seven codes that
label `case`s of the `switch` are `enum` constants: pairwise distinct (a C
`switch` with two equal labels does not compile) and of type `int`. The two
lengths are array dimensions, hence positive. -/
structure Consts where
  RC_COMMENT : Nat
  RC_RAW : Nat
  RC_LOG : Nat
  RC_INFORMATIONAL : Nat
  RC_SUCCESS : Nat
  RC_ENTERSECRET : Nat
  RC_USERPROMPT : Nat
  RC_WHACK_PROBLEM : Nat
  XAUTH_MAX_PASS_LENGTH : Nat
  MAX_XAUTH_USERNAME_LEN : Nat
  labels_nodup : [RC_COMMENT, RC_RAW, RC_LOG, RC_INFORMATIONAL, RC_SUCCESS,
    RC_ENTERSECRET, RC_USERPROMPT].Nodup
  labels_int : ∀ x ∈ [RC_COMMENT, RC_RAW, RC_LOG, RC_INFORMATIONAL, RC_SUCCESS,
    RC_ENTERSECRET, RC_USERPROMPT], x < 2 ^ 31
  pass_len_pos : 0 < XAUTH_MAX_PASS_LENGTH
  username_len_pos : 0 < MAX_XAUTH_USERNAME_LEN

/-- A sample assignment of the constants, used to evaluate the model on
concrete inputs. -/
def sampleConsts : Consts where
  RC_COMMENT := 0
  RC_RAW := 1
  RC_LOG := 2
  RC_INFORMATIONAL := 5
  RC_SUCCESS := 4
  RC_ENTERSECRET := 40
  RC_USERPROMPT := 41
  RC_WHACK_PROBLEM := 33
  XAUTH_MAX_PASS_LENGTH := 128
  MAX_XAUTH_USERNAME_LEN := 128
  labels_nodup := by decide
  labels_int := by decide
  pass_len_pos := by decide
  username_len_pos := by decide

/-! ## C library functions -/

/-- `ULONG_MAX` for a 64-bit `unsigned long`. -/
def ULONG_MAX : Nat := 2 ^ 64 - 1

/-- `isspace` in the C locale: space, `\t`, `\n`, `\v`, `\f`, `\r`. -/
def isspace (b : Nat) : Bool := b == 32 || (decide (9 ≤ b) && decide (b ≤ 13))

/-- `isdigit`: `'0'..'9'`. -/
def isdigit (b : Nat) : Bool := decide (48 ≤ b) && decide (b ≤ 57)

/-- The digit loop of `strtoul`: the value accumulated over the leading run
of decimal digits, and the length of that run. -/
def scanDigits : List Nat → Nat → Nat × Nat
  | [], acc => (acc, 0)
  | b :: bs, acc =>
    if isdigit b then
      let r := scanDigits bs (acc * 10 + (b - 48))
      (r.1, r.2 + 1)
    else (acc, 0)

/-- `strtoul(s, &end, 10)` on the NUL-terminated string `s`: skip white space,
take an optional sign, then a run of decimal digits. Returns the converted
value and `end - s`; with no digits, no conversion is performed and
`end = s`. A value above `ULONG_MAX` converts to `ULONG_MAX`; a leading `-`
negates in `unsigned long`. -/
def strtoul (s : List Nat) : Nat × Nat :=
  let ws := s.takeWhile isspace
  let s1 := s.dropWhile isspace
  let sg : Bool × Nat × List Nat :=
    match s1 with
    | 45 :: t => (true, 1, t)
    | 43 :: t => (false, 1, t)
    | _ => (false, 0, s1)
  let r := scanDigits sg.2.2 0
  if r.2 = 0 then (0, 0)
  else
    (if r.1 > ULONG_MAX then ULONG_MAX
      else if sg.1 then (2 ^ 64 - r.1) % 2 ^ 64 else r.1,
     ws.length + sg.2.1 + r.2)

/-- Offset of the first `'\n'` of a NUL-terminated string, if any:
the search stops at the first NUL. -/
def findNL : List Nat → Option Nat
  | [] => none
  | b :: bs =>
    if b = 10 then some 0
    else if b = 0 then none
    else (findNL bs).map (· + 1)

/-- `strchr(ls, '\n')` for `ls = buf + off`; the buffer holds `buf` followed
by the NUL stored at `*be`. The result is an offset from `buf`. -/
def strchr_nl (buf : List Nat) (off : Nat) : Option Nat :=
  (findNL (buf.drop off)).map (off + ·)

/-- Conversion of an `unsigned long` to `int` (`ret = s`): reduction modulo
`2^32` into the two's-complement range. -/
def toInt32 (n : Nat) : Int :=
  if n % 2 ^ 32 < 2 ^ 31 then ((n % 2 ^ 32 : Nat) : Int)
  else ((n % 2 ^ 32 : Nat) : Int) - 2 ^ 32

/-! ## Environment, events, state -/

/-- One result of `read(sock, ...)`: bytes delivered by the peer, or a failure
(`read` returns a negative value). -/
inductive ReadEv where
  | data (bytes : List Nat)
  | error
  deriving DecidableEq, Repr

/-- The collaborators of the reply reader. Each oracle is indexed by the
number of earlier calls of the same kind.
* `whack_get_secret i`, `whack_get_value i`: the contents the prompt leaves in
  the credential buffer and the length it returns.
* `sockWriteOk i`: whether the `write` in `send_reply` returns `len`.
* `stdoutWriteErr i`: whether `write(STDOUT_FILENO, ...)` returns `-1`. -/
structure Env where
  whack_get_secret : Nat → List Nat × Int
  whack_get_value : Nat → List Nat × Int
  sockWriteOk : Nat → Bool
  stdoutWriteErr : Nat → Bool

/-- Diagnostics (`fprintf(stderr, ...)` and `starter_log(LOG_LEVEL_ERR, ...)`). -/
inductive Diag where
  | readFailed
  | lastLineUnterminated
  | missingNNN
  | stdoutWriteFailed
  | sockWriteFailed
  | passTooLong
  | usernameTooLong
  deriving DecidableEq, Repr

/-- Observable actions of a run, in program order. -/
inductive Event where
  | read (count : Int) (rl : Int)
  | storeNul (idx : Nat)
  | memmove (count : Int)
  | stdout (count : Int) (bytes : List Nat)
  | getSecret
  | getValue
  | sockWrite (len : Int) (bytes : List Nat)
  | diag (d : Diag)
  deriving DecidableEq, Repr

/-- How a call ends: `return v`, or `exit(v)`. -/
inductive Outcome where
  | returned (v : Int)
  | exited (v : Int)
  deriving DecidableEq, Repr

/-- Local variables and parameters of `starter_whack_read_reply` that change
while lines are classified, plus the call counters that index the oracles. -/
structure St where
  ret : Int
  xauthusername : List Nat
  xauthpass : List Nat
  usernamelen : Int
  xauthpasslen : Int
  nSecret : Nat
  nValue : Nat
  nSockWrite : Nat
  nStdout : Nat
  deriving DecidableEq, Repr

/-- Control flow after a line: go on with the next line, or leave the
function. -/
inductive Flow where
  | next (st : St)
  | done (o : Outcome)
  deriving DecidableEq, Repr

/-! ## The code -/

/-- `send_reply(sock, buf, len)`: one `write`; `RC_WHACK_PROBLEM` unless it
returns `len`. -/
def send_reply (c : Consts) (env : Env) (st : St) (buf : List Nat) (len : Int) :
    Int × St × List Event :=
  let st1 := { st with nSockWrite := st.nSockWrite + 1 }
  if env.sockWriteOk st.nSockWrite then
    (0, st1, [Event.sockWrite len (buf.take len.toNat)])
  else
    (c.RC_WHACK_PROBLEM, st1,
      [Event.sockWrite len (buf.take len.toNat), Event.diag Diag.sockWriteFailed])

/-- `case RC_ENTERSECRET`, first statement: prompt for the secret unless a
length is already there. -/
def askSecret (env : Env) (st : St) : St × List Event :=
  if st.xauthpasslen = 0 then
    ({ st with xauthpass := (env.whack_get_secret st.nSecret).1,
               xauthpasslen := (env.whack_get_secret st.nSecret).2,
               nSecret := st.nSecret + 1 },
      [Event.getSecret])
  else (st, [])

/-- `case RC_ENTERSECRET`, second statement: clamp the length to
`XAUTH_MAX_PASS_LENGTH` and log when it was larger. -/
def clampSecret (c : Consts) (st : St) : St × List Event :=
  if st.xauthpasslen > (c.XAUTH_MAX_PASS_LENGTH : Int) then
    ({ st with xauthpasslen := (c.XAUTH_MAX_PASS_LENGTH : Int) },
      [Event.diag Diag.passTooLong])
  else (st, [])

/-- `case RC_USERPROMPT`, first statement. -/
def askValue (env : Env) (st : St) : St × List Event :=
  if st.usernamelen = 0 then
    ({ st with xauthusername := (env.whack_get_value st.nValue).1,
               usernamelen := (env.whack_get_value st.nValue).2,
               nValue := st.nValue + 1 },
      [Event.getValue])
  else (st, [])

/-- `case RC_USERPROMPT`, second statement. -/
def clampValue (c : Consts) (st : St) : St × List Event :=
  if st.usernamelen > (c.MAX_XAUTH_USERNAME_LEN : Int) then
    ({ st with usernamelen := (c.MAX_XAUTH_USERNAME_LEN : Int) },
      [Event.diag Diag.usernameTooLong])
  else (st, [])

/-- The tail of both prompt cases: `ret = send_reply(...); if (ret != 0)
return ret; break;`. -/
def replyWith (c : Consts) (env : Env) (st : St) (buf : List Nat) (len : Int) :
    Flow × List Event :=
  let r := send_reply c env st buf len
  if r.1 ≠ 0 then (Flow.done (Outcome.returned r.1), r.2.2)
  else (Flow.next { r.2.1 with ret := r.1 }, r.2.2)

/-- `case RC_ENTERSECRET`. -/
def enterSecret (c : Consts) (env : Env) (st : St) : Flow × List Event :=
  let p1 := askSecret env st
  let p2 := clampSecret c p1.1
  let r := replyWith c env p2.1 p2.1.xauthpass p2.1.xauthpasslen
  (r.1, p1.2 ++ p2.2 ++ r.2)

/-- `case RC_USERPROMPT`. -/
def userPrompt (c : Consts) (env : Env) (st : St) : Flow × List Event :=
  let p1 := askValue env st
  let p2 := clampValue c p1.1
  let r := replyWith c env p2.1 p2.1.xauthusername p2.1.usernamelen
  (r.1, p1.2 ++ p2.2 ++ r.2)

/-- The `switch (s)` of `starter_whack_read_reply`. -/
def dispatch (c : Consts) (env : Env) (s : Nat) (st : St) : Flow × List Event :=
  if s = c.RC_COMMENT ∨ s = c.RC_RAW ∨ s = c.RC_LOG ∨ s = c.RC_INFORMATIONAL then
    (Flow.next st, [])
  else if s = c.RC_SUCCESS then
    (Flow.next { st with ret := 0 }, [])
  else if s = c.RC_ENTERSECRET then enterSecret c env st
  else if s = c.RC_USERPROMPT then userPrompt c env st
  else
    (Flow.next { st with ret := toInt32 s }, [])

/-- The body of the inner loop for the line `buf[ls .. le)` (`le` is one past
its newline): parse the prefix, echo the rest of the line, classify. -/
def doLine (c : Consts) (env : Env) (buf : List Nat) (ls le : Nat) (st : St) :
    Flow × List Event :=
  let p := strtoul (buf.drop ls)
  let lpe := ls + p.2
  if lpe = ls ∨ buf.getD lpe 0 ≠ 32 then
    (Flow.done (Outcome.exited c.RC_WHACK_PROBLEM), [Event.diag Diag.missingNNN])
  else
    let ls1 := lpe + 1
    let out := Event.stdout ((le : Int) - (ls1 : Int)) ((buf.drop ls1).take (le - ls1))
    let evs :=
      if env.stdoutWriteErr st.nStdout then [out, Event.diag Diag.stdoutWriteFailed]
      else [out]
    let r := dispatch c env p.1 { st with nStdout := st.nStdout + 1 }
    (r.1, evs ++ r.2)

/-- The inner `for (;;)`: classify every complete line of the buffer from
offset `ls` on, then move the unterminated rest to the start of the buffer.
Returns the flow and the new buffer contents (`buf .. be`). `none` only when
the iteration budget `fuel` is exhausted. -/
def scanLines (c : Consts) (env : Env) :
    Nat → List Nat → Nat → St → Option ((Flow × List Nat) × List Event)
  | 0, _, _, _ => none
  | fuel + 1, buf, ls, st =>
    match strchr_nl buf ls with
    | none =>
      some ((Flow.next st, buf.drop ls), [Event.memmove ((buf.length : Int) - (ls : Int))])
    | some nl =>
      match doLine c env buf ls (nl + 1) st with
      | (Flow.done o, evs) => some ((Flow.done o, buf), evs)
      | (Flow.next st1, evs) =>
        (scanLines c env fuel buf (nl + 1) st1).map (fun r => (r.1, evs ++ r.2))

/-- `read(sock, be, count)` against the script: with `count = 0` or at the
end of the script it returns 0; a chunk longer than `count` is delivered in
part and the rest stays queued. -/
def sockRead (sock : List ReadEv) (count : Nat) : ReadEv × List ReadEv :=
  if count = 0 then (ReadEv.data [], sock)
  else
    match sock with
    | [] => (ReadEv.data [], [])
    | ReadEv.error :: rest => (ReadEv.error, rest)
    | ReadEv.data bs :: rest =>
      if bs.length ≤ count then (ReadEv.data bs, rest)
      else (ReadEv.data (bs.take count), ReadEv.data (bs.drop count) :: rest)

/-- The outer `for (;;)` of `starter_whack_read_reply`; `buf` is the contents
of `buf .. be`. -/
def readLoop (c : Consts) (env : Env) :
    Nat → List ReadEv → List Nat → St → Option (Outcome × List Event)
  | 0, _, _, _ => none
  | fuel + 1, sock, buf, st =>
    let count : Int := 4096 - (buf.length : Int)
    match sockRead sock count.toNat with
    | (ReadEv.error, _) =>
      some (Outcome.returned c.RC_WHACK_PROBLEM,
        [Event.read count (-1), Event.diag Diag.readFailed])
    | (ReadEv.data [], _) =>
      some (Outcome.returned st.ret,
        Event.read count 0 ::
          (if buf ≠ [] then [Event.diag Diag.lastLineUnterminated] else []))
    | (ReadEv.data (b :: bs), sock1) =>
      let buf1 := buf ++ (b :: bs)
      let pre := [Event.read count ((b :: bs).length : Int), Event.storeNul buf1.length]
      match scanLines c env (buf1.length + 1) buf1 0 st with
      | none => none
      | some ((Flow.done o, _), evs) => some (o, pre ++ evs)
      | some ((Flow.next st1, buf2), evs) =>
        (readLoop c env fuel sock1 buf2 st1).map (fun r => (r.1, pre ++ evs ++ r.2))

/-- Iteration budget that suffices for a script: every iteration of the outer
loop that does not leave it consumes a byte or an entry of the script. -/
def readFuel : List ReadEv → Nat
  | [] => 1
  | ReadEv.error :: rest => readFuel rest + 1
  | ReadEv.data bs :: rest => readFuel rest + bs.length + 1

/-- The state on entry: `ret = 0`, the caller's buffers and lengths, no call
made yet. -/
def St.init (xauthusername xauthpass : List Nat) (usernamelen xauthpasslen : Int) : St :=
  { ret := 0, xauthusername := xauthusername, xauthpass := xauthpass,
    usernamelen := usernamelen, xauthpasslen := xauthpasslen,
    nSecret := 0, nValue := 0, nSockWrite := 0, nStdout := 0 }

/-- `starter_whack_read_reply(sock, xauthusername, xauthpass, usernamelen,
xauthpasslen)`: the outer loop started with an empty buffer (`be = buf`).
The result is `some` on every script (`read_reply_total`). -/
def starter_whack_read_reply (c : Consts) (env : Env) (sock : List ReadEv)
    (xauthusername xauthpass : List Nat) (usernamelen xauthpasslen : Int) :
    Option (Outcome × List Event) :=
  readLoop c env (readFuel sock) sock []
    (St.init xauthusername xauthpass usernamelen xauthpasslen)

/-! ## Observations on a run -/

/-- The bytes handed to `write(STDOUT_FILENO, ...)`, in order. -/
def transcript : List Event → List Nat
  | [] => []
  | Event.stdout _ bytes :: es => bytes ++ transcript es
  | _ :: es => transcript es

/-- The bytes of a string literal. -/
def bytes (s : String) : List Nat := s.toList.map Char.toNat

/-- An environment whose prompts return an empty answer of length 0 and
whose writes all succeed. -/
def quietEnv : Env where
  whack_get_secret := fun _ => ([], 0)
  whack_get_value := fun _ => ([], 0)
  sockWriteOk := fun _ => true
  stdoutWriteErr := fun _ => false

/-! ## Well-formed reply lines -/

/-- A reply line `NNN <text>\n`: the digits of the prefix and the text. -/
structure Line where
  digits : List Nat
  text : List Nat
  deriving DecidableEq, Repr

/-- The bytes of the line on the wire: digits, one space, text, newline. -/
def Line.bytes (l : Line) : List Nat := l.digits ++ 32 :: (l.text ++ [10])

/-- The number the decimal prefix denotes. -/
def Line.code (l : Line) : Nat := l.digits.foldl (fun a d => a * 10 + (d - 48)) 0

/-- Well-formed: a non-empty run of decimal digits, text without newline or
NUL, at most 4096 bytes in all. -/
def Line.WF (l : Line) : Prop :=
  l.digits ≠ [] ∧ (∀ d ∈ l.digits, isdigit d = true) ∧
    (∀ b ∈ l.text, b ≠ 10 ∧ b ≠ 0) ∧ l.bytes.length ≤ 4096

instance (l : Line) : Decidable l.WF := by
  unfold Line.WF; infer_instance

/-- The bytes of a sequence of lines. -/
def stream (ls : List Line) : List Nat := (ls.map Line.bytes).flatten

/-- The value `strtoul` yields for a well-formed line. -/
def Line.parsed (l : Line) : Nat := if l.code > ULONG_MAX then ULONG_MAX else l.code

/-- What the inner loop does with one well-formed line: echo the text, then
the `switch`. -/
def lineStep (c : Consts) (env : Env) (l : Line) (st : St) : Flow × List Event :=
  let out := Event.stdout ((l.text.length : Int) + 1) (l.text ++ [10])
  let evs :=
    if env.stdoutWriteErr st.nStdout then [out, Event.diag Diag.stdoutWriteFailed]
    else [out]
  let r := dispatch c env l.parsed { st with nStdout := st.nStdout + 1 }
  (r.1, evs ++ r.2)

/-- Line-by-line processing of a sequence of well-formed lines, stopping at
the first line that leaves the function. -/
def runLines (c : Consts) (env : Env) : List Line → St → Flow × List Event
  | [], st => (Flow.next st, [])
  | l :: ls, st =>
    match lineStep c env l st with
    | (Flow.done o, evs) => (Flow.done o, evs)
    | (Flow.next st1, evs) =>
      let r := runLines c env ls st1
      (r.1, evs ++ r.2)

/-- The outcome of the call when the stream ends after the given flow. -/
def Flow.outcome : Flow → Outcome
  | Flow.next st => Outcome.returned st.ret
  | Flow.done o => o

/-- Events that do not depend on how the stream is cut into reads: all but
the reads themselves, the buffer bookkeeping and the end-of-stream warning. -/
def Event.visible : Event → Bool
  | Event.read _ _ => false
  | Event.storeNul _ => false
  | Event.memmove _ => false
  | Event.diag Diag.lastLineUnterminated => false
  | Event.diag Diag.readFailed => false
  | _ => true

/-- The socket script that delivers the given chunks and then closes. -/
def deliver (chunks : List (List Nat)) : List ReadEv := chunks.map ReadEv.data

/-- The four codes the `switch` ignores. -/
def Line.isChatter (c : Consts) (l : Line) : Prop :=
  l.code = c.RC_COMMENT ∨ l.code = c.RC_RAW ∨ l.code = c.RC_LOG ∨ l.code = c.RC_INFORMATIONAL

instance (c : Consts) (l : Line) : Decidable (l.isChatter c) := by
  unfold Line.isChatter; infer_instance

/-- A Success line. -/
def Line.isSuccess (c : Consts) (l : Line) : Prop := l.code = c.RC_SUCCESS

instance (c : Consts) (l : Line) : Decidable (l.isSuccess c) := by
  unfold Line.isSuccess; infer_instance

/-- An EnterSecret or UserPrompt line. -/
def Line.isPrompt (c : Consts) (l : Line) : Prop :=
  l.code = c.RC_ENTERSECRET ∨ l.code = c.RC_USERPROMPT

instance (c : Consts) (l : Line) : Decidable (l.isPrompt c) := by
  unfold Line.isPrompt; infer_instance

/-- The codes with a `case` of their own; every other code is passed
through. -/
def reserved (c : Consts) : List Nat :=
  [c.RC_COMMENT, c.RC_RAW, c.RC_LOG, c.RC_INFORMATIONAL, c.RC_SUCCESS,
    c.RC_ENTERSECRET, c.RC_USERPROMPT]

/-- The value of `ret` after a line whose credential write (if any)
succeeded, given the value before it. -/
def lineRet (c : Consts) (l : Line) (r : Int) : Int :=
  if l.isChatter c then r
  else if l.isSuccess c ∨ l.isPrompt c then 0
  else toInt32 l.parsed

/-- The text a line contributes to standard output. -/
def Line.echo (l : Line) : List Nat := l.text ++ [10]

/-! ## Definitions used to state and prove the properties -/

/-- What `scanLines` returns after the lines `lines` when `p` (newline-free)
follows them in the buffer. -/
def afterLines (buf p : List Nat) : Flow × List Event → (Flow × List Nat) × List Event
  | (Flow.done o, evs) => ((Flow.done o, buf), evs)
  | (Flow.next st1, evs) => ((Flow.next st1, p), evs ++ [Event.memmove (p.length : Int)])

/-- The value of `ret` after a sequence of lines. -/
def recorded (c : Consts) (lines : List Line) (r : Int) : Int :=
  lines.foldl (fun r l => lineRet c l r) r

/-- The credential reply for a prompt answer `a` under the maximum `max`:
the first `min(len, max)` bytes of the buffer. -/
def credReply (a : List Nat × Int) (max : Nat) : Event :=
  Event.sockWrite (min a.2 (max : Int)) (a.1.take (min a.2 (max : Int)).toNat)

/-- Either the secret has not been asked for, or the first answer is cached
(clamped). -/
def SecInv (c : Consts) (env : Env) (st : St) : Prop :=
  (st.nSecret = 0 ∧ st.xauthpasslen = 0) ∨
  (st.nSecret = 1 ∧ st.xauthpass = (env.whack_get_secret 0).1 ∧
    st.xauthpasslen = min (env.whack_get_secret 0).2 (c.XAUTH_MAX_PASS_LENGTH : Int))

/-- The same for the username. -/
def UsrInv (c : Consts) (env : Env) (st : St) : Prop :=
  (st.nValue = 0 ∧ st.usernamelen = 0) ∨
  (st.nValue = 1 ∧ st.xauthusername = (env.whack_get_value 0).1 ∧
    st.usernamelen = min (env.whack_get_value 0).2 (c.MAX_XAUTH_USERNAME_LEN : Int))

/-- A piece of a run that starts in `st`, produces `evs` and ends with `fl`
prompts at most once per kind and only sends cached credentials. -/
def PromptOnce (c : Consts) (env : Env) (st : St) (fl : Flow) (evs : List Event) : Prop :=
  evs.count Event.getSecret + st.nSecret ≤ 1 ∧
  evs.count Event.getValue + st.nValue ≤ 1 ∧
  (∀ len bs, Event.sockWrite len bs ∈ evs →
    Event.sockWrite len bs = credReply (env.whack_get_secret 0) c.XAUTH_MAX_PASS_LENGTH ∨
    Event.sockWrite len bs = credReply (env.whack_get_value 0) c.MAX_XAUTH_USERNAME_LEN) ∧
  ∀ st1, fl = Flow.next st1 →
    SecInv c env st1 ∧ UsrInv c env st1 ∧
    st1.nSecret = st.nSecret + evs.count Event.getSecret ∧
    st1.nValue = st.nValue + evs.count Event.getValue

/-- Events that touch no credential: no prompt and no socket write. -/
def Event.neutral : Event → Bool
  | Event.getSecret => false
  | Event.getValue => false
  | Event.sockWrite _ _ => false
  | _ => true

/-- An environment whose prompts answer `hunter2` and `alice` and whose
writes all succeed. -/
def answerEnv : Env where
  whack_get_secret := fun _ => (bytes "hunter2", 7)
  whack_get_value := fun _ => (bytes "alice", 5)
  sockWriteOk := fun _ => true
  stdoutWriteErr := fun _ => false

/-- The socket writes among the events. -/
def sockWrites : List Event → List Event
  | [] => []
  | Event.sockWrite len bs :: es => Event.sockWrite len bs :: sockWrites es
  | _ :: es => sockWrites es

/-- The secret length `L` an EnterSecret line works with: returned by the
prompt when the caller supplied none, else the caller's. -/
def secretLen (env : Env) (st : St) : Int :=
  if st.xauthpasslen = 0 then (env.whack_get_secret st.nSecret).2 else st.xauthpasslen

/-- The secret buffer at that point. -/
def secretBuf (env : Env) (st : St) : List Nat :=
  if st.xauthpasslen = 0 then (env.whack_get_secret st.nSecret).1 else st.xauthpass

/-- The username length `L` a UserPrompt line works with. -/
def userLen (env : Env) (st : St) : Int :=
  if st.usernamelen = 0 then (env.whack_get_value st.nValue).2 else st.usernamelen

/-- The username buffer at that point. -/
def userBuf (env : Env) (st : St) : List Nat :=
  if st.usernamelen = 0 then (env.whack_get_value st.nValue).1 else st.xauthusername

/-- An environment whose prompts fill the whole buffer and return one more
than the maximum length. -/
def longEnv : Env where
  whack_get_secret := fun _ => (List.replicate 128 120, 129)
  whack_get_value := fun _ => (List.replicate 128 121, 129)
  sockWriteOk := fun _ => true
  stdoutWriteErr := fun _ => false

/-- No credential write has failed among the events. -/
def Clean (evs : List Event) : Prop := Event.diag Diag.sockWriteFailed ∉ evs

/-- Either no credential write failed, or the piece of the run ends with
`return RC_WHACK_PROBLEM` right after the failed write and its log entry. -/
def FailStop (c : Consts) (fl : Flow) (evs : List Event) : Prop :=
  Clean evs ∨
  (fl = Flow.done (Outcome.returned c.RC_WHACK_PROBLEM) ∧
    ∃ pre len bs, evs = pre ++ [Event.sockWrite len bs, Event.diag Diag.sockWriteFailed] ∧
      Clean pre)

/-- An environment in which every credential write fails. -/
def brokenPipeEnv : Env where
  whack_get_secret := fun _ => (bytes "hunter2", 7)
  whack_get_value := fun _ => (bytes "alice", 5)
  sockWriteOk := fun _ => false
  stdoutWriteErr := fun _ => false

/-- The bounds of the line buffer `char buf[4097]` as seen on the events: a
`read` asks for between 0 and 4096 bytes and gets at most what it asked for,
the NUL goes to an index of at most 4096, `memmove` copies between 0 and 4096
bytes. -/
def Event.inBounds : Event → Prop
  | Event.read count rl => 0 ≤ count ∧ count ≤ 4096 ∧ rl ≤ count
  | Event.storeNul idx => idx ≤ 4096
  | Event.memmove count => 0 ≤ count ∧ count ≤ 4096
  | _ => True

/-! ## Configuration records (`confread.h`) and the whack message (`whack.h`)

The record types are declared in headers outside this file. A field holds
the value assigned to it: numeric, boolean and enumerated option values are
natural numbers (`uintmax_t` options), C strings are `Option String` (`none`
is `NULL`), and the conversions to the declared field types are not
modelled. Debug-level logging is recorded as an event. -/

/-- How an endpoint's address is selected (`enum keyword_host`); `KH_other`
stands for any value without an enumerator of its own. -/
inductive keyword_host where
  | KH_NOTSET | KH_DEFAULTROUTE | KH_ANY | KH_IFACE | KH_OPPO | KH_OPPOGROUP | KH_GROUP
  | KH_IPHOSTNAME | KH_IPADDR
  | KH_other (v : Int)
  deriving DecidableEq, Repr

/-- Where an endpoint's public key comes from (`enum keyword_pubkey`). -/
inductive keyword_pubkey where
  | PUBKEY_NOTSET | PUBKEY_DNSONDEMAND | PUBKEY_CERTIFICATE | PUBKEY_PREEXCHANGED
  deriving DecidableEq, Repr

/-- Public key algorithm (`enum ipseckey_algorithm_type`); `ALG_UNSET` is the
value 0 that `passert(l->pubkey_alg != 0)` excludes. -/
inductive ipseckey_algorithm where
  | ALG_UNSET | IPSECKEY_ALGORITHM_RSA | IPSECKEY_ALGORITHM_ECDSA
  | IPSECKEY_ALGORITHM_X_PUBKEY
  | ALG_other (v : Nat)
  deriving DecidableEq, Repr

/-- Modelled from the spec: `ip_address` of `ip_address.h`, which is not part
of this file; an address is set or is the canonical unset value. -/
structure ip_address where
  is_set : Bool
  ip_version : Nat
  bytes : List Nat
  deriving DecidableEq, Repr

/-- Modelled from the spec: `unset_address`, the canonical unset value of
`ip_address.h` (the all-zero address). -/
def unset_address : ip_address := { is_set := false, ip_version := 0, bytes := [] }

/-- Modelled from the spec: `ip_cidr` of `ip_cidr.h`, which is not part of
this file. -/
structure ip_cidr where
  is_set : Bool
  ip_version : Nat
  bytes : List Nat
  bits : Nat
  deriving DecidableEq, Repr

/-- Modelled from the spec: `cidr_is_specified` of `ip_cidr.h`. -/
def cidr_is_specified (x : ip_cidr) : Bool := x.is_set

/-- The part of `struct ip_info` used here: the family and its unspecified
address (`host_family->address.unspec`). -/
structure ip_info where
  af : Nat
  address_unspec : ip_address
  deriving DecidableEq, Repr

/-- Numeric option keys (`KNCF_*`) used in this file. -/
inductive KNCF where
  | IKEPORT | SENDCERT | AUTH | EAP | XAUTHSERVER | XAUTHCLIENT | MODECONFIGSERVER
  | MODECONFIGCLIENT | CAT
  | NIC_OFFLOAD | IKELIFETIME_MS | IPSEC_LIFETIME_MS | REKEYMARGIN_MS | IPSEC_MAXBYTES
  | IPSEC_MAXPACKETS | REKEYFUZZ | KEYINGTRIES | REPLAY_WINDOW | RETRANSMIT_INTERVAL_MS
  | RETRANSMIT_TIMEOUT_MS | IKEv2 | PFS | COMPRESS | TYPE | PHASE2 | METRIC
  | IKEv2_ALLOW_NARROWING | REKEY | REAUTH | MTU | PRIORITY | TFC | NO_ESP_TFC | NFLOG_CONN
  | REQID | TCP_REMOTEPORT | ENABLE_TCP | DPDACTION | SEND_CA | ENCAPSULATION | NAT_KEEPALIVE
  | NAT_IKEv1_METHOD | SEND_VENDORID | INITIAL_CONTACT | CISCO_UNITY | VID_STRONGSWAN
  | REMOTE_PEER_TYPE | NM_CONFIGURED | DEBUG | VTI_ROUTING | VTI_SHARED | SEND_REDIRECT
  | MOBIKE | INTERMEDIATE | SHA2_TRUNCBUG | OVERLAPIP | MS_DH_DOWNGRADE
  | PFS_REKEY_WORKAROUND | DNS_MATCH_ID | PAM_AUTHORIZE | IGNORE_PEER_DNS | IKEPAD
  | REQUIRE_ID_ON_CERTIFICATE | MODECFGPULL | AGGRESSIVE | IPTFS | IPTFS_DONT_FRAG
  | IPTFS_PKT_SIZE | IPTFS_MAX_QUEUE | IPTFS_IN_DELAY | IPTFS_REORD_WIN | IPTFS_DROP_TIME
  | DECAP_DSCP | ENCAP_DSCP | NOPMTUDISC | ACCEPT_REDIRECT | FRAGMENTATION | ESN | PPK
  | XAUTHBY | XAUTHFAIL
  deriving DecidableEq, Repr

/-- String option keys (`KSCF_*`) used in this file. -/
inductive KSCF where
  | IP | SUBNETS | USERNAME | GROUNDHOG
  | IPSEC_INTERFACE | SEC_LABEL | VTI_INTERFACE | REDIRECT_TO | ACCEPT_REDIRECT_TO
  deriving DecidableEq, Repr

/-- One side of a connection as read from the configuration
(`struct starter_end`), with the fields this file reads. -/
structure starter_end where
  leftright : String
  id : Option String
  addrtype : keyword_host
  nexttype : keyword_host
  addr : ip_address
  nexthop : ip_address
  host_family : ip_info
  sourceip : Option String
  vti_ip : ip_cidr
  ifaceip : ip_cidr
  subnet : Option String
  protoport : Nat
  certx : Option String
  ckaid : Option String
  ca : Option String
  updown : Option String
  virt : Option String
  addresspool : Option String
  pubkey_type : keyword_pubkey
  pubkey : Option String
  pubkey_alg : ipseckey_algorithm
  key_from_DNS_on_demand : Bool
  options : KNCF → Nat
  options_set : KNCF → Bool
  strings : KSCF → Option String
  strings_set : KSCF → Bool

/-- One side of a connection in the message (`struct whack_end`), with the
fields `set_whack_end` writes. -/
structure whack_end where
  leftright : Option String
  id : Option String
  host_type : keyword_host
  host_addr : ip_address
  host_addr_name : Option String
  host_nexthop : ip_address
  sourceip : Option String
  host_vtiip : ip_cidr
  ifaceip : ip_cidr
  subnet : Option String
  subnets : Option String
  host_ikeport : Nat
  protoport : Nat
  cert : Option String
  ckaid : Option String
  pubkey_alg : ipseckey_algorithm
  pubkey : Option String
  ca : Option String
  sendcert : Nat
  auth : Nat
  eap : Nat
  updown : Option String
  virt : Option String
  key_from_DNS_on_demand : Bool
  xauth_server : Nat
  xauth_client : Nat
  xauth_username : Option String
  groundhog : Option String
  modecfg_server : Nat
  modecfg_client : Nat
  cat : Nat
  addresspool : Option String
  deriving DecidableEq, Repr

/-- Constants of headers outside this file that the message construction
uses, and the layout of `struct whack_message`: the offset and the size of
its last member `string` (the string pool) and the size of the whole
structure, which contains the pool. `HAVE_NM` is the build option. -/
structure Decls where
  WHACK_MAGIC : Nat
  CERT_ALWAYSSEND : Nat
  IKE_EAP_NONE : Nat
  KS_TUNNEL : Nat
  KS_TRANSPORT : Nat
  ENCAP_MODE_TUNNEL : Nat
  ENCAP_MODE_TRANSPORT : Nat
  ENCAP_MODE_UNSET : Nat
  IPSEC_MANUAL_REQID_MAX : Nat
  DPD_ACTION_UNSET : Nat
  CA_SEND_NONE : Nat
  HAVE_NM : Bool
  string_offset : Nat
  string_size : Nat
  sizeof_whack_message : Nat
  string_inside : string_offset + string_size ≤ sizeof_whack_message

/-- A sample assignment of these constants, used to evaluate the model on
concrete inputs. -/
def sampleDecls : Decls where
  WHACK_MAGIC := 1869114161
  CERT_ALWAYSSEND := 1
  IKE_EAP_NONE := 0
  KS_TUNNEL := 0
  KS_TRANSPORT := 1
  ENCAP_MODE_TUNNEL := 2
  ENCAP_MODE_TRANSPORT := 1
  ENCAP_MODE_UNSET := 0
  IPSEC_MANUAL_REQID_MAX := 16383
  DPD_ACTION_UNSET := 0
  CA_SEND_NONE := 0
  HAVE_NM := true
  string_offset := 2048
  string_size := 4096
  sizeof_whack_message := 6144
  string_inside := by decide

/-- What the code prints or logs outside the reply reader. -/
inductive Note where
  | addr_not_set (lr : String)
  | nexthop_case (lr : String)
  | reqid_ignored
  | cannot_pack (ugh : String)
  | socket_failed
  | connect_failed
  | write_failed
  | key_malformed (lr : String) (err : String)
  | debug (name : String) (value : String)
  deriving DecidableEq, Repr

/-- How a function of the upper layer ends: it returns a value, the process
exits (`exit` in the reply reader), or an assertion aborts it (`passert`,
`bad_case`). -/
inductive Ret (α : Type) where
  | val (a : α)
  | exit (status : Int)
  | abort
  deriving DecidableEq, Repr

/-- The all-zero `struct whack_end` of `empty_whack_message`. -/
def whack_end.zero : whack_end :=
  { leftright := none, id := none, host_type := keyword_host.KH_NOTSET,
    host_addr := unset_address, host_addr_name := none, host_nexthop := unset_address,
    sourceip := none,
    host_vtiip := { is_set := false, ip_version := 0, bytes := [], bits := 0 },
    ifaceip := { is_set := false, ip_version := 0, bytes := [], bits := 0 },
    subnet := none, subnets := none, host_ikeport := 0, protoport := 0, cert := none,
    ckaid := none, pubkey_alg := ipseckey_algorithm.ALG_UNSET, pubkey := none, ca := none,
    sendcert := 0, auth := 0, eap := 0, updown := none, virt := none,
    key_from_DNS_on_demand := false, xauth_server := 0, xauth_client := 0,
    xauth_username := none, groundhog := none, modecfg_server := 0, modecfg_client := 0,
    cat := 0, addresspool := none }

/-- The first `switch` of `set_whack_end`: the host address for the address
type, or `none` for the `default:` branch, which prints and returns false. -/
def host_addr_for (l : starter_end) : Option ip_address :=
  match l.addrtype with
  | keyword_host.KH_IPADDR => some l.addr
  | keyword_host.KH_IFACE => some l.addr
  | keyword_host.KH_DEFAULTROUTE => some unset_address
  | keyword_host.KH_IPHOSTNAME => some unset_address
  | keyword_host.KH_OPPO => some unset_address
  | keyword_host.KH_GROUP => some unset_address
  | keyword_host.KH_OPPOGROUP => some unset_address
  | keyword_host.KH_ANY => some unset_address
  | _ => none

/-- The second `switch` of `set_whack_end`: the next hop for the next-hop
type (`none`: the `default:` branch prints and leaves the field alone). -/
def nexthop_for (l : starter_end) : Option ip_address :=
  match l.nexttype with
  | keyword_host.KH_IPADDR => some l.nexthop
  | keyword_host.KH_DEFAULTROUTE => some l.host_family.address_unspec
  | keyword_host.KH_NOTSET => some l.host_family.address_unspec
  | _ => none

/-- `set_whack_end(w, l)`: the returned `bool` and the contents of `*w`
afterwards, or `abort` when a `passert` fails. -/
def set_whack_end (D : Decls) (w : whack_end) (l : starter_end) :
    Ret (Bool × whack_end) × List Note :=
  let w1 : whack_end :=
    { w with leftright := some l.leftright, id := l.id, host_type := l.addrtype }
  match host_addr_for l with
  | none => (Ret.val (false, w1), [Note.addr_not_set l.leftright])
  | some a =>
    let w2 : whack_end := { w1 with host_addr := a, host_addr_name := l.strings KSCF.IP }
    let w3 : whack_end :=
      match nexthop_for l with
      | some h => { w2 with host_nexthop := h }
      | none => w2
    let n3 : List Note :=
      match nexthop_for l with
      | some _ => []
      | none => [Note.nexthop_case l.leftright]
    let w4 : whack_end :=
      { w3 with
        sourceip := l.sourceip
        host_vtiip := if cidr_is_specified l.vti_ip then l.vti_ip else w3.host_vtiip
        ifaceip := if cidr_is_specified l.ifaceip then l.ifaceip else w3.ifaceip
        subnet := l.subnet
        subnets := if l.strings KSCF.SUBNETS ≠ none then l.strings KSCF.SUBNETS else w3.subnets
        host_ikeport := l.options KNCF.IKEPORT
        protoport := l.protoport
        cert := if l.certx ≠ none then l.certx else w3.cert
        ckaid := if l.ckaid ≠ none then l.ckaid else w3.ckaid }
    if l.pubkey_type = keyword_pubkey.PUBKEY_PREEXCHANGED ∧
        (l.pubkey = none ∨ l.pubkey_alg = ipseckey_algorithm.ALG_UNSET) then
      (Ret.abort, n3)
    else
      let w5 : whack_end :=
        if l.pubkey_type = keyword_pubkey.PUBKEY_PREEXCHANGED then
          { w4 with pubkey_alg := l.pubkey_alg, pubkey := l.pubkey }
        else w4
      let w6 : whack_end :=
        { w5 with
          ca := l.ca
          sendcert :=
            if l.options_set KNCF.SENDCERT then l.options KNCF.SENDCERT else D.CERT_ALWAYSSEND
          auth := if l.options_set KNCF.AUTH then l.options KNCF.AUTH else w5.auth
          eap := if l.options_set KNCF.EAP then l.options KNCF.EAP else D.IKE_EAP_NONE
          updown := l.updown
          virt := l.virt
          key_from_DNS_on_demand := l.key_from_DNS_on_demand
          xauth_server :=
            if l.options_set KNCF.XAUTHSERVER then l.options KNCF.XAUTHSERVER
            else w5.xauth_server
          xauth_client :=
            if l.options_set KNCF.XAUTHCLIENT then l.options KNCF.XAUTHCLIENT
            else w5.xauth_client
          xauth_username :=
            if l.strings_set KSCF.USERNAME then l.strings KSCF.USERNAME else w5.xauth_username
          groundhog :=
            if l.strings_set KSCF.GROUNDHOG then l.strings KSCF.GROUNDHOG else w5.groundhog
          modecfg_server :=
            if l.options_set KNCF.MODECONFIGSERVER then l.options KNCF.MODECONFIGSERVER
            else w5.modecfg_server
          modecfg_client :=
            if l.options_set KNCF.MODECONFIGCLIENT then l.options KNCF.MODECONFIGCLIENT
            else w5.modecfg_client
          cat := if l.options_set KNCF.CAT then l.options KNCF.CAT else w5.cat
          addresspool := l.addresspool }
      (Ret.val (true, w6), n3)

/-- A sample endpoint: an explicit address, no key. -/
def sampleEnd : starter_end :=
  { leftright := "left", id := some "@west", addrtype := keyword_host.KH_IPADDR,
    nexttype := keyword_host.KH_NOTSET,
    addr := { is_set := true, ip_version := 4, bytes := [192, 0, 2, 1] },
    nexthop := unset_address,
    host_family :=
      { af := 2, address_unspec := { is_set := true, ip_version := 4, bytes := [0, 0, 0, 0] } },
    sourceip := none,
    vti_ip := { is_set := false, ip_version := 0, bytes := [], bits := 0 },
    ifaceip := { is_set := false, ip_version := 0, bytes := [], bits := 0 },
    subnet := none, protoport := 0, certx := none, ckaid := none, ca := none, updown := none,
    virt := none, addresspool := none, pubkey_type := keyword_pubkey.PUBKEY_NOTSET,
    pubkey := none, pubkey_alg := ipseckey_algorithm.ALG_UNSET,
    key_from_DNS_on_demand := false, options := fun _ => 0, options_set := fun _ => false,
    strings := fun _ => none, strings_set := fun _ => false }

/-- A `whack_end` that still holds an address from an earlier use. -/
def staleWhackEnd : whack_end :=
  { whack_end.zero with host_addr := { is_set := true, ip_version := 4, bytes := [10, 9, 8, 7] } }

/-- A connection as read from the configuration (`struct starter_conn`),
with the fields this file reads. -/
structure starter_conn where
  name : String
  id : Int
  left : starter_end
  right : starter_end
  clientaddrfamily : Option ip_info
  options : KNCF → Nat
  options_set : KNCF → Bool
  strings : KSCF → Option String
  strings_set : KSCF → Bool
  ike_version : Nat
  authby : Nat
  sighash_policy : Nat
  never_negotiate_shunt : Nat
  negotiation_shunt : Nat
  failure_shunt : Nat
  autostart : Nat
  connalias : Option String
  dpd_delay : Nat
  dpd_timeout : Nat
  sec_label : Option String
  modecfg_dns : Option String
  modecfg_domains : Option String
  modecfg_banner : Option String
  conn_mark_both : Option String
  conn_mark_in : Option String
  conn_mark_out : Option String
  ppk_ids : Option String
  esp : Option String
  ike_crypto : Option String

/-- The `keyingtries` member of the message. -/
structure keyingtries_t where
  set : Bool
  value : Nat
  deriving DecidableEq, Repr

/-- The message sent to pluto (`struct whack_message`), with the fields this
file writes. A `deltatime_t` field is `none` while zero and `some ms` after
`deltatime_ms(ms)`. -/
structure whack_message where
  magic : Nat
  whack_key : Bool
  whack_addconn : Bool
  whack_route : Bool
  whack_initiate : Bool
  whack_async : Bool
  whack_listen : Bool
  pubkey_alg : ipseckey_algorithm
  keyid : Option String
  keyval : List Nat
  name : Option String
  host_afi : Option ip_info
  child_afi : Option ip_info
  dnshostname : Option String
  nic_offload : Nat
  ikelifetime : Option Nat
  ipsec_lifetime : Option Nat
  sa_rekey_margin : Option Nat
  sa_ipsec_max_bytes : Nat
  sa_ipsec_max_packets : Nat
  sa_rekeyfuzz_percent : Nat
  keyingtries : keyingtries_t
  replay_window : Nat
  ipsec_interface : Option String
  retransmit_interval : Option Nat
  retransmit_timeout : Option Nat
  ike_version : Nat
  ikev2 : Nat
  pfs : Nat
  compress : Nat
  encap_mode : Nat
  phase2 : Nat
  authby : Nat
  sighash_policy : Nat
  never_negotiate_shunt : Nat
  negotiation_shunt : Nat
  failure_shunt : Nat
  autostart : Nat
  connalias : Option String
  metric : Nat
  ikev2_allow_narrowing : Nat
  rekey : Nat
  reauth : Nat
  mtu : Nat
  priority : Nat
  tfc : Nat
  send_no_esp_tfc : Nat
  nflog_group : Nat
  sa_reqid : Nat
  tcp_remoteport : Nat
  enable_tcp : Nat
  dpd_action : Nat
  dpd_delay : Nat
  dpd_timeout : Nat
  send_ca : Nat
  encapsulation : Nat
  nat_keepalive : Nat
  nat_ikev1_method : Nat
  send_vendorid : Nat
  initial_contact : Nat
  cisco_unity : Nat
  fake_strongswan : Nat
  remote_peer_type : Nat
  nm_configured : Nat
  sec_label : Option String
  conn_debug : Nat
  modecfg_dns : Option String
  modecfg_domains : Option String
  modecfg_banner : Option String
  conn_mark_both : Option String
  conn_mark_in : Option String
  conn_mark_out : Option String
  vti_interface : Option String
  vti_routing : Nat
  vti_shared : Nat
  ppk_ids : Option String
  redirect_to : Option String
  accept_redirect_to : Option String
  send_redirect : Nat
  mobike : Nat
  intermediate : Nat
  sha2_truncbug : Nat
  overlapip : Nat
  ms_dh_downgrade : Nat
  pfs_rekey_workaround : Nat
  dns_match_id : Nat
  pam_authorize : Nat
  ignore_peer_dns : Nat
  ikepad : Nat
  require_id_on_certificate : Nat
  modecfgpull : Nat
  aggressive : Nat
  iptfs : Nat
  iptfs_dont_frag : Nat
  iptfs_pkt_size : Nat
  iptfs_max_qsize : Nat
  iptfs_in_delay : Nat
  decap_dscp : Nat
  encap_dscp : Nat
  nopmtudisc : Nat
  accept_redirect : Nat
  fragmentation : Nat
  esn : Nat
  ppk : Nat
  xauthby : Nat
  xauthfail : Nat
  left : whack_end
  right : whack_end
  esp : Option String
  ike : Option String

/-- `empty_whack_message`: `.magic = WHACK_MAGIC`, everything else zero. -/
def empty_whack_message (D : Decls) : whack_message :=
  { magic := D.WHACK_MAGIC, whack_key := false, whack_addconn := false, whack_route := false,
    whack_initiate := false, whack_async := false, whack_listen := false,
    pubkey_alg := ipseckey_algorithm.ALG_UNSET, keyid := none, keyval := [], name := none,
    host_afi := none, child_afi := none, dnshostname := none, nic_offload := 0,
    ikelifetime := none, ipsec_lifetime := none, sa_rekey_margin := none,
    sa_ipsec_max_bytes := 0, sa_ipsec_max_packets := 0, sa_rekeyfuzz_percent := 0,
    keyingtries := { set := false, value := 0 }, replay_window := 0, ipsec_interface := none,
    retransmit_interval := none, retransmit_timeout := none, ike_version := 0, ikev2 := 0,
    pfs := 0, compress := 0, encap_mode := 0, phase2 := 0, authby := 0, sighash_policy := 0,
    never_negotiate_shunt := 0, negotiation_shunt := 0, failure_shunt := 0, autostart := 0,
    connalias := none, metric := 0, ikev2_allow_narrowing := 0, rekey := 0, reauth := 0,
    mtu := 0, priority := 0, tfc := 0, send_no_esp_tfc := 0, nflog_group := 0, sa_reqid := 0,
    tcp_remoteport := 0, enable_tcp := 0, dpd_action := 0, dpd_delay := 0, dpd_timeout := 0,
    send_ca := 0, encapsulation := 0, nat_keepalive := 0, nat_ikev1_method := 0,
    send_vendorid := 0, initial_contact := 0, cisco_unity := 0, fake_strongswan := 0,
    remote_peer_type := 0, nm_configured := 0, sec_label := none, conn_debug := 0,
    modecfg_dns := none, modecfg_domains := none, modecfg_banner := none,
    conn_mark_both := none, conn_mark_in := none, conn_mark_out := none,
    vti_interface := none, vti_routing := 0, vti_shared := 0, ppk_ids := none,
    redirect_to := none, accept_redirect_to := none, send_redirect := 0, mobike := 0,
    intermediate := 0, sha2_truncbug := 0, overlapip := 0, ms_dh_downgrade := 0,
    pfs_rekey_workaround := 0, dns_match_id := 0, pam_authorize := 0, ignore_peer_dns := 0,
    ikepad := 0, require_id_on_certificate := 0, modecfgpull := 0, aggressive := 0, iptfs := 0,
    iptfs_dont_frag := 0, iptfs_pkt_size := 0, iptfs_max_qsize := 0, iptfs_in_delay := 0,
    decap_dscp := 0, encap_dscp := 0, nopmtudisc := 0, accept_redirect := 0,
    fragmentation := 0, esn := 0, ppk := 0, xauthby := 0, xauthfail := 0,
    left := whack_end.zero, right := whack_end.zero, esp := none, ike := none }

/-- `connection_name(conn)`: `conn_<id>` for the name `%auto`, else the
name. -/
def connection_name (conn : starter_conn) : String :=
  if conn.name = "%auto" then "conn_" ++ toString conn.id else conn.name

/-- `conn_log_val(conn, name, value)`: a debug log entry unless the value is
`NULL`. -/
def conn_log_val (name : String) (value : Option String) : List Note :=
  match value with
  | some v => [Note.debug name v]
  | none => []

/-! ## One transaction: `send_whack_msg` -/

/-- What happens on the socket and around it during one transaction. -/
inductive SysEvent where
  | pack
  | socket
  | connect
  | write (len : Int)
  | close
  | reply (e : Event)
  | note (n : Note)
  deriving DecidableEq, Repr

/-- The collaborators of one call of `send_whack_msg`:
* `pack_whack_msg msg str_next str_roof`: the `err_t` that `pack_whack_msg`
  returns (`none` is `NULL`) and `wp.str_next` afterwards; pointers into the
  message are byte offsets from its start;
* the values returned by `cloexec_socket`, `connect` and the `write` of the
  request;
* the reply script of the daemon and the oracles of the reply reader;
* the initial contents of the two stack arrays handed to the reply reader. -/
structure TxnEnv where
  pack_whack_msg : whack_message → Nat → Nat → Option String × Int
  cloexec_socket : Int
  connect : Int
  write : Int
  reply : List ReadEv
  env : Env
  xauthusername : List Nat
  xauthpass : List Nat

/-- `send_whack_msg(msg, ctlsocket, logger)`. -/
def send_whack_msg (c : Consts) (D : Decls) (t : TxnEnv) (msg : whack_message) :
    Option (Ret Int × List SysEvent) :=
  let p := t.pack_whack_msg msg D.string_offset (D.string_offset + D.string_size)
  match p.1 with
  | some ugh => some (Ret.val (-1), [SysEvent.pack, SysEvent.note (Note.cannot_pack ugh)])
  | none =>
    let len : Int := p.2
    if t.cloexec_socket < 0 then
      some (Ret.val (-1), [SysEvent.pack, SysEvent.socket, SysEvent.note Note.socket_failed])
    else if t.connect < 0 then
      some (Ret.val (-1),
        [SysEvent.pack, SysEvent.socket, SysEvent.connect, SysEvent.note Note.connect_failed,
          SysEvent.close])
    else if t.write ≠ len then
      some (Ret.val (-1),
        [SysEvent.pack, SysEvent.socket, SysEvent.connect, SysEvent.write len,
          SysEvent.note Note.write_failed, SysEvent.close])
    else
      match starter_whack_read_reply c t.env t.reply t.xauthusername t.xauthpass 0 0 with
      | none => none
      | some (Outcome.returned r, evs) =>
        some (Ret.val r,
          [SysEvent.pack, SysEvent.socket, SysEvent.connect, SysEvent.write len] ++
            evs.map SysEvent.reply ++ [SysEvent.close])
      | some (Outcome.exited r, evs) =>
        some (Ret.exit r,
          [SysEvent.pack, SysEvent.socket, SysEvent.connect, SysEvent.write len] ++
            evs.map SysEvent.reply)

/-- A transaction environment in which everything works: packing uses 100
bytes of the pool, and the daemon answers with the given script. -/
def okTxn (reply : List ReadEv) : TxnEnv where
  pack_whack_msg := fun _ str_next _ => (none, (str_next : Int) + 100)
  cloexec_socket := 3
  connect := 0
  write := 2148
  reply := reply
  env := answerEnv
  xauthusername := []
  xauthpass := []

/-! ## Adding a connection: `starter_whack_add_pubkey`, `starter_whack_add_conn` -/

/-- Which of the up to three transactions of `starter_whack_add_conn`. -/
inductive Role where
  | main | left | right
  deriving DecidableEq, Repr

/-- What `starter_whack_add_conn` does, in program order: notes of its own,
and the events of its transactions. -/
inductive ConnEvent where
  | note (n : Note)
  | txn (r : Role) (e : SysEvent)
  deriving DecidableEq, Repr

/-- The collaborators of one call of `starter_whack_add_conn`: one
transaction environment for the connection itself and one for the key of each
end, and `ttochunk(shunk1(text), base, &chunk)` of `ttodata.h` (an error
message or the decoded bytes). -/
structure World where
  main : TxnEnv
  left : TxnEnv
  right : TxnEnv
  ttochunk : String → Nat → Except String (List Nat)

/-- The `switch (end->pubkey_alg)` of `starter_whack_add_pubkey`: the base
for `ttochunk`, or `none` for `bad_case`. -/
def pubkey_base (alg : ipseckey_algorithm) : Option Nat :=
  match alg with
  | ipseckey_algorithm.IPSECKEY_ALGORITHM_RSA => some 0
  | ipseckey_algorithm.IPSECKEY_ALGORITHM_ECDSA => some 0
  | ipseckey_algorithm.IPSECKEY_ALGORITHM_X_PUBKEY => some 64
  | _ => none

/-- `starter_whack_add_pubkey(cfg, conn, end, logger)`; `t` is the
environment of the transaction it may perform and `role` tags its events. -/
def starter_whack_add_pubkey (c : Consts) (D : Decls) (t : TxnEnv)
    (ttochunk : String → Nat → Except String (List Nat)) (role : Role)
    (conn : starter_conn) (e : starter_end) : Option (Ret Int × List ConnEvent) :=
  let msg0 : whack_message :=
    { empty_whack_message D with whack_key := true, pubkey_alg := e.pubkey_alg }
  match e.id, e.pubkey with
  | some _, some key =>
    let msg1 : whack_message := { msg0 with keyid := e.id }
    match e.pubkey_type with
    | keyword_pubkey.PUBKEY_DNSONDEMAND =>
      some (Ret.val 0,
        [ConnEvent.note (Note.debug (connection_name conn ++ "/" ++ e.leftright) "key from DNS")])
    | keyword_pubkey.PUBKEY_CERTIFICATE =>
      some (Ret.val 0,
        [ConnEvent.note
          (Note.debug (connection_name conn ++ "/" ++ e.leftright) "key from certificate")])
    | keyword_pubkey.PUBKEY_NOTSET => some (Ret.val 0, [])
    | keyword_pubkey.PUBKEY_PREEXCHANGED =>
      match pubkey_base e.pubkey_alg with
      | none => some (Ret.abort, [])
      | some base =>
        match ttochunk key base with
        | Except.error err =>
          some (Ret.val 1, [ConnEvent.note (Note.key_malformed e.leftright err)])
        | Except.ok keyspace =>
          let sending := ConnEvent.note (Note.debug (connection_name conn ++ " " ++ e.leftright) key)
          match send_whack_msg c D t { msg1 with keyval := keyspace } with
          | none => none
          | some (Ret.val ret, evs) =>
            some (Ret.val (if ret < 0 then ret else 0), sending :: evs.map (ConnEvent.txn role))
          | some (Ret.exit s, evs) => some (Ret.exit s, sending :: evs.map (ConnEvent.txn role))
          | some (Ret.abort, evs) => some (Ret.abort, sending :: evs.map (ConnEvent.txn role))
  | _, _ => some (Ret.val 0, [])

/-- The message fields `starter_whack_add_conn` sets before it turns to the
two ends, with the notes logged on the way. -/
def add_conn_fields (D : Decls) (conn : starter_conn) : whack_message × List Note :=
  let E := empty_whack_message D
  let o := conn.options
  let os := conn.options_set
  let reqid_bad : Bool := o KNCF.REQID = 0 || decide (o KNCF.REQID > D.IPSEC_MANUAL_REQID_MAX)
  let m1 : whack_message :=
    { E with
      whack_addconn := true
      name := some (connection_name conn)
      host_afi := some conn.left.host_family
      child_afi := conn.clientaddrfamily
      dnshostname :=
        if conn.right.addrtype = keyword_host.KH_IPHOSTNAME then conn.right.strings KSCF.IP
        else E.dnshostname
      nic_offload := o KNCF.NIC_OFFLOAD
      ikelifetime :=
        if os KNCF.IKELIFETIME_MS then some (o KNCF.IKELIFETIME_MS) else E.ikelifetime
      ipsec_lifetime :=
        if os KNCF.IPSEC_LIFETIME_MS then some (o KNCF.IPSEC_LIFETIME_MS)
        else E.ipsec_lifetime
      sa_rekey_margin := some (o KNCF.REKEYMARGIN_MS)
      sa_ipsec_max_bytes := o KNCF.IPSEC_MAXBYTES
      sa_ipsec_max_packets := o KNCF.IPSEC_MAXPACKETS
      sa_rekeyfuzz_percent := o KNCF.REKEYFUZZ
      keyingtries :=
        if os KNCF.KEYINGTRIES then { set := true, value := o KNCF.KEYINGTRIES }
        else E.keyingtries
      replay_window := o KNCF.REPLAY_WINDOW
      ipsec_interface := conn.strings KSCF.IPSEC_INTERFACE
      retransmit_interval := some (o KNCF.RETRANSMIT_INTERVAL_MS)
      retransmit_timeout := some (o KNCF.RETRANSMIT_TIMEOUT_MS)
      ike_version := conn.ike_version
      ikev2 := o KNCF.IKEv2
      pfs := o KNCF.PFS
      compress := o KNCF.COMPRESS
      encap_mode :=
        if o KNCF.TYPE = D.KS_TUNNEL then D.ENCAP_MODE_TUNNEL
        else if o KNCF.TYPE = D.KS_TRANSPORT then D.ENCAP_MODE_TRANSPORT
        else D.ENCAP_MODE_UNSET
      phase2 := o KNCF.PHASE2
      authby := conn.authby
      sighash_policy := conn.sighash_policy
      never_negotiate_shunt := conn.never_negotiate_shunt
      negotiation_shunt := conn.negotiation_shunt
      failure_shunt := conn.failure_shunt
      autostart := conn.autostart
      connalias := conn.connalias
      metric := o KNCF.METRIC
      ikev2_allow_narrowing := o KNCF.IKEv2_ALLOW_NARROWING
      rekey := o KNCF.REKEY
      reauth := o KNCF.REAUTH
      mtu := if os KNCF.MTU then o KNCF.MTU else E.mtu
      priority := if os KNCF.PRIORITY then o KNCF.PRIORITY else E.priority
      tfc := if os KNCF.TFC then o KNCF.TFC else E.tfc
      send_no_esp_tfc := if os KNCF.NO_ESP_TFC then o KNCF.NO_ESP_TFC else E.send_no_esp_tfc
      nflog_group := if os KNCF.NFLOG_CONN then o KNCF.NFLOG_CONN else E.nflog_group
      sa_reqid := if os KNCF.REQID && !reqid_bad then o KNCF.REQID else E.sa_reqid
      tcp_remoteport :=
        if os KNCF.TCP_REMOTEPORT then o KNCF.TCP_REMOTEPORT else E.tcp_remoteport
      enable_tcp := if os KNCF.ENABLE_TCP then o KNCF.ENABLE_TCP else E.enable_tcp
      dpd_action := if os KNCF.DPDACTION then o KNCF.DPDACTION else D.DPD_ACTION_UNSET
      dpd_delay := conn.dpd_delay
      dpd_timeout := conn.dpd_timeout
      send_ca := if os KNCF.SEND_CA then o KNCF.SEND_CA else D.CA_SEND_NONE
      encapsulation := o KNCF.ENCAPSULATION
      nat_keepalive := if os KNCF.NAT_KEEPALIVE then o KNCF.NAT_KEEPALIVE else 1
      nat_ikev1_method := o KNCF.NAT_IKEv1_METHOD
      send_vendorid := if os KNCF.SEND_VENDORID then o KNCF.SEND_VENDORID else E.send_vendorid
      initial_contact :=
        if os KNCF.INITIAL_CONTACT then o KNCF.INITIAL_CONTACT else E.initial_contact
      cisco_unity := if os KNCF.CISCO_UNITY then o KNCF.CISCO_UNITY else E.cisco_unity
      fake_strongswan :=
        if os KNCF.VID_STRONGSWAN then o KNCF.VID_STRONGSWAN else E.fake_strongswan
      remote_peer_type := o KNCF.REMOTE_PEER_TYPE
      nm_configured := if D.HAVE_NM then o KNCF.NM_CONFIGURED else E.nm_configured
      sec_label := if conn.strings_set KSCF.SEC_LABEL then conn.sec_label else E.sec_label
      conn_debug := o KNCF.DEBUG
      modecfg_dns := conn.modecfg_dns
      modecfg_domains := conn.modecfg_domains
      modecfg_banner := conn.modecfg_banner
      conn_mark_both := conn.conn_mark_both
      conn_mark_in := conn.conn_mark_in
      conn_mark_out := conn.conn_mark_out
      vti_interface := conn.strings KSCF.VTI_INTERFACE
      vti_routing := o KNCF.VTI_ROUTING
      vti_shared := o KNCF.VTI_SHARED
      ppk_ids := conn.ppk_ids
      redirect_to := conn.strings KSCF.REDIRECT_TO
      accept_redirect_to := conn.strings KSCF.ACCEPT_REDIRECT_TO
      send_redirect := o KNCF.SEND_REDIRECT
      mobike := o KNCF.MOBIKE
      intermediate := o KNCF.INTERMEDIATE
      sha2_truncbug := o KNCF.SHA2_TRUNCBUG
      overlapip := o KNCF.OVERLAPIP
      ms_dh_downgrade := o KNCF.MS_DH_DOWNGRADE
      pfs_rekey_workaround := o KNCF.PFS_REKEY_WORKAROUND
      dns_match_id := o KNCF.DNS_MATCH_ID
      pam_authorize := o KNCF.PAM_AUTHORIZE
      ignore_peer_dns := o KNCF.IGNORE_PEER_DNS
      ikepad := o KNCF.IKEPAD
      require_id_on_certificate := o KNCF.REQUIRE_ID_ON_CERTIFICATE
      modecfgpull := o KNCF.MODECFGPULL
      aggressive := o KNCF.AGGRESSIVE
      iptfs := o KNCF.IPTFS
      iptfs_dont_frag := o KNCF.IPTFS_DONT_FRAG
      iptfs_pkt_size := if os KNCF.IPTFS_PKT_SIZE then o KNCF.IPTFS_PKT_SIZE else E.iptfs_pkt_size
      iptfs_max_qsize :=
        if os KNCF.IPTFS_MAX_QUEUE then o KNCF.IPTFS_MAX_QUEUE else E.iptfs_max_qsize }
  let m2 : whack_message :=
    { m1 with
      iptfs_in_delay := if os KNCF.IPTFS_IN_DELAY then o KNCF.IPTFS_IN_DELAY else m1.iptfs_in_delay }
  let m3 : whack_message :=
    { m2 with
      iptfs_in_delay :=
        if os KNCF.IPTFS_REORD_WIN then o KNCF.IPTFS_REORD_WIN else m2.iptfs_in_delay }
  let m4 : whack_message :=
    { m3 with
      iptfs_in_delay :=
        if os KNCF.IPTFS_DROP_TIME then o KNCF.IPTFS_DROP_TIME else m3.iptfs_in_delay }
  let m5 : whack_message :=
    { m4 with
      decap_dscp := o KNCF.DECAP_DSCP
      encap_dscp := o KNCF.ENCAP_DSCP
      nopmtudisc := o KNCF.NOPMTUDISC
      accept_redirect := o KNCF.ACCEPT_REDIRECT
      fragmentation := o KNCF.FRAGMENTATION
      esn := o KNCF.ESN
      ppk := o KNCF.PPK
      xauthby := if os KNCF.XAUTHBY then o KNCF.XAUTHBY else m4.xauthby
      xauthfail := if os KNCF.XAUTHFAIL then o KNCF.XAUTHFAIL else m4.xauthfail }
  (m5,
    (if os KNCF.REQID && reqid_bad then [Note.reqid_ignored] else []) ++
    (if conn.strings_set KSCF.SEC_LABEL then
      [Note.debug "sec_label" (conn.sec_label.getD "(null)")] else []) ++
    conn_log_val "modecfgdns" m5.modecfg_dns ++
    conn_log_val "modecfgdomains" m5.modecfg_domains ++
    conn_log_val "modecfgbanner" m5.modecfg_banner ++
    conn_log_val "mark" m5.conn_mark_both ++
    conn_log_val "mark-in" m5.conn_mark_in ++
    conn_log_val "mark-out" m5.conn_mark_out ++
    conn_log_val "vti-interface" m5.vti_interface ++
    conn_log_val "ppk-ids" m5.ppk_ids ++
    conn_log_val "redirect-to" m5.redirect_to ++
    conn_log_val "accept-redirect-to" m5.accept_redirect_to)

/-- The part of `starter_whack_add_conn` after the main transaction has
returned 0: the key of the left end, then the key of the right end. -/
def add_conn_keys (c : Consts) (D : Decls) (W : World) (conn : starter_conn) :
    Option (Ret Int × List ConnEvent) :=
  let leftPart : Option (Ret Int × List ConnEvent) :=
    if conn.left.pubkey ≠ none then
      starter_whack_add_pubkey c D W.left W.ttochunk Role.left conn conn.left
    else some (Ret.val 0, [])
  match leftPart with
  | none => none
  | some (Ret.val r, evs) =>
    if r ≠ 0 then some (Ret.val r, evs)
    else if conn.right.pubkey ≠ none then
      match starter_whack_add_pubkey c D W.right W.ttochunk Role.right conn conn.right with
      | none => none
      | some (Ret.val r2, evs2) =>
        some (Ret.val (if r2 ≠ 0 then r2 else 0), evs ++ evs2)
      | some (Ret.exit s, evs2) => some (Ret.exit s, evs ++ evs2)
      | some (Ret.abort, evs2) => some (Ret.abort, evs ++ evs2)
    else some (Ret.val 0, evs)
  | some (Ret.exit s, evs) => some (Ret.exit s, evs)
  | some (Ret.abort, evs) => some (Ret.abort, evs)

/-- `starter_whack_add_conn(cfg, conn, logger)`. -/
def starter_whack_add_conn (c : Consts) (D : Decls) (W : World) (conn : starter_conn) :
    Option (Ret Int × List ConnEvent) :=
  let f := add_conn_fields D conn
  match set_whack_end D f.1.left conn.left with
  | (Ret.abort, n1) => some (Ret.abort, (f.2 ++ n1).map ConnEvent.note)
  | (Ret.exit s, n1) => some (Ret.exit s, (f.2 ++ n1).map ConnEvent.note)
  | (Ret.val (false, _), n1) => some (Ret.val (-1), (f.2 ++ n1).map ConnEvent.note)
  | (Ret.val (true, wl), n1) =>
    match set_whack_end D f.1.right conn.right with
    | (Ret.abort, n2) => some (Ret.abort, (f.2 ++ n1 ++ n2).map ConnEvent.note)
    | (Ret.exit s, n2) => some (Ret.exit s, (f.2 ++ n1 ++ n2).map ConnEvent.note)
    | (Ret.val (false, _), n2) => some (Ret.val (-1), (f.2 ++ n1 ++ n2).map ConnEvent.note)
    | (Ret.val (true, wr), n2) =>
      let msg : whack_message :=
        { f.1 with left := wl, right := wr, esp := conn.esp, ike := conn.ike_crypto }
      let notes :=
        (f.2 ++ n1 ++ n2 ++ conn_log_val "esp" msg.esp ++ conn_log_val "ike" msg.ike).map
          ConnEvent.note
      match send_whack_msg c D W.main msg with
      | none => none
      | some (Ret.exit s, evs) => some (Ret.exit s, notes ++ evs.map (ConnEvent.txn Role.main))
      | some (Ret.abort, evs) => some (Ret.abort, notes ++ evs.map (ConnEvent.txn Role.main))
      | some (Ret.val r, evs) =>
        if r ≠ 0 then some (Ret.val r, notes ++ evs.map (ConnEvent.txn Role.main))
        else
          match add_conn_keys c D W conn with
          | none => none
          | some (res, kevs) => some (res, notes ++ evs.map (ConnEvent.txn Role.main) ++ kevs)

/-- The number of transactions started (calls of `send_whack_msg`, each of
which begins with `pack_whack_msg`). -/
def transactions (evs : List ConnEvent) : Nat :=
  (evs.filter (fun e => match e with
    | ConnEvent.txn _ SysEvent.pack => true
    | _ => false)).length

/-- The events of one role. -/
def eventsOf (r : Role) (evs : List ConnEvent) : List ConnEvent :=
  evs.filter (fun e => match e with
    | ConnEvent.txn r1 _ => decide (r1 = r)
    | _ => false)

/-- The request writes among the events of a transaction. -/
def requestWrites : List SysEvent → List SysEvent
  | [] => []
  | SysEvent.write len :: es => SysEvent.write len :: requestWrites es
  | _ :: es => requestWrites es

/-- A sample connection: two ends with explicit addresses and no keys. -/
def sampleConn : starter_conn :=
  { name := "west-east", id := 1, left := sampleEnd,
    right := { sampleEnd with leftright := "right", id := some "@east" },
    clientaddrfamily := none, options := fun _ => 0, options_set := fun _ => false,
    strings := fun _ => none, strings_set := fun _ => false, ike_version := 2, authby := 0,
    sighash_policy := 0, never_negotiate_shunt := 0, negotiation_shunt := 0,
    failure_shunt := 0, autostart := 0, connalias := none, dpd_delay := 0, dpd_timeout := 0,
    sec_label := none, modecfg_dns := none, modecfg_domains := none, modecfg_banner := none,
    conn_mark_both := none, conn_mark_in := none, conn_mark_out := none, ppk_ids := none,
    esp := none, ike_crypto := none }

/-- The sample end with a pre-exchanged RSA key. -/
def keyedEnd (lr : String) : starter_end :=
  { sampleEnd with
    leftright := lr
    pubkey_type := keyword_pubkey.PUBKEY_PREEXCHANGED
    pubkey := some "0sAQAB"
    pubkey_alg := ipseckey_algorithm.IPSECKEY_ALGORITHM_RSA }

/-- The sample connection with a pre-exchanged key on both ends. -/
def keyedConn : starter_conn :=
  { sampleConn with left := keyedEnd "left", right := keyedEnd "right" }

/-- A world in which every transaction is answered by the given scripts. -/
def sampleWorld (main left right : List ReadEv) : World where
  main := okTxn main
  left := okTxn left
  right := okTxn right
  ttochunk := fun _ _ => Except.ok [1, 0, 1]

/-- A transaction environment with the given results of packing, socket
creation and connect. -/
def earlyTxn (ugh : Option String) (sock conn : Int) : TxnEnv where
  pack_whack_msg := fun _ str_next _ => (ugh, (str_next : Int) + 100)
  cloexec_socket := sock
  connect := conn
  write := 2148
  reply := []
  env := answerEnv
  xauthusername := []
  xauthpass := []

/-- The message of the key transaction of an end, when
`starter_whack_add_pubkey` performs one: the end has an id and a
pre-exchanged key of a known algorithm that `ttochunk` decodes. -/
def followup_message (D : Decls) (ttochunk : String → Nat → Except String (List Nat))
    (e : starter_end) : Option whack_message :=
  match e.id, e.pubkey with
  | some _, some key =>
    match e.pubkey_type with
    | keyword_pubkey.PUBKEY_PREEXCHANGED =>
      match pubkey_base e.pubkey_alg with
      | none => none
      | some base =>
        match ttochunk key base with
        | Except.error _ => none
        | Except.ok keyspace =>
          some { ({ ({ empty_whack_message D with
                        whack_key := true, pubkey_alg := e.pubkey_alg } : whack_message) with
                    keyid := e.id } : whack_message) with keyval := keyspace }
    | _ => none
  | _, _ => none

/-- The message of the main transaction of `starter_whack_add_conn`, when
both calls of `set_whack_end` return true. -/
def main_message (D : Decls) (conn : starter_conn) : Option whack_message :=
  match set_whack_end D (add_conn_fields D conn).1.left conn.left,
      set_whack_end D (add_conn_fields D conn).1.right conn.right with
  | (Ret.val (true, wl), _), (Ret.val (true, wr), _) =>
    some { (add_conn_fields D conn).1 with
            left := wl, right := wr, esp := conn.esp, ike := conn.ike_crypto }
  | _, _ => none

/-- The sample world with a control socket that refuses the connection of
the left end's key transaction. -/
def leftDownWorld : World where
  main := okTxn []
  left := earlyTxn none 3 (-1)
  right := okTxn []
  ttochunk := fun _ _ => Except.ok [1, 0, 1]

/-- The message of the main transaction for `keyedConn`. -/
def keyedMain : whack_message :=
  (main_message sampleDecls keyedConn).getD (empty_whack_message sampleDecls)

/-- The message of the key transaction for an end of `keyedConn`. -/
def keyedKey (lr : String) : whack_message :=
  (followup_message sampleDecls (fun _ _ => Except.ok [1, 0, 1]) (keyedEnd lr)).getD
    (empty_whack_message sampleDecls)

/-- The events of a transaction, `[]` when the model has no result. -/
def txnEvents (c : Consts) (D : Decls) (t : TxnEnv) (msg : whack_message) : List SysEvent :=
  ((send_whack_msg c D t msg).map Prod.snd).getD []

/-- A message with `iptfs_in_delay` put to 0, to compare two messages in
every other field. -/
def clear_iptfs_in_delay (m : whack_message) : whack_message :=
  { m with iptfs_in_delay := 0 }

/-- The sample connection with in-delay 10 and reorder-window 20 set, and a
drop-time value 30 that is not set. -/
def iptfsConn : starter_conn :=
  { sampleConn with
    options := fun k =>
      match k with
      | KNCF.IPTFS_IN_DELAY => 10
      | KNCF.IPTFS_REORD_WIN => 20
      | KNCF.IPTFS_DROP_TIME => 30
      | _ => 0
    options_set := fun k =>
      match k with
      | KNCF.IPTFS_IN_DELAY => true
      | KNCF.IPTFS_REORD_WIN => true
      | _ => false }

/-- The message of the main transaction for `iptfsConn`. -/
def iptfsMain : whack_message :=
  (main_message sampleDecls iptfsConn).getD (empty_whack_message sampleDecls)

/-- The option values of `iptfsConn` with the reorder window cleared. -/
def dropOptions : KNCF → Nat := fun k =>
  match k with
  | KNCF.IPTFS_IN_DELAY => 10
  | KNCF.IPTFS_DROP_TIME => 30
  | _ => 0

/-- The set flags of `iptfsConn` with drop-time set and the reorder window
not set. -/
def dropOptionsSet : KNCF → Bool := fun k =>
  match k with
  | KNCF.IPTFS_IN_DELAY => true
  | KNCF.IPTFS_DROP_TIME => true
  | _ => false

/-! ## Library lemmas -/

theorem scanDigits_run (ds : List Nat) (hd : ∀ d ∈ ds, isdigit d = true) (rest : List Nat)
    (hr : ∀ b, rest.head? = some b → isdigit b = false) (acc : Nat) :
    scanDigits (ds ++ rest) acc = (ds.foldl (fun a d => a * 10 + (d - 48)) acc, ds.length) := by
  induction ds generalizing acc with
  | nil =>
    cases rest with
    | nil => simp [scanDigits]
    | cons b bs =>
      have := hr b (by simp)
      simp [scanDigits, this]
  | cons d ds ih =>
    have h1 : isdigit d = true := hd d (by simp)
    have h2 : ∀ x ∈ ds, isdigit x = true := fun x hx => hd x (by simp [hx])
    simp [scanDigits, h1, ih h2]

theorem isdigit_not_space {d : Nat} (h : isdigit d = true) : isspace d = false := by
  simp only [isdigit, isspace, Bool.and_eq_true, decide_eq_true_eq] at *
  simp only [Bool.or_eq_false_iff, Bool.and_eq_false_iff, beq_eq_false_iff_ne, decide_eq_false_iff_not]
  omega

theorem strtoul_digits (ds : List Nat) (hne : ds ≠ []) (hd : ∀ d ∈ ds, isdigit d = true)
    (rest : List Nat) :
    strtoul (ds ++ 32 :: rest) =
      (if ds.foldl (fun a d => a * 10 + (d - 48)) 0 > ULONG_MAX then ULONG_MAX
        else ds.foldl (fun a d => a * 10 + (d - 48)) 0, ds.length) := by
  cases ds with
  | nil => exact absurd rfl hne
  | cons d ds =>
    have h1 : isdigit d = true := hd d (by simp)
    have h1s : isspace d = false := isdigit_not_space h1
    have hrun := scanDigits_run (d :: ds) hd (32 :: rest) (by intro b hb; simp at hb; subst hb; decide) 0
    have h45 : d ≠ 45 := by
      intro h; subst h; exact absurd h1 (by decide)
    have h43 : d ≠ 43 := by
      intro h; subst h; exact absurd h1 (by decide)
    have hm : (match (d :: (ds ++ 32 :: rest)) with
        | 45 :: t => ((true, 1, t) : Bool × Nat × List Nat)
        | 43 :: t => (false, 1, t)
        | _ => (false, 0, d :: (ds ++ 32 :: rest))) = (false, 0, d :: (ds ++ 32 :: rest)) := by
      split
      · rename_i heq; simp at heq; exact absurd heq.1 h45
      · rename_i heq; simp at heq; exact absurd heq.1 h43
      · rfl
    simp only [strtoul, List.cons_append, List.takeWhile_cons, List.dropWhile_cons, h1s,
      Bool.false_eq_true, if_false, hm]
    simp only [List.cons_append] at hrun
    rw [hrun]
    simp

theorem findNL_none_of_no_nl (p : List Nat) (h : ∀ b ∈ p, b ≠ 10) : findNL p = none := by
  induction p with
  | nil => rfl
  | cons b bs ih =>
    have hb : b ≠ 10 := h b (by simp)
    have := ih (fun x hx => h x (by simp [hx]))
    simp [findNL, hb, this]

theorem findNL_body (body : List Nat) (h : ∀ b ∈ body, b ≠ 10 ∧ b ≠ 0) (rest : List Nat) :
    findNL (body ++ 10 :: rest) = some body.length := by
  induction body with
  | nil => simp [findNL]
  | cons b bs ih =>
    have hb := h b (by simp)
    have := ih (fun x hx => h x (by simp [hx]))
    simp [findNL, hb.1, hb.2, this]

/-! ## One well-formed line in the buffer -/

theorem Line.bytes_length (l : Line) :
    l.bytes.length = l.digits.length + 1 + l.text.length + 1 := by
  simp [Line.bytes]; omega

theorem Line.body_ok (l : Line) (h : l.WF) :
    ∀ b ∈ l.digits ++ 32 :: l.text, b ≠ 10 ∧ b ≠ 0 := by
  intro b hb
  rcases List.mem_append.1 hb with hb | hb
  · have := h.2.1 b hb
    simp only [isdigit, Bool.and_eq_true, decide_eq_true_eq] at this
    constructor <;> omega
  · rcases List.mem_cons.1 hb with hb | hb
    · subst hb; decide
    · exact h.2.2.1 b hb

theorem strchr_nl_line (buf : List Nat) (ls : Nat) (l : Line) (h : l.WF) (rest : List Nat)
    (hb : buf.drop ls = l.bytes ++ rest) :
    strchr_nl buf ls = some (ls + l.bytes.length - 1) := by
  have h1 : l.bytes ++ rest = (l.digits ++ 32 :: l.text) ++ 10 :: rest := by
    simp [Line.bytes]
  rw [strchr_nl, hb, h1, findNL_body _ (l.body_ok h)]
  simp [Line.bytes_length]
  omega

theorem drop_add_eq (buf : List Nat) (a b : Nat) :
    buf.drop (a + b) = (buf.drop a).drop b := by
  rw [List.drop_drop]

theorem getD_of_drop (buf : List Nat) (ls n : Nat) (pre : List Nat) (x : Nat) (rest : List Nat)
    (hb : buf.drop ls = pre ++ x :: rest) (hn : n = pre.length) :
    buf.getD (ls + n) 0 = x := by
  subst hn
  have : (buf.drop ls)[pre.length]? = some x := by
    rw [hb, List.getElem?_append_right (Nat.le_refl _)]; simp
  rw [List.getElem?_drop] at this
  simp [List.getD_eq_getElem?_getD, this]

theorem doLine_wf (c : Consts) (env : Env) (buf : List Nat) (ls : Nat) (l : Line) (h : l.WF)
    (rest : List Nat) (hb : buf.drop ls = l.bytes ++ rest) (st : St) :
    doLine c env buf ls (ls + l.bytes.length - 1 + 1) st = lineStep c env l st := by
  have hs : strtoul (buf.drop ls) = (l.parsed, l.digits.length) := by
    rw [hb]
    have : l.bytes ++ rest = l.digits ++ 32 :: (l.text ++ 10 :: rest) := by simp [Line.bytes]
    rw [this, strtoul_digits _ h.1 h.2.1]
    rfl
  have hdl : 0 < l.digits.length := List.length_pos.2 h.1
  have hsp : buf.getD (ls + l.digits.length) 0 = 32 :=
    getD_of_drop buf ls _ l.digits 32 (l.text ++ 10 :: rest) (by rw [hb]; simp [Line.bytes]) rfl
  have hdrop : buf.drop (ls + l.digits.length + 1) = l.text ++ 10 :: rest := by
    have : buf.drop (ls + l.digits.length + 1) = (buf.drop ls).drop (l.digits.length + 1) :=
      drop_add_eq buf ls (l.digits.length + 1)
    rw [this, hb]
    have h2 : l.bytes ++ rest = (l.digits ++ [32]) ++ (l.text ++ 10 :: rest) := by
      simp [Line.bytes]
    rw [h2, List.drop_left' (by simp)]
  have hle : ls + l.bytes.length - 1 + 1 - (ls + l.digits.length + 1) = l.text.length + 1 := by
    rw [Line.bytes_length]; omega
  have hcnt : ((ls + l.bytes.length - 1 + 1 : Nat) : Int) - ((ls + l.digits.length + 1 : Nat) : Int)
      = (l.text.length : Int) + 1 := by
    have := l.bytes_length
    omega
  have htake : (l.text ++ 10 :: rest).take (l.text.length + 1) = l.text ++ [10] := by
    have : l.text ++ 10 :: rest = (l.text ++ [10]) ++ rest := by simp
    rw [this, List.take_left' (by simp)]
  have hne : ¬ (ls + l.digits.length = ls ∨ buf.getD (ls + l.digits.length) 0 ≠ 32) := by
    intro h0
    rcases h0 with h0 | h0
    · omega
    · exact h0 hsp
  simp only [doLine, hs, hne, if_false, hdrop, hle, hcnt, htake, lineStep]

/-! ## The inner loop on a run of well-formed lines -/

theorem stream_cons (l : Line) (ls : List Line) : stream (l :: ls) = l.bytes ++ stream ls := by
  simp [stream]

theorem stream_append (a b : List Line) : stream (a ++ b) = stream a ++ stream b := by
  simp [stream]

theorem scanLines_lines (c : Consts) (env : Env) (lines : List Line)
    (hwf : ∀ l ∈ lines, l.WF) (p : List Nat) (hp : ∀ b ∈ p, b ≠ 10) :
    ∀ (fuel : Nat) (buf : List Nat) (ls : Nat) (st : St), lines.length < fuel →
      ls ≤ buf.length → buf.drop ls = stream lines ++ p →
      scanLines c env fuel buf ls st = some (afterLines buf p (runLines c env lines st)) := by
  induction lines with
  | nil =>
    intro fuel buf ls st hf hls hb
    cases fuel with
    | zero => omega
    | succ fuel =>
      simp only [stream, List.map_nil, List.flatten_nil, List.nil_append] at hb
      have hnl : strchr_nl buf ls = none := by
        simp [strchr_nl, hb, findNL_none_of_no_nl p hp]
      have hlen : ((buf.length : Int) - (ls : Int)) = (p.length : Int) := by
        have : p.length = buf.length - ls := by rw [← hb]; simp
        omega
      simp [scanLines, hnl, runLines, afterLines, hb, hlen]
  | cons l lines ih =>
    intro fuel buf ls st hf hls hb
    cases fuel with
    | zero => omega
    | succ fuel =>
      have hl : l.WF := hwf l (by simp)
      have hwf2 : ∀ x ∈ lines, x.WF := fun x hx => hwf x (by simp [hx])
      rw [stream_cons, List.append_assoc] at hb
      have hnl := strchr_nl_line buf ls l hl _ hb
      have hdo := doLine_wf c env buf ls l hl _ hb st
      have hlen : ls + l.bytes.length ≤ buf.length := by
        have := congrArg List.length hb
        simp at this
        omega
      have hpos : 0 < l.bytes.length := by rw [Line.bytes_length]; omega
      have hdrop : buf.drop (ls + l.bytes.length - 1 + 1) = stream lines ++ p := by
        have : buf.drop (ls + l.bytes.length - 1 + 1) = (buf.drop ls).drop l.bytes.length := by
          rw [← drop_add_eq]; congr 1; omega
        rw [this, hb, List.drop_left' rfl]
      simp only [scanLines, hnl, hdo, runLines]
      rcases hstep : lineStep c env l st with ⟨fl, evs⟩
      cases fl with
      | done o => simp [afterLines]
      | next st1 =>
        simp only []
        rw [ih hwf2 fuel buf _ st1 (by simp at hf; omega) (by omega) hdrop]
        rcases runLines c env lines st1 with ⟨fl2, evs2⟩
        cases fl2 <;> simp [afterLines]

/-! ## Line-by-line processing: structural lemmas -/

theorem runLines_append (c : Consts) (env : Env) (a b : List Line) (st : St) :
    runLines c env (a ++ b) st =
      (match runLines c env a st with
        | (Flow.done o, evs) => (Flow.done o, evs)
        | (Flow.next st1, evs) =>
          ((runLines c env b st1).1, evs ++ (runLines c env b st1).2)) := by
  induction a generalizing st with
  | nil => simp [runLines]
  | cons l a ih =>
    simp only [List.cons_append, runLines]
    rcases lineStep c env l st with ⟨fl, evs⟩
    cases fl with
    | done o => rfl
    | next st1 =>
      simp only [List.append_eq]
      rw [ih st1]
      rcases runLines c env a st1 with ⟨fl2, evs2⟩
      cases fl2 <;> simp

theorem send_reply_visible (c : Consts) (env : Env) (st : St) (buf : List Nat) (len : Int) :
    ∀ e ∈ (send_reply c env st buf len).2.2, e.visible = true := by
  intro e he
  unfold send_reply at he
  split at he
  · simp at he; subst he; rfl
  · simp at he; rcases he with he | he <;> subst he <;> rfl

theorem replyWith_visible (c : Consts) (env : Env) (st : St) (buf : List Nat) (len : Int) :
    ∀ e ∈ (replyWith c env st buf len).2, e.visible = true := by
  intro e he
  simp only [replyWith] at he
  split at he <;> exact send_reply_visible _ _ _ _ _ e he

theorem enterSecret_visible (c : Consts) (env : Env) (st : St) :
    ∀ e ∈ (enterSecret c env st).2, e.visible = true := by
  intro e he
  simp only [enterSecret, List.mem_append] at he
  rcases he with (he | he) | he
  · unfold askSecret at he
    split at he <;> simp at he
    subst he; rfl
  · unfold clampSecret at he
    split at he <;> simp at he
    subst he; rfl
  · exact replyWith_visible _ _ _ _ _ e he

theorem userPrompt_visible (c : Consts) (env : Env) (st : St) :
    ∀ e ∈ (userPrompt c env st).2, e.visible = true := by
  intro e he
  simp only [userPrompt, List.mem_append] at he
  rcases he with (he | he) | he
  · unfold askValue at he
    split at he <;> simp at he
    subst he; rfl
  · unfold clampValue at he
    split at he <;> simp at he
    subst he; rfl
  · exact replyWith_visible _ _ _ _ _ e he

theorem dispatch_visible (c : Consts) (env : Env) (s : Nat) (st : St) :
    ∀ e ∈ (dispatch c env s st).2, e.visible = true := by
  intro e he
  unfold dispatch at he
  split at he
  · simp at he
  split at he
  · simp at he
  split at he
  · exact enterSecret_visible _ _ _ e he
  split at he
  · exact userPrompt_visible _ _ _ e he
  · simp at he

theorem lineStep_visible (c : Consts) (env : Env) (l : Line) (st : St) :
    ∀ e ∈ (lineStep c env l st).2, e.visible = true := by
  intro e he
  simp only [lineStep, List.mem_append] at he
  rcases he with he | he
  · split at he <;> simp at he
    · rcases he with he | he <;> subst he <;> rfl
    · subst he; rfl
  · exact dispatch_visible _ _ _ _ e he

theorem runLines_visible (c : Consts) (env : Env) (lines : List Line) (st : St) :
    ∀ e ∈ (runLines c env lines st).2, e.visible = true := by
  induction lines generalizing st with
  | nil => simp [runLines]
  | cons l lines ih =>
    intro e he
    simp only [runLines] at he
    have h1 := lineStep_visible c env l st
    rcases hstep : lineStep c env l st with ⟨fl, evs⟩
    rw [hstep] at he h1
    cases fl with
    | done o => exact h1 e he
    | next st1 =>
      simp only [List.mem_append] at he
      rcases he with he | he
      · exact h1 e he
      · exact ih st1 e he

theorem runLines_filter (c : Consts) (env : Env) (lines : List Line) (st : St) :
    (runLines c env lines st).2.filter Event.visible = (runLines c env lines st).2 :=
  List.filter_eq_self.2 (runLines_visible c env lines st)

/-! ## Cutting a stream of lines at an arbitrary point -/

theorem stream_length_ge (lines : List Line) : lines.length ≤ (stream lines).length := by
  induction lines with
  | nil => simp [stream]
  | cons l lines ih =>
    rw [stream_cons, List.length_append, Line.bytes_length, List.length_cons]
    omega

theorem no_nl_of_proper (l : Line) (h : l.WF) (w a : List Nat) (ha : a ≠ [])
    (hw : l.bytes = w ++ a) : ∀ b ∈ w, b ≠ 10 := by
  have hbody : l.bytes = (l.digits ++ 32 :: l.text) ++ [10] := by simp [Line.bytes]
  have halen : 0 < a.length := List.length_pos.2 ha
  have hlen : w.length ≤ (l.digits ++ 32 :: l.text).length := by
    have := congrArg List.length (hw.symm.trans hbody)
    simp only [List.length_append, List.length_singleton] at this ⊢
    omega
  have hw2 : w = (l.digits ++ 32 :: l.text).take w.length := by
    have h1 : (w ++ a).take w.length = w := List.take_left' rfl
    rw [← hw, hbody, List.take_append_of_le_length hlen] at h1
    exact h1.symm
  intro b hb
  rw [hw2] at hb
  exact (l.body_ok h b (List.mem_of_mem_take hb)).1

theorem split_at_lines (t : List Nat) (ht : ∀ b ∈ t, b ≠ 10) (lines : List Line)
    (hwf : ∀ l ∈ lines, l.WF) :
    ∀ (w rest : List Nat), w ++ rest = stream lines ++ t →
      ∃ (a b : List Line) (p : List Nat), lines = a ++ b ∧ w = stream a ++ p ∧
        p ++ rest = stream b ++ t ∧ ∀ x ∈ p, x ≠ 10 := by
  induction lines with
  | nil =>
    intro w rest h
    refine ⟨[], [], w, rfl, by simp [stream], by simpa [stream] using h, ?_⟩
    intro x hx
    have : x ∈ t := by
      simp only [stream, List.map_nil, List.flatten_nil, List.nil_append] at h
      rw [← h]; exact List.mem_append_left _ hx
    exact ht x this
  | cons l lines ih =>
    intro w rest h
    have hl : l.WF := hwf l (by simp)
    have hwf2 : ∀ x ∈ lines, x.WF := fun x hx => hwf x (by simp [hx])
    rw [stream_cons, List.append_assoc] at h
    rcases List.append_eq_append_iff.1 h with ⟨a', h1, h2⟩ | ⟨c', h1, h2⟩
    · by_cases ha : a' = []
      · subst ha
        simp only [List.append_nil, List.nil_append] at h1 h2
        obtain ⟨a, b, p, e1, e2, e3, e4⟩ := ih hwf2 [] rest (by simpa using h2)
        refine ⟨l :: a, b, p, by simp [e1], ?_, e3, e4⟩
        have e2' : stream a ++ p = [] := e2.symm
        rw [stream_cons, List.append_assoc, e2', List.append_nil, h1]
      · refine ⟨[], l :: lines, w, rfl, by simp [stream], ?_, no_nl_of_proper l hl w a' ha h1⟩
        rw [stream_cons, List.append_assoc, h1, h2, List.append_assoc]
    · obtain ⟨a, b, p, e1, e2, e3, e4⟩ := ih hwf2 c' rest h2.symm
      refine ⟨l :: a, b, p, by simp [e1], ?_, e3, e4⟩
      rw [h1, e2, stream_cons, List.append_assoc]

theorem lines_nil_of_no_nl (lines : List Line) (buf rest : List Nat)
    (hbuf : ∀ b ∈ buf, b ≠ 10) (h : buf = stream lines ++ rest) : lines = [] := by
  cases lines with
  | nil => rfl
  | cons l lines =>
    exfalso
    have : (10 : Nat) ∈ buf := by
      rw [h, stream_cons]
      simp [Line.bytes]
    exact hbuf 10 this rfl

theorem short_of_no_nl (l : Line) (hl : l.WF) (buf rest X : List Nat)
    (hbuf : ∀ b ∈ buf, b ≠ 10) (h : buf ++ rest = l.bytes ++ X) : buf.length < 4096 := by
  rcases List.append_eq_append_iff.1 h with ⟨a', h1, _⟩ | ⟨c', h1, _⟩
  · by_cases ha : a' = []
    · subst ha
      exfalso
      have : (10 : Nat) ∈ buf := by
        simp only [List.append_nil] at h1
        rw [← h1]; simp [Line.bytes]
      exact hbuf 10 this rfl
    · have := congrArg List.length h1
      have h2 := hl.2.2.2
      have h3 : 0 < a'.length := List.length_pos.2 ha
      simp only [List.length_append] at this
      omega
  · exfalso
    have : (10 : Nat) ∈ buf := by
      rw [h1]; simp [Line.bytes]
    exact hbuf 10 this rfl

/-! ## The outer loop on a chunked stream of well-formed lines -/

theorem readFuel_deliver_cons (ch : List Nat) (rest : List (List Nat)) :
    readFuel (deliver (ch :: rest)) = readFuel (deliver rest) + ch.length + 1 := by
  simp [deliver, readFuel]

theorem sockRead_deliver (ch : List Nat) (rest : List (List Nat)) (count : Nat)
    (hc : 0 < count) (hch : ch ≠ []) (hrest : ∀ x ∈ rest, x ≠ []) :
    ∃ (b : Nat) (bs : List Nat) (chunks1 : List (List Nat)),
      sockRead (deliver (ch :: rest)) count = (ReadEv.data (b :: bs), deliver chunks1) ∧
      (b :: bs) ++ chunks1.flatten = (ch :: rest).flatten ∧
      (∀ x ∈ chunks1, x ≠ []) ∧
      readFuel (deliver chunks1) < readFuel (deliver (ch :: rest)) := by
  have hc0 : count ≠ 0 := by omega
  by_cases hlen : ch.length ≤ count
  · cases ch with
    | nil => exact absurd rfl hch
    | cons b bs =>
      refine ⟨b, bs, rest, ?_, by simp, hrest, ?_⟩
      · simp only [sockRead, deliver, List.map_cons, hc0, if_false, hlen, if_true]
      · rw [readFuel_deliver_cons]; omega
  · have hlen2 : count < ch.length := by omega
    have htake : ch.take count ≠ [] := by
      intro h
      rcases List.take_eq_nil_iff.1 h with h | h
      · omega
      · exact hch h
    have hdrop : ch.drop count ≠ [] := by
      intro h
      have := List.drop_eq_nil_iff.1 h
      omega
    rcases htk : ch.take count with _ | ⟨b, bs⟩
    · exact absurd htk htake
    · refine ⟨b, bs, ch.drop count :: rest, ?_, ?_, ?_, ?_⟩
      · simp only [sockRead, deliver, List.map_cons, hc0, if_false, hlen, htk]
      · rw [← htk, List.flatten_cons, List.flatten_cons, ← List.append_assoc,
          List.take_append_drop]
      · intro x hx
        rcases List.mem_cons.1 hx with hx | hx
        · rw [hx]; exact hdrop
        · exact hrest x hx
      · rw [readFuel_deliver_cons, readFuel_deliver_cons, List.length_drop]; omega

theorem readLoop_lines (c : Consts) (env : Env) (t : List Nat) (ht : ∀ b ∈ t, b ≠ 10) :
    ∀ (fuel : Nat) (chunks : List (List Nat)) (buf : List Nat) (st : St) (lines : List Line),
      (∀ ch ∈ chunks, ch ≠ []) → (∀ l ∈ lines, l.WF) → (∀ b ∈ buf, b ≠ 10) →
      buf ++ chunks.flatten = stream lines ++ t →
      readFuel (deliver chunks) ≤ fuel →
      ∃ evs, readLoop c env fuel (deliver chunks) buf st =
          some ((runLines c env lines st).1.outcome, evs) ∧
        evs.filter Event.visible = (runLines c env lines st).2 := by
  intro fuel
  induction fuel with
  | zero =>
    intro chunks buf st lines _ _ _ _ hf
    exfalso
    cases chunks with
    | nil => simp [deliver, readFuel] at hf
    | cons ch rest => rw [readFuel_deliver_cons] at hf; omega
  | succ fuel ih =>
    intro chunks buf st lines hch hwf hbuf hcat hf
    -- the loop stops here exactly when no complete line is left
    have hstop : ∀ (x : List ReadEv),
        sockRead (deliver chunks) ((4096 : Int) - (buf.length : Int)).toNat = (ReadEv.data [], x) →
        lines = [] →
        ∃ evs, readLoop c env (fuel + 1) (deliver chunks) buf st =
            some ((runLines c env lines st).1.outcome, evs) ∧
          evs.filter Event.visible = (runLines c env lines st).2 := by
      intro x hx hl
      subst hl
      refine ⟨_, by simp only [readLoop, hx, runLines, Flow.outcome]; rfl, ?_⟩
      by_cases hb : buf = [] <;> simp [hb, runLines, Event.visible, List.filter]
    by_cases hcount : ((4096 : Int) - (buf.length : Int)).toNat = 0
    · -- the buffer is full
      apply hstop (deliver chunks) (by simp [sockRead, hcount])
      cases lines with
      | nil => rfl
      | cons l lines =>
        exfalso
        have := short_of_no_nl l (hwf l (by simp)) buf chunks.flatten (stream lines ++ t) hbuf
          (by rw [hcat, stream_cons, List.append_assoc])
        omega
    · cases chunks with
      | nil =>
        -- the peer has closed
        apply hstop [] (by simp [sockRead, hcount, deliver])
        simp only [List.flatten_nil, List.append_nil] at hcat
        exact lines_nil_of_no_nl lines buf t hbuf hcat
      | cons ch rest =>
        obtain ⟨b, bs, chunks1, hread, hflat, hne1, hfuel1⟩ :=
          sockRead_deliver ch rest ((4096 : Int) - (buf.length : Int)).toNat
            (Nat.pos_of_ne_zero hcount) (hch ch (by simp))
            (fun x hx => hch x (by simp [hx]))
        have hcat1 : (buf ++ (b :: bs)) ++ chunks1.flatten = stream lines ++ t := by
          rw [List.append_assoc, hflat, hcat]
        obtain ⟨la, lb, p, hsplit, hw, hrest, hp⟩ :=
          split_at_lines t ht lines hwf (buf ++ (b :: bs)) chunks1.flatten hcat1
        have hwa : ∀ l ∈ la, l.WF := fun l hl => hwf l (by simp [hsplit, hl])
        have hwb : ∀ l ∈ lb, l.WF := fun l hl => hwf l (by simp [hsplit, hl])
        have hfa : la.length < (buf ++ (b :: bs)).length + 1 := by
          have h1 := stream_length_ge la
          have h2 := congrArg List.length hw
          simp only [List.length_append] at h2 ⊢
          omega
        have hscan := scanLines_lines c env la hwa p hp ((buf ++ (b :: bs)).length + 1)
          (buf ++ (b :: bs)) 0 st hfa (Nat.zero_le _) (by simpa using hw)
        have happ := runLines_append c env la lb st
        have hvis := runLines_filter c env la st
        rw [← hsplit] at happ
        rcases hra : runLines c env la st with ⟨fl, evs⟩
        rw [hra] at hscan happ hvis
        cases fl with
        | done o =>
          simp only [happ, readLoop, hread, hscan, afterLines, Flow.outcome]
          refine ⟨_, rfl, ?_⟩
          simp only [List.filter_append]
          simpa [List.filter, Event.visible] using hvis
        | next st1 =>
          obtain ⟨evs2, hrun2, hvis2⟩ := ih chunks1 p st1 lb hne1 hwb hp hrest (by omega)
          simp only [happ, readLoop, hread, hscan, afterLines, hrun2, Option.map_some']
          refine ⟨_, rfl, ?_⟩
          simp only [List.filter_append, hvis2]
          simp only at hvis
          simp [List.filter, Event.visible, hvis]

/-- On a stream of well-formed lines followed by a newline-free rest `t`,
delivered in any chunks, the call processes exactly the lines, in order. -/
theorem read_reply_lines (c : Consts) (env : Env) (lines : List Line) (t : List Nat)
    (chunks : List (List Nat)) (u p : List Nat) (ul pl : Int)
    (hwf : ∀ l ∈ lines, l.WF) (ht : ∀ b ∈ t, b ≠ 10) (hch : ∀ ch ∈ chunks, ch ≠ [])
    (hcat : chunks.flatten = stream lines ++ t) :
    ∃ evs, starter_whack_read_reply c env (deliver chunks) u p ul pl =
        some ((runLines c env lines (St.init u p ul pl)).1.outcome, evs) ∧
      evs.filter Event.visible = (runLines c env lines (St.init u p ul pl)).2 :=
  readLoop_lines c env t ht _ chunks [] (St.init u p ul pl) lines hch hwf (by simp)
    (by simpa using hcat) (Nat.le_refl _)

theorem transcript_append (a b : List Event) :
    transcript (a ++ b) = transcript a ++ transcript b := by
  induction a with
  | nil => rfl
  | cons e a ih => cases e <;> simp [transcript, ih]

theorem transcript_filter (evs : List Event) :
    transcript (evs.filter Event.visible) = transcript evs := by
  induction evs with
  | nil => rfl
  | cons e evs ih =>
    cases e with
    | diag d => cases d <;> simp [List.filter, Event.visible, transcript, ih]
    | _ => simp [List.filter, Event.visible, transcript, ih]

/-! ## The `switch` on the codes of well-formed lines -/

theorem labels_lt (c : Consts) :
    c.RC_COMMENT < 2 ^ 31 ∧ c.RC_RAW < 2 ^ 31 ∧ c.RC_LOG < 2 ^ 31 ∧
      c.RC_INFORMATIONAL < 2 ^ 31 ∧ c.RC_SUCCESS < 2 ^ 31 ∧ c.RC_ENTERSECRET < 2 ^ 31 ∧
      c.RC_USERPROMPT < 2 ^ 31 := by
  have h := c.labels_int
  simp only [List.mem_cons, List.mem_singleton, List.not_mem_nil, or_false, forall_eq_or_imp,
    forall_eq] at h
  exact h

theorem labels_ne (c : Consts) :
    (c.RC_COMMENT ≠ c.RC_SUCCESS ∧ c.RC_RAW ≠ c.RC_SUCCESS ∧ c.RC_LOG ≠ c.RC_SUCCESS ∧
      c.RC_INFORMATIONAL ≠ c.RC_SUCCESS) ∧
    (c.RC_COMMENT ≠ c.RC_ENTERSECRET ∧ c.RC_RAW ≠ c.RC_ENTERSECRET ∧
      c.RC_LOG ≠ c.RC_ENTERSECRET ∧ c.RC_INFORMATIONAL ≠ c.RC_ENTERSECRET ∧
      c.RC_SUCCESS ≠ c.RC_ENTERSECRET) ∧
    (c.RC_COMMENT ≠ c.RC_USERPROMPT ∧ c.RC_RAW ≠ c.RC_USERPROMPT ∧
      c.RC_LOG ≠ c.RC_USERPROMPT ∧ c.RC_INFORMATIONAL ≠ c.RC_USERPROMPT ∧
      c.RC_SUCCESS ≠ c.RC_USERPROMPT ∧ c.RC_ENTERSECRET ≠ c.RC_USERPROMPT) := by
  have h := c.labels_nodup
  simp only [List.nodup_cons, List.mem_cons, List.mem_singleton, List.not_mem_nil, or_false,
    not_or, List.nodup_nil, and_true, not_false_eq_true] at h
  obtain ⟨⟨a1, a2, a3, a4, a5, a6⟩, ⟨b2, b3, b4, b5, b6⟩, ⟨c3, c4, c5, c6⟩, ⟨d4, d5, d6⟩,
    ⟨e5, e6⟩, f6⟩ := h
  exact ⟨⟨a4, b4, c4, d4⟩, ⟨a5, b5, c5, d5, e5⟩, ⟨a6, b6, c6, d6, e6, f6⟩⟩

theorem Line.parsed_eq_iff (l : Line) (x : Nat) (hx : x < 2 ^ 31) :
    l.parsed = x ↔ l.code = x := by
  unfold Line.parsed ULONG_MAX
  split <;> constructor <;> intro h <;> omega

theorem toInt32_small (n : Nat) (h : n < 2 ^ 31) : toInt32 n = (n : Int) := by
  unfold toInt32
  have h1 : n % 2 ^ 32 = n := Nat.mod_eq_of_lt (by omega)
  rw [h1, if_pos h]

theorem send_reply_transcript (c : Consts) (env : Env) (st : St) (buf : List Nat) (len : Int) :
    transcript (send_reply c env st buf len).2.2 = [] := by
  unfold send_reply; split <;> rfl

theorem replyWith_transcript (c : Consts) (env : Env) (st : St) (buf : List Nat) (len : Int) :
    transcript (replyWith c env st buf len).2 = [] := by
  simp only [replyWith]; split <;> exact send_reply_transcript _ _ _ _ _

theorem askSecret_transcript (env : Env) (st : St) : transcript (askSecret env st).2 = [] := by
  unfold askSecret; split <;> rfl

theorem clampSecret_transcript (c : Consts) (st : St) :
    transcript (clampSecret c st).2 = [] := by
  unfold clampSecret; split <;> rfl

theorem askValue_transcript (env : Env) (st : St) : transcript (askValue env st).2 = [] := by
  unfold askValue; split <;> rfl

theorem clampValue_transcript (c : Consts) (st : St) :
    transcript (clampValue c st).2 = [] := by
  unfold clampValue; split <;> rfl

theorem dispatch_transcript (c : Consts) (env : Env) (s : Nat) (st : St) :
    transcript (dispatch c env s st).2 = [] := by
  unfold dispatch
  split
  · rfl
  split
  · rfl
  split
  · simp only [enterSecret, transcript_append, askSecret_transcript, clampSecret_transcript,
      replyWith_transcript, List.append_nil]
  split
  · simp only [userPrompt, transcript_append, askValue_transcript, clampValue_transcript,
      replyWith_transcript, List.append_nil]
  · rfl

theorem lineStep_transcript (c : Consts) (env : Env) (l : Line) (st : St) :
    transcript (lineStep c env l st).2 = l.echo := by
  simp only [lineStep, transcript_append, dispatch_transcript, List.append_nil]
  split <;> simp [transcript, Line.echo]

/-- A line that is no prompt, or whose credential write succeeds, does not
leave the function, and records `lineRet`. -/
theorem lineStep_ok (c : Consts) (env : Env) (l : Line) (st : St)
    (h : (∀ i, env.sockWriteOk i = true) ∨ ¬ l.isPrompt c) :
    ∃ st1, (lineStep c env l st).1 = Flow.next st1 ∧ st1.ret = lineRet c l st.ret := by
  obtain ⟨l1, l2, l3, l4, l5, l6, l7⟩ := labels_lt c
  obtain ⟨⟨n1, n2, n3, n4⟩, ⟨m1, m2, m3, m4, m5⟩, ⟨k1, k2, k3, k4, k5, k6⟩⟩ := labels_ne c
  have e1 := l.parsed_eq_iff _ l1
  have e2 := l.parsed_eq_iff _ l2
  have e3 := l.parsed_eq_iff _ l3
  have e4 := l.parsed_eq_iff _ l4
  have e5 := l.parsed_eq_iff _ l5
  have e6 := l.parsed_eq_iff _ l6
  have e7 := l.parsed_eq_iff _ l7
  simp only [lineStep, dispatch, lineRet, Line.isChatter, Line.isSuccess, Line.isPrompt, e1, e2,
    e3, e4, e5, e6, e7] at h ⊢
  by_cases hc : l.code = c.RC_COMMENT ∨ l.code = c.RC_RAW ∨ l.code = c.RC_LOG ∨
      l.code = c.RC_INFORMATIONAL
  · simp only [if_pos hc]
    exact ⟨_, rfl, rfl⟩
  · simp only [if_neg hc]
    by_cases hs : l.code = c.RC_SUCCESS
    · simp only [if_pos hs, if_pos (Or.inl hs : l.code = c.RC_SUCCESS ∨ _)]
      exact ⟨_, rfl, rfl⟩
    · simp only [if_neg hs]
      by_cases hp1 : l.code = c.RC_ENTERSECRET
      · rcases h with h | h
        · simp only [if_pos hp1, if_pos (Or.inr (Or.inl hp1) : l.code = c.RC_SUCCESS ∨ _)]
          simp [enterSecret, replyWith, send_reply, h]
        · exact absurd (Or.inl hp1) h
      · simp only [if_neg hp1]
        by_cases hp2 : l.code = c.RC_USERPROMPT
        · rcases h with h | h
          · simp only [if_pos hp2, if_pos (Or.inr (Or.inr hp2) : l.code = c.RC_SUCCESS ∨ _)]
            simp [userPrompt, replyWith, send_reply, h]
          · exact absurd (Or.inr hp2) h
        · simp only [if_neg hp2]
          have : ¬ (l.code = c.RC_SUCCESS ∨ l.code = c.RC_ENTERSECRET ∨
              l.code = c.RC_USERPROMPT) := by
            intro h0
            rcases h0 with h0 | h0 | h0
            · exact hs h0
            · exact hp1 h0
            · exact hp2 h0
          simp only [if_neg this]
          exact ⟨_, rfl, rfl⟩

theorem runLines_ok (c : Consts) (env : Env) (lines : List Line)
    (h : (∀ i, env.sockWriteOk i = true) ∨ ∀ l ∈ lines, ¬ l.isPrompt c) :
    ∀ st, ∃ st1, (runLines c env lines st).1 = Flow.next st1 ∧
      st1.ret = recorded c lines st.ret ∧
      transcript (runLines c env lines st).2 = (lines.map Line.echo).flatten := by
  induction lines with
  | nil => intro st; exact ⟨st, rfl, rfl, rfl⟩
  | cons l lines ih =>
    intro st
    have h1 : (∀ i, env.sockWriteOk i = true) ∨ ¬ l.isPrompt c := by
      rcases h with h | h
      · exact Or.inl h
      · exact Or.inr (h l (by simp))
    have h2 : (∀ i, env.sockWriteOk i = true) ∨ ∀ x ∈ lines, ¬ x.isPrompt c := by
      rcases h with h | h
      · exact Or.inl h
      · exact Or.inr (fun x hx => h x (by simp [hx]))
    obtain ⟨st1, hs1, hr1⟩ := lineStep_ok c env l st h1
    have ht1 := lineStep_transcript c env l st
    rcases hstep : lineStep c env l st with ⟨fl, evs⟩
    rw [hstep] at hs1 ht1
    simp only at hs1 ht1
    subst hs1
    obtain ⟨st2, hs2, hr2, ht2⟩ := ih h2 st1
    refine ⟨st2, by simp only [runLines, hstep, hs2], ?_, ?_⟩
    · rw [hr2, hr1]; rfl
    · simp only [runLines, hstep, transcript_append, ht1, ht2, List.map_cons, List.flatten_cons]

/-- The whole call on a chunked stream of well-formed lines none of which
leaves the function early. -/
theorem read_reply_ok (c : Consts) (env : Env) (lines : List Line) (t : List Nat)
    (chunks : List (List Nat)) (u p : List Nat) (ul pl : Int)
    (hwf : ∀ l ∈ lines, l.WF) (ht : ∀ b ∈ t, b ≠ 10) (hch : ∀ ch ∈ chunks, ch ≠ [])
    (hcat : chunks.flatten = stream lines ++ t)
    (h : (∀ i, env.sockWriteOk i = true) ∨ ∀ l ∈ lines, ¬ l.isPrompt c) :
    ∃ evs, starter_whack_read_reply c env (deliver chunks) u p ul pl =
        some (Outcome.returned (recorded c lines 0), evs) ∧
      transcript evs = (lines.map Line.echo).flatten := by
  obtain ⟨evs, hrun, hvis⟩ := read_reply_lines c env lines t chunks u p ul pl hwf ht hch hcat
  obtain ⟨st1, hs1, hr1, ht1⟩ := runLines_ok c env lines h (St.init u p ul pl)
  refine ⟨evs, ?_, ?_⟩
  · rw [hrun, hs1, Flow.outcome, hr1]; rfl
  · rw [← transcript_filter, hvis, ht1]

/-! ## The recorded result -/

theorem recorded_append (c : Consts) (a b : List Line) (r : Int) :
    recorded c (a ++ b) r = recorded c b (recorded c a r) := by
  simp [recorded, List.foldl_append]

theorem recorded_cons (c : Consts) (l : Line) (ls : List Line) (r : Int) :
    recorded c (l :: ls) r = recorded c ls (lineRet c l r) := rfl

theorem recorded_chatter (c : Consts) (lines : List Line) (h : ∀ l ∈ lines, l.isChatter c)
    (r : Int) : recorded c lines r = r := by
  induction lines generalizing r with
  | nil => rfl
  | cons l lines ih =>
    rw [recorded_cons, ih (fun x hx => h x (by simp [hx]))]
    simp [lineRet, h l (by simp)]

theorem not_chatter_of_prompt (c : Consts) (l : Line) (h : l.isPrompt c) : ¬ l.isChatter c := by
  obtain ⟨_, ⟨m1, m2, m3, m4, _⟩, ⟨k1, k2, k3, k4, _, _⟩⟩ := labels_ne c
  unfold Line.isChatter
  unfold Line.isPrompt at h
  rcases h with h | h <;> rw [h] <;> intro h0 <;> rcases h0 with h0 | h0 | h0 | h0
  · exact m1 h0.symm
  · exact m2 h0.symm
  · exact m3 h0.symm
  · exact m4 h0.symm
  · exact k1 h0.symm
  · exact k2 h0.symm
  · exact k3 h0.symm
  · exact k4 h0.symm

theorem not_chatter_of_success (c : Consts) (l : Line) (h : l.isSuccess c) :
    ¬ l.isChatter c := by
  obtain ⟨⟨n1, n2, n3, n4⟩, _, _⟩ := labels_ne c
  unfold Line.isChatter
  unfold Line.isSuccess at h
  rw [h]
  intro h0
  rcases h0 with h0 | h0 | h0 | h0
  · exact n1 h0.symm
  · exact n2 h0.symm
  · exact n3 h0.symm
  · exact n4 h0.symm

theorem recorded_chatter_success (c : Consts) (lines : List Line)
    (h : ∀ l ∈ lines, l.isChatter c ∨ l.isSuccess c) : recorded c lines 0 = 0 := by
  induction lines with
  | nil => rfl
  | cons l lines ih =>
    rw [recorded_cons]
    have : lineRet c l 0 = 0 := by
      rcases h l (by simp) with h1 | h1
      · simp [lineRet, h1]
      · simp [lineRet, h1, not_chatter_of_success c l h1]
    rw [this]
    exact ih (fun x hx => h x (by simp [hx]))

theorem recorded_chatter_prompt (c : Consts) (lines : List Line)
    (h : ∀ l ∈ lines, l.isChatter c ∨ l.isPrompt c) (r : Int) :
    recorded c lines r = if ∀ l ∈ lines, l.isChatter c then r else 0 := by
  induction lines generalizing r with
  | nil => simp [recorded]
  | cons l lines ih =>
    have h2 : ∀ x ∈ lines, x.isChatter c ∨ x.isPrompt c := fun x hx => h x (by simp [hx])
    rw [recorded_cons, ih h2]
    by_cases hl : l.isChatter c
    · simp [lineRet, hl]
    · have hp : l.isPrompt c := (h l (by simp)).resolve_left hl
      simp [lineRet, hl, hp]

theorem lineRet_pass_through (c : Consts) (l : Line) (h : l.code ∉ reserved c)
    (hint : l.code < 2 ^ 31) (r : Int) : lineRet c l r = (l.code : Int) := by
  simp only [reserved, List.mem_cons, List.mem_singleton, List.not_mem_nil, or_false,
    not_or] at h
  obtain ⟨h1, h2, h3, h4, h5, h6, h7⟩ := h
  have hp : l.parsed = l.code := by
    unfold Line.parsed ULONG_MAX
    rw [if_neg (by omega)]
  simp [lineRet, Line.isChatter, Line.isSuccess, Line.isPrompt, h1, h2, h3, h4, h5, h6, h7, hp,
    toInt32_small _ hint]

/-! ## Prompts and credential replies -/

theorem usrInv_le_one {c : Consts} {env : Env} {st : St} (h : UsrInv c env st) :
    st.nValue ≤ 1 := by
  rcases h with h | h <;> omega

theorem secInv_le_one {c : Consts} {env : Env} {st : St} (h : SecInv c env st) :
    st.nSecret ≤ 1 := by
  rcases h with h | h <;> omega

theorem enterSecret_promptOnce (c : Consts) (env : Env) (st : St)
    (hs : (env.whack_get_secret 0).2 ≠ 0)
    (h1 : SecInv c env st) (h2 : UsrInv c env st) :
    PromptOnce c env st (enterSecret c env st).1 (enterSecret c env st).2 := by
  have hpos := c.pass_len_pos
  have hmin0 : min (env.whack_get_secret 0).2 (c.XAUTH_MAX_PASS_LENGTH : Int) ≠ 0 := by omega
  have hle := usrInv_le_one h2
  unfold UsrInv at h2
  rcases h1 with ⟨n0, l0⟩ | ⟨n1, b1, l1⟩
  · by_cases hgt : (env.whack_get_secret 0).2 > (c.XAUTH_MAX_PASS_LENGTH : Int)
    · have hmin : min (env.whack_get_secret 0).2 (c.XAUTH_MAX_PASS_LENGTH : Int) =
          (c.XAUTH_MAX_PASS_LENGTH : Int) := by omega
      by_cases hw : env.sockWriteOk st.nSockWrite = true <;>
      by_cases hz : c.RC_WHACK_PROBLEM = 0 <;>
        simp [enterSecret, askSecret, clampSecret, replyWith, send_reply, PromptOnce, SecInv,
          UsrInv, credReply, n0, l0, hgt, hw, hz, hmin, hle, h2]
    · have hmin : min (env.whack_get_secret 0).2 (c.XAUTH_MAX_PASS_LENGTH : Int) =
          (env.whack_get_secret 0).2 := by omega
      by_cases hw : env.sockWriteOk st.nSockWrite = true <;>
      by_cases hz : c.RC_WHACK_PROBLEM = 0 <;>
        simp [enterSecret, askSecret, clampSecret, replyWith, send_reply, PromptOnce, SecInv,
          UsrInv, credReply, n0, l0, hgt, hw, hz, hmin, hle, h2]
  · have hngt : ¬ (min (env.whack_get_secret 0).2 (c.XAUTH_MAX_PASS_LENGTH : Int) >
        (c.XAUTH_MAX_PASS_LENGTH : Int)) := by omega
    by_cases hw : env.sockWriteOk st.nSockWrite = true <;>
      by_cases hz : c.RC_WHACK_PROBLEM = 0 <;>
      simp [enterSecret, askSecret, clampSecret, replyWith, send_reply, PromptOnce, SecInv,
        UsrInv, credReply, n1, b1, l1, hmin0, hngt, hw, hz, hle, h2]

theorem userPrompt_promptOnce (c : Consts) (env : Env) (st : St)
    (hs : (env.whack_get_value 0).2 ≠ 0)
    (h1 : SecInv c env st) (h2 : UsrInv c env st) :
    PromptOnce c env st (userPrompt c env st).1 (userPrompt c env st).2 := by
  have hpos := c.username_len_pos
  have hmin0 : min (env.whack_get_value 0).2 (c.MAX_XAUTH_USERNAME_LEN : Int) ≠ 0 := by omega
  have hle := secInv_le_one h1
  unfold SecInv at h1
  rcases h2 with ⟨n0, l0⟩ | ⟨n1, b1, l1⟩
  · by_cases hgt : (env.whack_get_value 0).2 > (c.MAX_XAUTH_USERNAME_LEN : Int)
    · have hmin : min (env.whack_get_value 0).2 (c.MAX_XAUTH_USERNAME_LEN : Int) =
          (c.MAX_XAUTH_USERNAME_LEN : Int) := by omega
      by_cases hw : env.sockWriteOk st.nSockWrite = true <;>
      by_cases hz : c.RC_WHACK_PROBLEM = 0 <;>
        simp [userPrompt, askValue, clampValue, replyWith, send_reply, PromptOnce, SecInv,
          UsrInv, credReply, n0, l0, hgt, hw, hz, hmin, hle, h1]
    · have hmin : min (env.whack_get_value 0).2 (c.MAX_XAUTH_USERNAME_LEN : Int) =
          (env.whack_get_value 0).2 := by omega
      by_cases hw : env.sockWriteOk st.nSockWrite = true <;>
      by_cases hz : c.RC_WHACK_PROBLEM = 0 <;>
        simp [userPrompt, askValue, clampValue, replyWith, send_reply, PromptOnce, SecInv,
          UsrInv, credReply, n0, l0, hgt, hw, hz, hmin, hle, h1]
  · have hngt : ¬ (min (env.whack_get_value 0).2 (c.MAX_XAUTH_USERNAME_LEN : Int) >
        (c.MAX_XAUTH_USERNAME_LEN : Int)) := by omega
    by_cases hw : env.sockWriteOk st.nSockWrite = true <;>
    by_cases hz : c.RC_WHACK_PROBLEM = 0 <;>
      simp [userPrompt, askValue, clampValue, replyWith, send_reply, PromptOnce, SecInv,
        UsrInv, credReply, n1, b1, l1, hmin0, hngt, hw, hz, hle, h1]

theorem promptOnce_neutral (c : Consts) (env : Env) (st st1 : St) (evs : List Event)
    (h1 : SecInv c env st) (h2 : UsrInv c env st) (hev : ∀ e ∈ evs, e.neutral = true)
    (e1 : st1.nSecret = st.nSecret) (e2 : st1.nValue = st.nValue)
    (i1 : SecInv c env st1) (i2 : UsrInv c env st1) :
    PromptOnce c env st (Flow.next st1) evs := by
  have c1 : evs.count Event.getSecret = 0 :=
    List.count_eq_zero.2 (fun h => by have := hev _ h; simp [Event.neutral] at this)
  have c2 : evs.count Event.getValue = 0 :=
    List.count_eq_zero.2 (fun h => by have := hev _ h; simp [Event.neutral] at this)
  refine ⟨by rw [c1]; have := secInv_le_one h1; omega, by rw [c2]; have := usrInv_le_one h2; omega, ?_, ?_⟩
  · intro len bs hm
    have := hev _ hm
    simp [Event.neutral] at this
  · intro st2 hst
    cases hst
    exact ⟨i1, i2, by rw [c1]; omega, by rw [c2]; omega⟩

theorem promptOnce_done (c : Consts) (env : Env) (st : St) (o : Outcome) (evs : List Event)
    (h1 : SecInv c env st) (h2 : UsrInv c env st) (hev : ∀ e ∈ evs, e.neutral = true) :
    PromptOnce c env st (Flow.done o) evs := by
  have h := promptOnce_neutral c env st st evs h1 h2 hev rfl rfl h1 h2
  exact ⟨h.1, h.2.1, h.2.2.1, fun st1 hst => by cases hst⟩

theorem promptOnce_append (c : Consts) (env : Env) (st st1 : St) (fl : Flow)
    (evs1 evs2 : List Event) (ha : PromptOnce c env st (Flow.next st1) evs1)
    (hb : PromptOnce c env st1 fl evs2) : PromptOnce c env st fl (evs1 ++ evs2) := by
  obtain ⟨_, _, a3, a4⟩ := ha
  obtain ⟨_, _, n1, n2⟩ := a4 st1 rfl
  obtain ⟨b1, b2, b3, b4⟩ := hb
  refine ⟨by rw [List.count_append]; omega, by rw [List.count_append]; omega, ?_, ?_⟩
  · intro len bs hm
    rcases List.mem_append.1 hm with hm | hm
    · exact a3 len bs hm
    · exact b3 len bs hm
  · intro st2 hst
    obtain ⟨i1, i2, m1, m2⟩ := b4 st2 hst
    exact ⟨i1, i2, by rw [List.count_append]; omega, by rw [List.count_append]; omega⟩

theorem dispatch_promptOnce (c : Consts) (env : Env) (s : Nat) (st : St)
    (hs : (env.whack_get_secret 0).2 ≠ 0) (hv : (env.whack_get_value 0).2 ≠ 0)
    (h1 : SecInv c env st) (h2 : UsrInv c env st) :
    PromptOnce c env st (dispatch c env s st).1 (dispatch c env s st).2 := by
  unfold dispatch
  split
  · exact promptOnce_neutral c env st _ [] h1 h2 (by simp) rfl rfl h1 h2
  split
  · exact promptOnce_neutral c env st _ [] h1 h2 (by simp) rfl rfl h1 h2
  split
  · exact enterSecret_promptOnce c env st hs h1 h2
  split
  · exact userPrompt_promptOnce c env st hv h1 h2
  · exact promptOnce_neutral c env st _ [] h1 h2 (by simp) rfl rfl h1 h2

theorem doLine_promptOnce (c : Consts) (env : Env) (buf : List Nat) (ls le : Nat) (st : St)
    (hs : (env.whack_get_secret 0).2 ≠ 0) (hv : (env.whack_get_value 0).2 ≠ 0)
    (h1 : SecInv c env st) (h2 : UsrInv c env st) :
    PromptOnce c env st (doLine c env buf ls le st).1 (doLine c env buf ls le st).2 := by
  simp only [doLine]
  split
  · exact promptOnce_done c env st _ _ h1 h2 (by simp [Event.neutral])
  · have hd := dispatch_promptOnce c env (strtoul (buf.drop ls)).1
      { st with nStdout := st.nStdout + 1 } hs hv h1 h2
    refine promptOnce_append c env st { st with nStdout := st.nStdout + 1 } _ _ _ ?_ hd
    refine promptOnce_neutral c env st _ _ h1 h2 ?_ rfl rfl h1 h2
    intro e he
    split at he <;> simp at he
    · rcases he with he | he <;> subst he <;> rfl
    · subst he; rfl

theorem scanLines_promptOnce (c : Consts) (env : Env)
    (hs : (env.whack_get_secret 0).2 ≠ 0) (hv : (env.whack_get_value 0).2 ≠ 0) :
    ∀ (fuel : Nat) (buf : List Nat) (ls : Nat) (st : St) (fl : Flow) (buf1 : List Nat)
      (evs : List Event), scanLines c env fuel buf ls st = some ((fl, buf1), evs) →
      SecInv c env st → UsrInv c env st → PromptOnce c env st fl evs := by
  intro fuel
  induction fuel with
  | zero => intro buf ls st fl buf1 evs h; simp [scanLines] at h
  | succ fuel ih =>
    intro buf ls st fl buf1 evs h h1 h2
    simp only [scanLines] at h
    split at h
    · simp only [Option.some.injEq, Prod.mk.injEq] at h
      obtain ⟨⟨rfl, _⟩, rfl⟩ := h
      exact promptOnce_neutral c env st st _ h1 h2 (by simp [Event.neutral]) rfl rfl h1 h2
    · rename_i nl _
      have hd := doLine_promptOnce c env buf ls (nl + 1) st hs hv h1 h2
      split at h
      · rename_i o evs1 hdo
        simp only [Option.some.injEq, Prod.mk.injEq] at h
        obtain ⟨⟨rfl, _⟩, rfl⟩ := h
        rw [hdo] at hd
        exact hd
      · rename_i st1 evs1 hdo
        rw [hdo] at hd
        rcases hrec : scanLines c env fuel buf (nl + 1) st1 with _ | ⟨⟨fl2, buf2⟩, evs2⟩
        · rw [hrec] at h; simp at h
        · rw [hrec] at h
          simp only [Option.map_some', Option.some.injEq, Prod.mk.injEq] at h
          obtain ⟨⟨rfl, _⟩, rfl⟩ := h
          obtain ⟨i1, i2, _, _⟩ := hd.2.2.2 st1 rfl
          exact promptOnce_append c env st st1 _ _ _ hd (ih buf (nl + 1) st1 _ _ _ hrec i1 i2)

theorem readLoop_promptOnce (c : Consts) (env : Env)
    (hs : (env.whack_get_secret 0).2 ≠ 0) (hv : (env.whack_get_value 0).2 ≠ 0) :
    ∀ (fuel : Nat) (sock : List ReadEv) (buf : List Nat) (st : St) (o : Outcome)
      (evs : List Event), readLoop c env fuel sock buf st = some (o, evs) →
      SecInv c env st → UsrInv c env st → PromptOnce c env st (Flow.done o) evs := by
  intro fuel
  induction fuel with
  | zero => intro sock buf st o evs h; simp [readLoop] at h
  | succ fuel ih =>
    intro sock buf st o evs h h1 h2
    simp only [readLoop] at h
    split at h
    · simp only [Option.some.injEq, Prod.mk.injEq] at h
      obtain ⟨rfl, rfl⟩ := h
      exact promptOnce_done c env st _ _ h1 h2 (by simp [Event.neutral])
    · simp only [Option.some.injEq, Prod.mk.injEq] at h
      obtain ⟨rfl, rfl⟩ := h
      refine promptOnce_done c env st _ _ h1 h2 ?_
      intro e he
      by_cases hb : buf = [] <;> simp [hb] at he
      · subst he; rfl
      · rcases he with he | he <;> subst he <;> rfl
    · rename_i b bs sock1 _
      have hpre : PromptOnce c env st (Flow.next st)
          [Event.read ((4096 : Int) - (buf.length : Int)) ((b :: bs).length : Int),
            Event.storeNul (buf ++ b :: bs).length] :=
        promptOnce_neutral c env st st _ h1 h2 (by simp [Event.neutral]) rfl rfl h1 h2
      split at h
      · simp at h
      · rename_i o1 buf1 evs1 hscan
        simp only [Option.some.injEq, Prod.mk.injEq] at h
        obtain ⟨rfl, rfl⟩ := h
        have := scanLines_promptOnce c env hs hv _ _ _ _ _ _ _ hscan h1 h2
        exact promptOnce_append c env st st _ _ _ hpre this
      · rename_i st1 buf2 evs1 hscan
        have hsc := scanLines_promptOnce c env hs hv _ _ _ _ _ _ _ hscan h1 h2
        rcases hrec : readLoop c env fuel sock1 buf2 st1 with _ | ⟨o2, evs2⟩
        · rw [hrec] at h; simp at h
        · rw [hrec] at h
          simp only [Option.map_some', Option.some.injEq, Prod.mk.injEq] at h
          obtain ⟨rfl, rfl⟩ := h
          obtain ⟨i1, i2, _, _⟩ := hsc.2.2.2 st1 rfl
          have h3 := ih sock1 buf2 st1 _ _ hrec i1 i2
          have h4 := promptOnce_append c env st st1 _ _ _ hsc h3
          have h5 := promptOnce_append c env st st _ _ _ hpre h4
          simpa [List.append_assoc] using h5

/-! ## Termination: the iteration budgets suffice -/

theorem findNL_lt (s : List Nat) (n : Nat) (h : findNL s = some n) : n < s.length := by
  induction s generalizing n with
  | nil => simp [findNL] at h
  | cons b bs ih =>
    simp only [findNL] at h
    split at h
    · simp at h; subst h; simp
    · split at h
      · simp at h
      · rcases hf : findNL bs with _ | m
        · rw [hf] at h; simp at h
        · rw [hf] at h
          simp at h
          subst h
          have := ih m hf
          simp; omega

theorem strchr_nl_bounds (buf : List Nat) (ls nl : Nat) (h : strchr_nl buf ls = some nl) :
    ls ≤ nl ∧ nl < buf.length := by
  unfold strchr_nl at h
  rcases hf : findNL (buf.drop ls) with _ | m
  · rw [hf] at h; simp at h
  · rw [hf] at h
    simp at h
    have := findNL_lt _ _ hf
    simp at this
    omega

theorem scanLines_total (c : Consts) (env : Env) :
    ∀ (fuel : Nat) (buf : List Nat) (ls : Nat) (st : St), ls ≤ buf.length →
      buf.length < ls + fuel → ∃ r, scanLines c env fuel buf ls st = some r := by
  intro fuel
  induction fuel with
  | zero => intro buf ls st h1 h2; omega
  | succ fuel ih =>
    intro buf ls st h1 h2
    simp only [scanLines]
    rcases hnl : strchr_nl buf ls with _ | nl
    · exact ⟨_, rfl⟩
    · obtain ⟨b1, b2⟩ := strchr_nl_bounds buf ls nl hnl
      simp only
      rcases hdo : doLine c env buf ls (nl + 1) st with ⟨fl, evs⟩
      cases fl with
      | done o => exact ⟨_, rfl⟩
      | next st1 =>
        obtain ⟨r, hr⟩ := ih buf (nl + 1) st1 (by omega) (by omega)
        exact ⟨_, by simp only [hr, Option.map_some']; rfl⟩

theorem sockRead_fuel (sock : List ReadEv) (n : Nat) (b : Nat) (bs : List Nat)
    (sock1 : List ReadEv) (h : sockRead sock n = (ReadEv.data (b :: bs), sock1)) :
    readFuel sock1 < readFuel sock := by
  unfold sockRead at h
  split at h
  · simp at h
  · rename_i hn
    cases sock with
    | nil => simp at h
    | cons ev rest =>
      cases ev with
      | error => simp at h
      | data ch =>
        simp only at h
        split at h
        · simp only [Prod.mk.injEq, ReadEv.data.injEq] at h
          obtain ⟨_, rfl⟩ := h
          simp [readFuel]; omega
        · simp only [Prod.mk.injEq, ReadEv.data.injEq] at h
          obtain ⟨_, rfl⟩ := h
          simp [readFuel]; omega

theorem readLoop_total (c : Consts) (env : Env) :
    ∀ (fuel : Nat) (sock : List ReadEv) (buf : List Nat) (st : St), readFuel sock ≤ fuel →
      ∃ r, readLoop c env fuel sock buf st = some r := by
  intro fuel
  induction fuel with
  | zero =>
    intro sock buf st h
    exfalso
    cases sock with
    | nil => simp [readFuel] at h
    | cons ev rest => cases ev <;> simp [readFuel] at h
  | succ fuel ih =>
    intro sock buf st h
    simp only [readLoop]
    rcases hread : sockRead sock ((4096 : Int) - (buf.length : Int)).toNat with ⟨ev, sock1⟩
    cases ev with
    | error => exact ⟨_, rfl⟩
    | data ch =>
      cases ch with
      | nil => exact ⟨_, rfl⟩
      | cons b bs =>
        have hf := sockRead_fuel _ _ _ _ _ hread
        simp only
        obtain ⟨⟨⟨fl, buf2⟩, evs⟩, hscan⟩ := scanLines_total c env ((buf ++ b :: bs).length + 1)
          (buf ++ b :: bs) 0 st (Nat.zero_le _) (by omega)
        rw [hscan]
        cases fl with
        | done o => exact ⟨_, rfl⟩
        | next st1 =>
          obtain ⟨r, hr⟩ := ih sock1 buf2 st1 (by omega)
          exact ⟨_, by simp only [hr, Option.map_some']; rfl⟩

/-- The call returns or exits on every socket script. -/
theorem read_reply_total (c : Consts) (env : Env) (sock : List ReadEv) (u p : List Nat)
    (ul pl : Int) : ∃ r, starter_whack_read_reply c env sock u p ul pl = some r :=
  readLoop_total c env _ sock [] _ (Nat.le_refl _)

/-! ## The properties C1 to C10 of the specification -/

/-- C1 (counterexample): the pass-through code 4294967296 on its own line is
returned as 0, not as 4294967296: `ret = s` truncates the `unsigned long` to
`int`. -/
theorem C1_counterexample :
    (4294967296 : Nat) ∉ reserved sampleConsts ∧
    (Line.mk (bytes "4294967296") (bytes "x")).WF ∧
    (Line.mk (bytes "4294967296") (bytes "x")).code = 4294967296 ∧
    (starter_whack_read_reply sampleConsts quietEnv
        (deliver [stream [Line.mk (bytes "4294967296") (bytes "x")]]) [] [] 0 0).map Prod.fst
      = some (Outcome.returned 0) ∧
    (starter_whack_read_reply sampleConsts quietEnv
        (deliver [stream [Line.mk (bytes "4294967296") (bytes "x")]]) [] [] 0 0).map Prod.fst
      ≠ some (Outcome.returned 4294967296) := by
  decide

/-- C1 (amended): for every pass-through code `K` (not one of the seven
reserved codes) that fits an `int` (`K < 2^31`), and every stream of
well-formed chatter lines with exactly one line `K <text>\n` among them,
delivered in any chunks and followed by close, the call returns exactly `K`. -/
theorem C1_pass_through_returned (c : Consts) (env : Env) (K : Nat) (pre post : List Line)
    (kl : Line) (chunks : List (List Nat)) (u p : List Nat) (ul pl : Int)
    (hK : K ∉ reserved c) (hint : K < 2 ^ 31) (hkl : kl.code = K)
    (hpre : ∀ l ∈ pre, l.isChatter c) (hpost : ∀ l ∈ post, l.isChatter c)
    (hwf : ∀ l ∈ pre ++ kl :: post, l.WF) (hch : ∀ ch ∈ chunks, ch ≠ [])
    (hcat : chunks.flatten = stream (pre ++ kl :: post)) :
    ∃ evs, starter_whack_read_reply c env (deliver chunks) u p ul pl =
      some (Outcome.returned K, evs) := by
  subst hkl
  have hnp : ∀ l ∈ pre ++ kl :: post, ¬ l.isPrompt c := by
    intro l hl hp
    rcases List.mem_append.1 hl with h | h
    · exact not_chatter_of_prompt c l hp (hpre l h)
    · rcases List.mem_cons.1 h with h | h
      · subst h
        apply hK
        unfold Line.isPrompt at hp
        simp only [reserved, List.mem_cons, List.mem_singleton]
        tauto
      · exact not_chatter_of_prompt c l hp (hpost l h)
  obtain ⟨evs, hrun, _⟩ := read_reply_ok c env (pre ++ kl :: post) [] chunks u p ul pl hwf
    (by simp) hch (by simpa using hcat) (Or.inr hnp)
  refine ⟨evs, ?_⟩
  rw [hrun, recorded_append, recorded_cons, recorded_chatter c pre hpre,
    recorded_chatter c post hpost, lineRet_pass_through c kl hK hint]

/-- C1 (witness): code 21 between two chatter lines, cut into three reads. -/
theorem C1_pass_through_returned_witness :
    ∃ evs, starter_whack_read_reply sampleConsts quietEnv
      (deliver [bytes "002 hel", bytes "lo\n21 no connection", bytes "\n000 bye\n"])
      [] [] 0 0 = some (Outcome.returned 21, evs) :=
  C1_pass_through_returned sampleConsts quietEnv 21
    [Line.mk (bytes "002") (bytes "hello")] [Line.mk (bytes "000") (bytes "bye")]
    (Line.mk (bytes "21") (bytes "no connection")) _ [] [] 0 0
    (by decide) (by decide) (by decide) (by decide) (by decide) (by decide) (by decide)
    (by decide)

/-- C2: a stream made only of well-formed Comment, Raw, Log, Informational
and Success lines (the empty stream included), delivered in any chunks and
followed by close, makes the call return 0. -/
theorem C2_chatter_and_success_return_zero (c : Consts) (env : Env) (lines : List Line)
    (chunks : List (List Nat)) (u p : List Nat) (ul pl : Int)
    (hl : ∀ l ∈ lines, l.isChatter c ∨ l.isSuccess c) (hwf : ∀ l ∈ lines, l.WF)
    (hch : ∀ ch ∈ chunks, ch ≠ []) (hcat : chunks.flatten = stream lines) :
    ∃ evs, starter_whack_read_reply c env (deliver chunks) u p ul pl =
      some (Outcome.returned 0, evs) := by
  have hnp : ∀ l ∈ lines, ¬ l.isPrompt c := by
    intro l hm hp
    rcases hl l hm with h | h
    · exact not_chatter_of_prompt c l hp h
    · obtain ⟨_, ⟨_, _, _, _, m5⟩, ⟨_, _, _, _, k5, _⟩⟩ := labels_ne c
      unfold Line.isSuccess at h
      unfold Line.isPrompt at hp
      rw [h] at hp
      rcases hp with hp | hp
      · exact m5 hp
      · exact k5 hp
  obtain ⟨evs, hrun, _⟩ := read_reply_ok c env lines [] chunks u p ul pl hwf
    (by simp) hch (by simpa using hcat) (Or.inr hnp)
  exact ⟨evs, by rw [hrun, recorded_chatter_success c lines hl]⟩

/-- C2 (witness): three lines in two reads, and the empty stream. -/
theorem C2_chatter_and_success_return_zero_witness :
    (∃ evs, starter_whack_read_reply sampleConsts quietEnv
      (deliver [bytes "002 listening\n004 o", bytes "k\n005 info\n"]) [] [] 0 0 =
        some (Outcome.returned 0, evs)) ∧
    (∃ evs, starter_whack_read_reply sampleConsts quietEnv (deliver []) [] [] 0 0 =
        some (Outcome.returned 0, evs)) :=
  ⟨C2_chatter_and_success_return_zero sampleConsts quietEnv
      [Line.mk (bytes "002") (bytes "listening"), Line.mk (bytes "004") (bytes "ok"),
        Line.mk (bytes "005") (bytes "info")] _ [] [] 0 0
      (by decide) (by decide) (by decide) (by decide),
    C2_chatter_and_success_return_zero sampleConsts quietEnv [] [] [] [] 0 0
      (by decide) (by decide) (by decide) (by decide)⟩

/-- C3: when the last line of a stream of well-formed lines is a Success
line, the stream is followed by close and every credential reply write
succeeds, the call returns 0 whatever lines precede the Success line. -/
theorem C3_final_success_returns_zero (c : Consts) (env : Env) (pre : List Line) (sl : Line)
    (chunks : List (List Nat)) (u p : List Nat) (ul pl : Int)
    (hs : sl.isSuccess c) (hwf : ∀ l ∈ pre ++ [sl], l.WF)
    (hok : ∀ i, env.sockWriteOk i = true)
    (hch : ∀ ch ∈ chunks, ch ≠ []) (hcat : chunks.flatten = stream (pre ++ [sl])) :
    ∃ evs, starter_whack_read_reply c env (deliver chunks) u p ul pl =
      some (Outcome.returned 0, evs) := by
  obtain ⟨evs, hrun, _⟩ := read_reply_ok c env (pre ++ [sl]) [] chunks u p ul pl hwf
    (by simp) hch (by simpa using hcat) (Or.inl hok)
  refine ⟨evs, ?_⟩
  rw [hrun, recorded_append, recorded_cons]
  simp [recorded, lineRet, hs, not_chatter_of_success c sl hs]

/-- C3 (witness): a pass-through code 21 and a secret prompt, then Success. -/
theorem C3_final_success_returns_zero_witness :
    ∃ evs, starter_whack_read_reply sampleConsts answerEnv
      (deliver [bytes "21 no\n40 Enter secret\n4 ", bytes "done\n"]) [] [] 0 0 =
        some (Outcome.returned 0, evs) :=
  C3_final_success_returns_zero sampleConsts answerEnv
    [Line.mk (bytes "21") (bytes "no"), Line.mk (bytes "40") (bytes "Enter secret")]
    (Line.mk (bytes "4") (bytes "done")) _ [] [] 0 0
    (by decide) (by decide) (fun _ => rfl) (by decide) (by decide)

/-- C4 (counterexample): the pass-through code 21 followed by an EnterSecret
line whose reply write succeeds: the call returns 0, not 21, because
`ret = send_reply(...)` stores 0. -/
theorem C4_counterexample :
    (21 : Nat) ∉ reserved sampleConsts ∧
    (Line.mk (bytes "40") (bytes "Enter secret")).code = sampleConsts.RC_ENTERSECRET ∧
    (∀ i, answerEnv.sockWriteOk i = true) ∧
    (starter_whack_read_reply sampleConsts answerEnv
        (deliver [stream [Line.mk (bytes "21") (bytes "no"),
          Line.mk (bytes "40") (bytes "Enter secret")]]) [] [] 0 0).map Prod.fst
      = some (Outcome.returned 0) :=
  ⟨by decide, by decide, fun _ => rfl, by decide⟩

/-- C4 (amended): an EnterSecret or UserPrompt line whose credential reply
write succeeds records result 0. For a pass-through code `K < 2^31` whose line
is followed only by chatter lines and by EnterSecret/UserPrompt lines, all
credential writes succeeding, then close: the call returns `K` when no
EnterSecret/UserPrompt line follows the `K` line, and 0 when one does. -/
theorem C4_prompt_line_records_zero (c : Consts) (env : Env) (K : Nat) (pre post : List Line)
    (kl : Line) (chunks : List (List Nat)) (u p : List Nat) (ul pl : Int)
    (hK : K ∉ reserved c) (hint : K < 2 ^ 31) (hkl : kl.code = K)
    (hpost : ∀ l ∈ post, l.isChatter c ∨ l.isPrompt c)
    (hwf : ∀ l ∈ pre ++ kl :: post, l.WF) (hok : ∀ i, env.sockWriteOk i = true)
    (hch : ∀ ch ∈ chunks, ch ≠ []) (hcat : chunks.flatten = stream (pre ++ kl :: post)) :
    ∃ evs, starter_whack_read_reply c env (deliver chunks) u p ul pl =
      some (Outcome.returned (if ∀ l ∈ post, l.isChatter c then (K : Int) else 0), evs) := by
  subst hkl
  obtain ⟨evs, hrun, _⟩ := read_reply_ok c env (pre ++ kl :: post) [] chunks u p ul pl hwf
    (by simp) hch (by simpa using hcat) (Or.inl hok)
  refine ⟨evs, ?_⟩
  rw [hrun, recorded_append, recorded_cons, recorded_chatter_prompt c post hpost,
    lineRet_pass_through c kl hK hint]

/-- C4 (witness): code 21 then chatter returns 21; code 21 then a username
prompt returns 0. -/
theorem C4_prompt_line_records_zero_witness :
    (∃ evs, starter_whack_read_reply sampleConsts answerEnv
      (deliver [bytes "4 ok\n21 no\n002 bye\n"]) [] [] 0 0 =
        some (Outcome.returned 21, evs)) ∧
    (∃ evs, starter_whack_read_reply sampleConsts answerEnv
      (deliver [bytes "4 ok\n21 no\n41 Name:\n002 bye\n"]) [] [] 0 0 =
        some (Outcome.returned 0, evs)) :=
  ⟨C4_prompt_line_records_zero sampleConsts answerEnv 21 [Line.mk (bytes "4") (bytes "ok")]
      [Line.mk (bytes "002") (bytes "bye")] (Line.mk (bytes "21") (bytes "no")) _ [] [] 0 0
      (by decide) (by decide) (by decide) (by decide) (by decide) (fun _ => rfl) (by decide)
      (by decide),
    C4_prompt_line_records_zero sampleConsts answerEnv 21 [Line.mk (bytes "4") (bytes "ok")]
      [Line.mk (bytes "41") (bytes "Name:"), Line.mk (bytes "002") (bytes "bye")]
      (Line.mk (bytes "21") (bytes "no")) _ [] [] 0 0
      (by decide) (by decide) (by decide) (by decide) (by decide) (fun _ => rfl) (by decide)
      (by decide)⟩

/-- C5 (the code at the failing inputs): an empty line followed by a
well-formed line in the same read is accepted, not rejected: its number is
taken from the next line, the echo `write` gets the count `-2`, and the call
returns 0. Lines that start with a space, `+` or `-` are accepted too. The
same empty line alone in its read is rejected. -/
theorem C5_lines_without_digit_start_accepted :
    starter_whack_read_reply sampleConsts quietEnv [ReadEv.data (bytes "\n0 ok\n")] [] [] 0 0
      = some (Outcome.returned 0,
          [Event.read 4096 6, Event.storeNul 6, Event.stdout (-2) [],
            Event.stdout 3 (bytes "ok\n"), Event.memmove 0, Event.read 4096 0]) ∧
    (starter_whack_read_reply sampleConsts quietEnv [ReadEv.data (bytes " 4 ok\n")] [] [] 0 0).map
        Prod.fst = some (Outcome.returned 0) ∧
    (starter_whack_read_reply sampleConsts quietEnv [ReadEv.data (bytes "+4 ok\n")] [] [] 0 0).map
        Prod.fst = some (Outcome.returned 0) ∧
    (starter_whack_read_reply sampleConsts quietEnv [ReadEv.data (bytes "-0 ok\n")] [] [] 0 0).map
        Prod.fst = some (Outcome.returned 0) ∧
    (starter_whack_read_reply sampleConsts quietEnv
        [ReadEv.data (bytes "\n"), ReadEv.data (bytes "0 ok\n")] [] [] 0 0).map
        Prod.fst = some (Outcome.exited 33) := by
  decide

/-- C6: for every stream of well-formed lines (`NNN <text>\n`, text without
newline or NUL, at most 4096 bytes each) whose codes are not EnterSecret or
UserPrompt, in any chunks, the bytes handed to the standard-output `write`
are exactly the lines' `<text>\n` in stream order, and the call returns the
last recorded result. -/
theorem C6_stdout_is_text_of_lines (c : Consts) (env : Env) (lines : List Line)
    (chunks : List (List Nat)) (u p : List Nat) (ul pl : Int)
    (hwf : ∀ l ∈ lines, l.WF) (hnp : ∀ l ∈ lines, ¬ l.isPrompt c)
    (hch : ∀ ch ∈ chunks, ch ≠ []) (hcat : chunks.flatten = stream lines) :
    ∃ evs, starter_whack_read_reply c env (deliver chunks) u p ul pl =
        some (Outcome.returned (recorded c lines 0), evs) ∧
      transcript evs = (lines.map Line.echo).flatten :=
  read_reply_ok c env lines [] chunks u p ul pl hwf (by simp) hch (by simpa using hcat)
    (Or.inr hnp)

/-- C6 (witness): the stream `0 done\n` yields result 0 and transcript
`done\n`. -/
theorem C6_stdout_is_text_of_lines_witness :
    ∃ evs, starter_whack_read_reply sampleConsts quietEnv (deliver [bytes "0 done\n"])
        [] [] 0 0 = some (Outcome.returned 0, evs) ∧
      transcript evs = bytes "done\n" :=
  C6_stdout_is_text_of_lines sampleConsts quietEnv [Line.mk (bytes "0") (bytes "done")]
    [bytes "0 done\n"] [] [] 0 0 (by decide) (by decide) (by decide) (by decide)

/-- C7 (counterexample): the EnterSecret line `40 Enter secret\n` is echoed:
its text is written to standard output. -/
theorem C7_counterexample :
    (Line.mk (bytes "40") (bytes "Enter secret")).code = sampleConsts.RC_ENTERSECRET ∧
    (starter_whack_read_reply sampleConsts answerEnv
        (deliver [stream [Line.mk (bytes "40") (bytes "Enter secret")]]) [] [] 0 0).map
      (fun r => transcript r.2) = some (bytes "Enter secret\n") := by
  decide

/-- C7 (amended): EnterSecret and UserPrompt lines are echoed like every
other line. For every stream of well-formed lines, prompt lines included, in
any chunks, with every credential reply write succeeding, the bytes handed
to the standard-output `write` are the `<text>\n` of every line, in order. -/
theorem C7_prompt_lines_are_echoed (c : Consts) (env : Env) (lines : List Line)
    (chunks : List (List Nat)) (u p : List Nat) (ul pl : Int)
    (hwf : ∀ l ∈ lines, l.WF) (hok : ∀ i, env.sockWriteOk i = true)
    (hch : ∀ ch ∈ chunks, ch ≠ []) (hcat : chunks.flatten = stream lines) :
    ∃ o evs, starter_whack_read_reply c env (deliver chunks) u p ul pl = some (o, evs) ∧
      transcript evs = (lines.map Line.echo).flatten := by
  obtain ⟨evs, h1, h2⟩ := read_reply_ok c env lines [] chunks u p ul pl hwf (by simp) hch
    (by simpa using hcat) (Or.inl hok)
  exact ⟨_, evs, h1, h2⟩

/-- C7 (witness): a log line, a secret prompt and a username prompt are all
echoed. -/
theorem C7_prompt_lines_are_echoed_witness :
    ∃ o evs, starter_whack_read_reply sampleConsts answerEnv
        (deliver [bytes "002 hi\n40 Enter ", bytes "secret\n41 Name:\n"]) [] [] 0 0 =
          some (o, evs) ∧
      transcript evs = bytes "hi\nEnter secret\nName:\n" :=
  C7_prompt_lines_are_echoed sampleConsts answerEnv
    [Line.mk (bytes "002") (bytes "hi"), Line.mk (bytes "40") (bytes "Enter secret"),
      Line.mk (bytes "41") (bytes "Name:")]
    [bytes "002 hi\n40 Enter ", bytes "secret\n41 Name:\n"] [] [] 0 0
    (by decide) (fun _ => rfl) (by decide) (by decide)

/-- C8 (counterexample): when the secret prompt returns length 0, the next
EnterSecret line of the same transaction prompts again: two EnterSecret lines
give two calls of `whack_get_secret`. -/
theorem C8_counterexample :
    (quietEnv.whack_get_secret 0).2 = 0 ∧
    (starter_whack_read_reply sampleConsts quietEnv
        (deliver [bytes "40 Enter secret\n40 Enter secret\n"]) [] [] 0 0).map
      (fun r => r.2.count Event.getSecret) = some 2 := by
  decide

/-- C8 (amended): in a call with both lengths 0, if the first answer of each
prompt has a non-zero length, then on every socket script `whack_get_secret`
is called at most once and `whack_get_value` at most once, and every
credential reply written to the socket is the (clamped) first answer of one
of the two prompts. -/
theorem C8_prompt_at_most_once (c : Consts) (env : Env) (sock : List ReadEv) (u p : List Nat)
    (hs : (env.whack_get_secret 0).2 ≠ 0) (hv : (env.whack_get_value 0).2 ≠ 0) :
    ∃ o evs, starter_whack_read_reply c env sock u p 0 0 = some (o, evs) ∧
      evs.count Event.getSecret ≤ 1 ∧ evs.count Event.getValue ≤ 1 ∧
      ∀ len bs, Event.sockWrite len bs ∈ evs →
        Event.sockWrite len bs = credReply (env.whack_get_secret 0) c.XAUTH_MAX_PASS_LENGTH ∨
        Event.sockWrite len bs = credReply (env.whack_get_value 0) c.MAX_XAUTH_USERNAME_LEN := by
  obtain ⟨⟨o, evs⟩, hrun⟩ := read_reply_total c env sock u p 0 0
  have h := readLoop_promptOnce c env hs hv _ sock [] _ o evs hrun
    (Or.inl ⟨rfl, rfl⟩) (Or.inl ⟨rfl, rfl⟩)
  refine ⟨o, evs, hrun, ?_, ?_, h.2.2.1⟩
  · have := h.1; omega
  · have := h.2.1; omega

/-- C8 (witness): two secret prompts and two username prompts in one
transaction. -/
theorem C8_prompt_at_most_once_witness :
    ∃ o evs, starter_whack_read_reply sampleConsts answerEnv
        (deliver [bytes "40 Secret:\n41 Name:\n40 Secret:\n41 Name:\n"]) [] [] 0 0 =
          some (o, evs) ∧
      evs.count Event.getSecret ≤ 1 ∧ evs.count Event.getValue ≤ 1 ∧
      ∀ len bs, Event.sockWrite len bs ∈ evs →
        Event.sockWrite len bs = credReply (bytes "hunter2", 7) 128 ∨
        Event.sockWrite len bs = credReply (bytes "alice", 5) 128 :=
  C8_prompt_at_most_once sampleConsts answerEnv
    (deliver [bytes "40 Secret:\n41 Name:\n40 Secret:\n41 Name:\n"]) [] [] (by decide)
    (by decide)

theorem dispatch_enterSecret (c : Consts) (env : Env) (st : St) :
    dispatch c env c.RC_ENTERSECRET st = enterSecret c env st := by
  obtain ⟨_, ⟨m1, m2, m3, m4, m5⟩, _⟩ := labels_ne c
  have h1 : ¬ (c.RC_ENTERSECRET = c.RC_COMMENT ∨ c.RC_ENTERSECRET = c.RC_RAW ∨
      c.RC_ENTERSECRET = c.RC_LOG ∨ c.RC_ENTERSECRET = c.RC_INFORMATIONAL) := by
    intro h; rcases h with h | h | h | h
    · exact m1 h.symm
    · exact m2 h.symm
    · exact m3 h.symm
    · exact m4 h.symm
  simp only [dispatch, if_neg h1, if_neg (Ne.symm m5), if_true]

theorem dispatch_userPrompt (c : Consts) (env : Env) (st : St) :
    dispatch c env c.RC_USERPROMPT st = userPrompt c env st := by
  obtain ⟨_, _, ⟨k1, k2, k3, k4, k5, k6⟩⟩ := labels_ne c
  have h1 : ¬ (c.RC_USERPROMPT = c.RC_COMMENT ∨ c.RC_USERPROMPT = c.RC_RAW ∨
      c.RC_USERPROMPT = c.RC_LOG ∨ c.RC_USERPROMPT = c.RC_INFORMATIONAL) := by
    intro h; rcases h with h | h | h | h
    · exact k1 h.symm
    · exact k2 h.symm
    · exact k3 h.symm
    · exact k4 h.symm
  simp only [dispatch, if_neg h1, if_neg (Ne.symm k5), if_neg (Ne.symm k6), if_true]

theorem enterSecret_clamp (c : Consts) (env : Env) (st : St) :
    sockWrites (enterSecret c env st).2 =
        [Event.sockWrite (min (secretLen env st) (c.XAUTH_MAX_PASS_LENGTH : Int))
          ((secretBuf env st).take
            (min (secretLen env st) (c.XAUTH_MAX_PASS_LENGTH : Int)).toNat)] ∧
      (Event.diag Diag.passTooLong ∈ (enterSecret c env st).2 ↔
        secretLen env st > (c.XAUTH_MAX_PASS_LENGTH : Int)) := by
  by_cases h0 : st.xauthpasslen = 0
  · by_cases hgt : (env.whack_get_secret st.nSecret).2 > (c.XAUTH_MAX_PASS_LENGTH : Int)
    · have hmin : min (env.whack_get_secret st.nSecret).2 (c.XAUTH_MAX_PASS_LENGTH : Int) =
          (c.XAUTH_MAX_PASS_LENGTH : Int) := by omega
      by_cases hw : env.sockWriteOk st.nSockWrite = true <;>
      by_cases hz : c.RC_WHACK_PROBLEM = 0 <;>
        simp [enterSecret, askSecret, clampSecret, replyWith, send_reply, sockWrites, secretLen,
          secretBuf, h0, hgt, hw, hz, hmin]
    · have hmin : min (env.whack_get_secret st.nSecret).2 (c.XAUTH_MAX_PASS_LENGTH : Int) =
          (env.whack_get_secret st.nSecret).2 := by omega
      by_cases hw : env.sockWriteOk st.nSockWrite = true <;>
      by_cases hz : c.RC_WHACK_PROBLEM = 0 <;>
        simp [enterSecret, askSecret, clampSecret, replyWith, send_reply, sockWrites, secretLen,
          secretBuf, h0, hgt, hw, hz, hmin]
  · by_cases hgt : st.xauthpasslen > (c.XAUTH_MAX_PASS_LENGTH : Int)
    · have hmin : min st.xauthpasslen (c.XAUTH_MAX_PASS_LENGTH : Int) =
          (c.XAUTH_MAX_PASS_LENGTH : Int) := by omega
      by_cases hw : env.sockWriteOk st.nSockWrite = true <;>
      by_cases hz : c.RC_WHACK_PROBLEM = 0 <;>
        simp [enterSecret, askSecret, clampSecret, replyWith, send_reply, sockWrites, secretLen,
          secretBuf, h0, hgt, hw, hz, hmin]
    · have hmin : min st.xauthpasslen (c.XAUTH_MAX_PASS_LENGTH : Int) = st.xauthpasslen := by
        omega
      by_cases hw : env.sockWriteOk st.nSockWrite = true <;>
      by_cases hz : c.RC_WHACK_PROBLEM = 0 <;>
        simp [enterSecret, askSecret, clampSecret, replyWith, send_reply, sockWrites, secretLen,
          secretBuf, h0, hgt, hw, hz, hmin]

theorem userPrompt_clamp (c : Consts) (env : Env) (st : St) :
    sockWrites (userPrompt c env st).2 =
        [Event.sockWrite (min (userLen env st) (c.MAX_XAUTH_USERNAME_LEN : Int))
          ((userBuf env st).take
            (min (userLen env st) (c.MAX_XAUTH_USERNAME_LEN : Int)).toNat)] ∧
      (Event.diag Diag.usernameTooLong ∈ (userPrompt c env st).2 ↔
        userLen env st > (c.MAX_XAUTH_USERNAME_LEN : Int)) := by
  by_cases h0 : st.usernamelen = 0
  · by_cases hgt : (env.whack_get_value st.nValue).2 > (c.MAX_XAUTH_USERNAME_LEN : Int)
    · have hmin : min (env.whack_get_value st.nValue).2 (c.MAX_XAUTH_USERNAME_LEN : Int) =
          (c.MAX_XAUTH_USERNAME_LEN : Int) := by omega
      by_cases hw : env.sockWriteOk st.nSockWrite = true <;>
      by_cases hz : c.RC_WHACK_PROBLEM = 0 <;>
        simp [userPrompt, askValue, clampValue, replyWith, send_reply, sockWrites, userLen,
          userBuf, h0, hgt, hw, hz, hmin]
    · have hmin : min (env.whack_get_value st.nValue).2 (c.MAX_XAUTH_USERNAME_LEN : Int) =
          (env.whack_get_value st.nValue).2 := by omega
      by_cases hw : env.sockWriteOk st.nSockWrite = true <;>
      by_cases hz : c.RC_WHACK_PROBLEM = 0 <;>
        simp [userPrompt, askValue, clampValue, replyWith, send_reply, sockWrites, userLen,
          userBuf, h0, hgt, hw, hz, hmin]
  · by_cases hgt : st.usernamelen > (c.MAX_XAUTH_USERNAME_LEN : Int)
    · have hmin : min st.usernamelen (c.MAX_XAUTH_USERNAME_LEN : Int) =
          (c.MAX_XAUTH_USERNAME_LEN : Int) := by omega
      by_cases hw : env.sockWriteOk st.nSockWrite = true <;>
      by_cases hz : c.RC_WHACK_PROBLEM = 0 <;>
        simp [userPrompt, askValue, clampValue, replyWith, send_reply, sockWrites, userLen,
          userBuf, h0, hgt, hw, hz, hmin]
    · have hmin : min st.usernamelen (c.MAX_XAUTH_USERNAME_LEN : Int) = st.usernamelen := by
        omega
      by_cases hw : env.sockWriteOk st.nSockWrite = true <;>
      by_cases hz : c.RC_WHACK_PROBLEM = 0 <;>
        simp [userPrompt, askValue, clampValue, replyWith, send_reply, sockWrites, userLen,
          userBuf, h0, hgt, hw, hz, hmin]

/-- C9: on an EnterSecret line with a positive credential length `L`
(returned by the prompt or supplied by the caller), exactly one reply is
written to the socket: the first `min(L, XAUTH_MAX_PASS_LENGTH)` bytes of the
secret buffer; the over-length diagnostic is logged exactly when
`L > XAUTH_MAX_PASS_LENGTH`; for `L = XAUTH_MAX_PASS_LENGTH + 1` the reply is
the first `XAUTH_MAX_PASS_LENGTH` bytes. The same holds on a UserPrompt line
with `MAX_XAUTH_USERNAME_LEN`. -/
theorem C9_credential_reply_clamped (c : Consts) (env : Env) (st : St) :
    (0 < secretLen env st →
      sockWrites (dispatch c env c.RC_ENTERSECRET st).2 =
          [Event.sockWrite (min (secretLen env st) (c.XAUTH_MAX_PASS_LENGTH : Int))
            ((secretBuf env st).take
              (min (secretLen env st) (c.XAUTH_MAX_PASS_LENGTH : Int)).toNat)] ∧
        (Event.diag Diag.passTooLong ∈ (dispatch c env c.RC_ENTERSECRET st).2 ↔
          secretLen env st > (c.XAUTH_MAX_PASS_LENGTH : Int)) ∧
        (secretLen env st = (c.XAUTH_MAX_PASS_LENGTH : Int) + 1 →
          sockWrites (dispatch c env c.RC_ENTERSECRET st).2 =
              [Event.sockWrite (c.XAUTH_MAX_PASS_LENGTH : Int)
                ((secretBuf env st).take c.XAUTH_MAX_PASS_LENGTH)] ∧
            (c.XAUTH_MAX_PASS_LENGTH ≤ (secretBuf env st).length →
              ((secretBuf env st).take c.XAUTH_MAX_PASS_LENGTH).length =
                c.XAUTH_MAX_PASS_LENGTH))) ∧
    (0 < userLen env st →
      sockWrites (dispatch c env c.RC_USERPROMPT st).2 =
          [Event.sockWrite (min (userLen env st) (c.MAX_XAUTH_USERNAME_LEN : Int))
            ((userBuf env st).take
              (min (userLen env st) (c.MAX_XAUTH_USERNAME_LEN : Int)).toNat)] ∧
        (Event.diag Diag.usernameTooLong ∈ (dispatch c env c.RC_USERPROMPT st).2 ↔
          userLen env st > (c.MAX_XAUTH_USERNAME_LEN : Int)) ∧
        (userLen env st = (c.MAX_XAUTH_USERNAME_LEN : Int) + 1 →
          sockWrites (dispatch c env c.RC_USERPROMPT st).2 =
              [Event.sockWrite (c.MAX_XAUTH_USERNAME_LEN : Int)
                ((userBuf env st).take c.MAX_XAUTH_USERNAME_LEN)] ∧
            (c.MAX_XAUTH_USERNAME_LEN ≤ (userBuf env st).length →
              ((userBuf env st).take c.MAX_XAUTH_USERNAME_LEN).length =
                c.MAX_XAUTH_USERNAME_LEN))) := by
  constructor
  · intro _
    rw [dispatch_enterSecret]
    obtain ⟨h1, h2⟩ := enterSecret_clamp c env st
    refine ⟨h1, h2, ?_⟩
    intro hL
    have hmin : min (secretLen env st) (c.XAUTH_MAX_PASS_LENGTH : Int) =
        (c.XAUTH_MAX_PASS_LENGTH : Int) := by omega
    rw [hmin] at h1
    refine ⟨by simpa using h1, ?_⟩
    intro hlen
    simp [List.length_take, hlen]
  · intro _
    rw [dispatch_userPrompt]
    obtain ⟨h1, h2⟩ := userPrompt_clamp c env st
    refine ⟨h1, h2, ?_⟩
    intro hL
    have hmin : min (userLen env st) (c.MAX_XAUTH_USERNAME_LEN : Int) =
        (c.MAX_XAUTH_USERNAME_LEN : Int) := by omega
    rw [hmin] at h1
    refine ⟨by simpa using h1, ?_⟩
    intro hlen
    simp [List.length_take, hlen]

/-- C9 (witness): a prompt that returns 129 with a maximum of 128: 128 bytes
are sent and the diagnostic is logged, for the secret and for the username. -/
theorem C9_credential_reply_clamped_witness :
    (sockWrites (dispatch sampleConsts longEnv 40 (St.init [] [] 0 0)).2 =
        [Event.sockWrite 128 ((List.replicate 128 120).take 128)] ∧
      Event.diag Diag.passTooLong ∈ (dispatch sampleConsts longEnv 40 (St.init [] [] 0 0)).2) ∧
    (sockWrites (dispatch sampleConsts longEnv 41 (St.init [] [] 0 0)).2 =
        [Event.sockWrite 128 ((List.replicate 128 121).take 128)] ∧
      Event.diag Diag.usernameTooLong ∈
        (dispatch sampleConsts longEnv 41 (St.init [] [] 0 0)).2) :=
  ⟨⟨(((C9_credential_reply_clamped sampleConsts longEnv (St.init [] [] 0 0)).1
        (by decide)).2.2 (by decide)).1,
      ((C9_credential_reply_clamped sampleConsts longEnv (St.init [] [] 0 0)).1
        (by decide)).2.1.2 (by decide)⟩,
    ⟨(((C9_credential_reply_clamped sampleConsts longEnv (St.init [] [] 0 0)).2
        (by decide)).2.2 (by decide)).1,
      ((C9_credential_reply_clamped sampleConsts longEnv (St.init [] [] 0 0)).2
        (by decide)).2.1.2 (by decide)⟩⟩

/-- C10: for every stream `s` of well-formed complete lines and every
newline-free byte string `t`, in any chunks, the call on `s` followed by `t`
and close has the same outcome and the same standard-output transcript (and
the same prompts and credential replies) as the call on `s` followed by
close. -/
theorem C10_unterminated_tail_ignored (c : Consts) (env : Env) (s : List Line) (t : List Nat)
    (chunks1 chunks2 : List (List Nat)) (u p : List Nat) (ul pl : Int)
    (hwf : ∀ l ∈ s, l.WF) (ht : ∀ b ∈ t, b ≠ 10)
    (hch1 : ∀ ch ∈ chunks1, ch ≠ []) (hch2 : ∀ ch ∈ chunks2, ch ≠ [])
    (hcat1 : chunks1.flatten = stream s) (hcat2 : chunks2.flatten = stream s ++ t) :
    ∃ o evs1 evs2,
      starter_whack_read_reply c env (deliver chunks1) u p ul pl = some (o, evs1) ∧
      starter_whack_read_reply c env (deliver chunks2) u p ul pl = some (o, evs2) ∧
      transcript evs2 = transcript evs1 ∧
      evs2.filter Event.visible = evs1.filter Event.visible := by
  obtain ⟨evs1, h1, v1⟩ := read_reply_lines c env s [] chunks1 u p ul pl hwf (by simp) hch1
    (by simpa using hcat1)
  obtain ⟨evs2, h2, v2⟩ := read_reply_lines c env s t chunks2 u p ul pl hwf ht hch2 hcat2
  refine ⟨_, evs1, evs2, h1, h2, ?_, by rw [v1, v2]⟩
  rw [← transcript_filter evs2, ← transcript_filter evs1, v1, v2]

/-- C10 (witness): `21 no\n` with and without the unterminated tail `000 by`. -/
theorem C10_unterminated_tail_ignored_witness :
    ∃ o evs1 evs2,
      starter_whack_read_reply sampleConsts quietEnv (deliver [bytes "21 no\n"]) [] [] 0 0 =
        some (o, evs1) ∧
      starter_whack_read_reply sampleConsts quietEnv (deliver [bytes "21 n", bytes "o\n000 by"])
        [] [] 0 0 = some (o, evs2) ∧
      transcript evs2 = transcript evs1 ∧
      evs2.filter Event.visible = evs1.filter Event.visible :=
  C10_unterminated_tail_ignored sampleConsts quietEnv [Line.mk (bytes "21") (bytes "no")]
    (bytes "000 by") [bytes "21 no\n"] [bytes "21 n", bytes "o\n000 by"] [] [] 0 0
    (by decide) (by decide) (by decide) (by decide) (by decide) (by decide)

/-! ## The properties C11 to C20 of the specification -/

/-- C11 (the code at the failing input): the NUL-free stream `\n0 ok\n`, whose
two lines are shorter than 4096 bytes, returns 0 when it arrives in one read
and exits with `RC_WHACK_PROBLEM` when the read boundary falls after the
first newline; the transcripts differ as well. -/
theorem C11_outcome_depends_on_chunking :
    (∀ b ∈ bytes "\n0 ok\n", b ≠ 0) ∧
    [bytes "\n", bytes "0 ok\n"].flatten = [bytes "\n0 ok\n"].flatten ∧
    (starter_whack_read_reply sampleConsts quietEnv (deliver [bytes "\n0 ok\n"]) [] [] 0 0).map
        (fun r => (r.1, transcript r.2)) = some (Outcome.returned 0, bytes "ok\n") ∧
    (starter_whack_read_reply sampleConsts quietEnv (deliver [bytes "\n", bytes "0 ok\n"])
        [] [] 0 0).map
        (fun r => (r.1, transcript r.2)) = some (Outcome.exited 33, []) := by
  decide

/-- C19 (the code at the failing input): on the single read `\n40 Secret:\n`
the empty first line is accepted with the prefix of the second line: the
pointer after the prefix lies beyond the end of the first line, the echo
`write` is called with the count `-3`, and the EnterSecret line is classified
twice (two credential replies for one prompt line). -/
theorem C19_prefix_beyond_line_end :
    starter_whack_read_reply sampleConsts answerEnv [ReadEv.data (bytes "\n40 Secret:\n")]
        [] [] 0 0 =
      some (Outcome.returned 0,
        [Event.read 4096 12, Event.storeNul 12, Event.stdout (-3) [], Event.getSecret,
          Event.sockWrite 7 (bytes "hunter2"), Event.stdout 8 (bytes "Secret:\n"),
          Event.sockWrite 7 (bytes "hunter2"), Event.memmove 0, Event.read 4096 0]) := by
  decide

/-! ## A failed credential write ends the call -/

theorem clean_append {a b : List Event} (ha : Clean a) (hb : Clean b) : Clean (a ++ b) := by
  unfold Clean at *
  intro h
  rcases List.mem_append.1 h with h | h
  · exact ha h
  · exact hb h

theorem failStop_next_clean (c : Consts) (st : St) (evs : List Event)
    (h : FailStop c (Flow.next st) evs) : Clean evs := by
  rcases h with h | ⟨h, _⟩
  · exact h
  · cases h

theorem failStop_append (c : Consts) (fl : Flow) (evs1 evs2 : List Event) (h1 : Clean evs1)
    (h2 : FailStop c fl evs2) : FailStop c fl (evs1 ++ evs2) := by
  rcases h2 with h2 | ⟨hfl, pre, len, bs, he, hp⟩
  · exact Or.inl (clean_append h1 h2)
  · refine Or.inr ⟨hfl, evs1 ++ pre, len, bs, ?_, clean_append h1 hp⟩
    rw [he, List.append_assoc]

theorem replyWith_failStop (c : Consts) (env : Env) (st : St) (buf : List Nat) (len : Int)
    (hz : c.RC_WHACK_PROBLEM ≠ 0) :
    FailStop c (replyWith c env st buf len).1 (replyWith c env st buf len).2 := by
  by_cases hw : env.sockWriteOk st.nSockWrite = true
  · left
    simp [replyWith, send_reply, hw, Clean]
  · right
    refine ⟨?_, [], len, buf.take len.toNat, ?_, by simp [Clean]⟩
    · simp [replyWith, send_reply, hw, hz]
    · simp [replyWith, send_reply, hw, hz]

theorem askSecret_clean (env : Env) (st : St) : Clean (askSecret env st).2 := by
  unfold askSecret Clean; split <;> simp

theorem clampSecret_clean (c : Consts) (st : St) : Clean (clampSecret c st).2 := by
  unfold clampSecret Clean; split <;> simp

theorem askValue_clean (env : Env) (st : St) : Clean (askValue env st).2 := by
  unfold askValue Clean; split <;> simp

theorem clampValue_clean (c : Consts) (st : St) : Clean (clampValue c st).2 := by
  unfold clampValue Clean; split <;> simp

theorem dispatch_failStop (c : Consts) (env : Env) (s : Nat) (st : St)
    (hz : c.RC_WHACK_PROBLEM ≠ 0) :
    FailStop c (dispatch c env s st).1 (dispatch c env s st).2 := by
  unfold dispatch
  split
  · exact Or.inl (by simp [Clean])
  split
  · exact Or.inl (by simp [Clean])
  split
  · simp only [enterSecret]
    exact failStop_append c _ _ _
      (clean_append (askSecret_clean env st) (clampSecret_clean c _))
      (replyWith_failStop c env _ _ _ hz)
  split
  · simp only [userPrompt]
    exact failStop_append c _ _ _
      (clean_append (askValue_clean env st) (clampValue_clean c _))
      (replyWith_failStop c env _ _ _ hz)
  · exact Or.inl (by simp [Clean])

theorem doLine_failStop (c : Consts) (env : Env) (buf : List Nat) (ls le : Nat) (st : St)
    (hz : c.RC_WHACK_PROBLEM ≠ 0) :
    FailStop c (doLine c env buf ls le st).1 (doLine c env buf ls le st).2 := by
  simp only [doLine]
  split
  · exact Or.inl (by simp [Clean])
  · refine failStop_append c _ _ _ ?_ (dispatch_failStop c env _ _ hz)
    unfold Clean
    split <;> simp

theorem scanLines_failStop (c : Consts) (env : Env) (hz : c.RC_WHACK_PROBLEM ≠ 0) :
    ∀ (fuel : Nat) (buf : List Nat) (ls : Nat) (st : St) (fl : Flow) (buf1 : List Nat)
      (evs : List Event), scanLines c env fuel buf ls st = some ((fl, buf1), evs) →
      FailStop c fl evs := by
  intro fuel
  induction fuel with
  | zero => intro buf ls st fl buf1 evs h; simp [scanLines] at h
  | succ fuel ih =>
    intro buf ls st fl buf1 evs h
    simp only [scanLines] at h
    split at h
    · simp only [Option.some.injEq, Prod.mk.injEq] at h
      obtain ⟨⟨rfl, _⟩, rfl⟩ := h
      exact Or.inl (by simp [Clean])
    · rename_i nl _
      have hd := doLine_failStop c env buf ls (nl + 1) st hz
      split at h
      · rename_i o evs1 hdo
        simp only [Option.some.injEq, Prod.mk.injEq] at h
        obtain ⟨⟨rfl, _⟩, rfl⟩ := h
        rw [hdo] at hd
        exact hd
      · rename_i st1 evs1 hdo
        rw [hdo] at hd
        rcases hrec : scanLines c env fuel buf (nl + 1) st1 with _ | ⟨⟨fl2, buf2⟩, evs2⟩
        · rw [hrec] at h; simp at h
        · rw [hrec] at h
          simp only [Option.map_some', Option.some.injEq, Prod.mk.injEq] at h
          obtain ⟨⟨rfl, _⟩, rfl⟩ := h
          exact failStop_append c _ _ _ (failStop_next_clean c st1 evs1 hd)
            (ih buf (nl + 1) st1 _ _ _ hrec)

theorem readLoop_failStop (c : Consts) (env : Env) (hz : c.RC_WHACK_PROBLEM ≠ 0) :
    ∀ (fuel : Nat) (sock : List ReadEv) (buf : List Nat) (st : St) (o : Outcome)
      (evs : List Event), readLoop c env fuel sock buf st = some (o, evs) →
      FailStop c (Flow.done o) evs := by
  intro fuel
  induction fuel with
  | zero => intro sock buf st o evs h; simp [readLoop] at h
  | succ fuel ih =>
    intro sock buf st o evs h
    simp only [readLoop] at h
    split at h
    · simp only [Option.some.injEq, Prod.mk.injEq] at h
      obtain ⟨rfl, rfl⟩ := h
      exact Or.inl (by simp [Clean])
    · simp only [Option.some.injEq, Prod.mk.injEq] at h
      obtain ⟨rfl, rfl⟩ := h
      left
      unfold Clean
      by_cases hb : buf = [] <;> simp [hb]
    · rename_i b bs sock1 _
      have hpre : Clean [Event.read ((4096 : Int) - (buf.length : Int)) ((b :: bs).length : Int),
          Event.storeNul (buf ++ b :: bs).length] := by simp [Clean]
      split at h
      · simp at h
      · rename_i o1 buf1 evs1 hscan
        simp only [Option.some.injEq, Prod.mk.injEq] at h
        obtain ⟨rfl, rfl⟩ := h
        exact failStop_append c _ _ _ hpre (scanLines_failStop c env hz _ _ _ _ _ _ _ hscan)
      · rename_i st1 buf2 evs1 hscan
        have hsc := scanLines_failStop c env hz _ _ _ _ _ _ _ hscan
        rcases hrec : readLoop c env fuel sock1 buf2 st1 with _ | ⟨o2, evs2⟩
        · rw [hrec] at h; simp at h
        · rw [hrec] at h
          simp only [Option.map_some', Option.some.injEq, Prod.mk.injEq] at h
          obtain ⟨rfl, rfl⟩ := h
          have h3 := ih sock1 buf2 st1 _ _ hrec
          exact failStop_append c _ _ _
            (clean_append hpre (failStop_next_clean c st1 evs1 hsc)) h3

/-- C16: with `RC_WHACK_PROBLEM` a non-zero code, on every socket script a
failed credential reply write makes the call return `RC_WHACK_PROBLEM` at
once: the failed write and its log entry are the last two events of the run,
so no later line is echoed, classified or answered and no further read is
issued. -/
theorem C16_failed_credential_write_returns_at_once (c : Consts) (env : Env)
    (sock : List ReadEv) (u p : List Nat) (ul pl : Int) (hz : c.RC_WHACK_PROBLEM ≠ 0) :
    ∃ o evs, starter_whack_read_reply c env sock u p ul pl = some (o, evs) ∧
      (Event.diag Diag.sockWriteFailed ∈ evs →
        o = Outcome.returned c.RC_WHACK_PROBLEM ∧
        ∃ pre len bs,
          evs = pre ++ [Event.sockWrite len bs, Event.diag Diag.sockWriteFailed] ∧
          Event.diag Diag.sockWriteFailed ∉ pre) := by
  obtain ⟨⟨o, evs⟩, hrun⟩ := read_reply_total c env sock u p ul pl
  refine ⟨o, evs, hrun, ?_⟩
  intro hmem
  rcases readLoop_failStop c env hz _ sock [] _ o evs hrun with h | ⟨h1, h2⟩
  · exact absurd hmem h
  · cases h1
    exact ⟨rfl, h2⟩

/-- C16 (witness): the secret prompt line and a further line arrive in one
read and the credential write fails: the call returns 33 and the last events
are the failed write and its log entry; the line `21 no` is never echoed and
the second read never happens. -/
theorem C16_failed_credential_write_returns_at_once_witness :
    (∃ o evs, starter_whack_read_reply sampleConsts brokenPipeEnv
        [ReadEv.data (bytes "40 Secret:\n21 no\n"), ReadEv.data (bytes "4 ok\n")] [] [] 0 0 =
          some (o, evs) ∧
      (Event.diag Diag.sockWriteFailed ∈ evs →
        o = Outcome.returned 33 ∧
        ∃ pre len bs,
          evs = pre ++ [Event.sockWrite len bs, Event.diag Diag.sockWriteFailed] ∧
          Event.diag Diag.sockWriteFailed ∉ pre)) ∧
    starter_whack_read_reply sampleConsts brokenPipeEnv
        [ReadEv.data (bytes "40 Secret:\n21 no\n"), ReadEv.data (bytes "4 ok\n")] [] [] 0 0 =
      some (Outcome.returned 33,
        [Event.read 4096 17, Event.storeNul 17, Event.stdout 8 (bytes "Secret:\n"),
          Event.getSecret, Event.sockWrite 7 (bytes "hunter2"),
          Event.diag Diag.sockWriteFailed]) :=
  ⟨C16_failed_credential_write_returns_at_once sampleConsts brokenPipeEnv
      [ReadEv.data (bytes "40 Secret:\n21 no\n"), ReadEv.data (bytes "4 ok\n")] [] [] 0 0
      (by decide),
    by decide⟩

/-! ## The bounds of the line buffer -/

theorem visible_inBounds (e : Event) (h : e.visible = true) : e.inBounds := by
  cases e <;> simp [Event.visible] at h <;> simp [Event.inBounds]

theorem doLine_visible (c : Consts) (env : Env) (buf : List Nat) (ls le : Nat) (st : St) :
    ∀ e ∈ (doLine c env buf ls le st).2, e.visible = true := by
  intro e he
  simp only [doLine] at he
  split at he
  · simp at he; subst he; rfl
  · simp only [List.mem_append] at he
    rcases he with he | he
    · split at he <;> simp at he
      · rcases he with he | he <;> subst he <;> rfl
      · subst he; rfl
    · exact dispatch_visible _ _ _ _ e he

theorem sockRead_le (sock : List ReadEv) (n : Nat) (ch : List Nat) (sock1 : List ReadEv)
    (h : sockRead sock n = (ReadEv.data ch, sock1)) : ch.length ≤ n := by
  unfold sockRead at h
  split at h
  · simp only [Prod.mk.injEq, ReadEv.data.injEq] at h
    obtain ⟨rfl, _⟩ := h
    simp
  · cases sock with
    | nil =>
      simp only [Prod.mk.injEq, ReadEv.data.injEq] at h
      obtain ⟨rfl, _⟩ := h
      simp
    | cons ev rest =>
      cases ev with
      | error => simp at h
      | data bs =>
        simp only at h
        split at h
        · simp only [Prod.mk.injEq, ReadEv.data.injEq] at h
          obtain ⟨rfl, _⟩ := h
          assumption
        · simp only [Prod.mk.injEq, ReadEv.data.injEq] at h
          obtain ⟨rfl, _⟩ := h
          simp only [List.length_take]
          omega

theorem scanLines_bounds (c : Consts) (env : Env) :
    ∀ (fuel : Nat) (buf : List Nat) (ls : Nat) (st : St) (fl : Flow) (buf1 : List Nat)
      (evs : List Event), scanLines c env fuel buf ls st = some ((fl, buf1), evs) →
      ls ≤ buf.length → buf.length ≤ 4096 →
      (∀ e ∈ evs, e.inBounds) ∧ buf1.length ≤ 4096 := by
  intro fuel
  induction fuel with
  | zero => intro buf ls st fl buf1 evs h; simp [scanLines] at h
  | succ fuel ih =>
    intro buf ls st fl buf1 evs h hls hlen
    simp only [scanLines] at h
    split at h
    · simp only [Option.some.injEq, Prod.mk.injEq] at h
      obtain ⟨⟨_, rfl⟩, rfl⟩ := h
      refine ⟨?_, by simp only [List.length_drop]; omega⟩
      intro e he
      simp only [List.mem_singleton] at he
      subst he
      simp only [Event.inBounds]
      omega
    · rename_i nl hnl
      obtain ⟨b1, b2⟩ := strchr_nl_bounds buf ls nl hnl
      have hv := doLine_visible c env buf ls (nl + 1) st
      split at h
      · rename_i o evs1 hdo
        simp only [Option.some.injEq, Prod.mk.injEq] at h
        obtain ⟨⟨_, rfl⟩, rfl⟩ := h
        rw [hdo] at hv
        exact ⟨fun e he => visible_inBounds e (hv e he), hlen⟩
      · rename_i st1 evs1 hdo
        rw [hdo] at hv
        rcases hrec : scanLines c env fuel buf (nl + 1) st1 with _ | ⟨⟨fl2, buf2⟩, evs2⟩
        · rw [hrec] at h; simp at h
        · rw [hrec] at h
          simp only [Option.map_some', Option.some.injEq, Prod.mk.injEq] at h
          obtain ⟨⟨_, rfl⟩, rfl⟩ := h
          obtain ⟨i1, i2⟩ := ih buf (nl + 1) st1 _ _ _ hrec (by omega) hlen
          refine ⟨?_, i2⟩
          intro e he
          rcases List.mem_append.1 he with he | he
          · exact visible_inBounds e (hv e he)
          · exact i1 e he

theorem readLoop_bounds (c : Consts) (env : Env) :
    ∀ (fuel : Nat) (sock : List ReadEv) (buf : List Nat) (st : St) (o : Outcome)
      (evs : List Event), readLoop c env fuel sock buf st = some (o, evs) →
      buf.length ≤ 4096 → ∀ e ∈ evs, e.inBounds := by
  intro fuel
  induction fuel with
  | zero => intro sock buf st o evs h; simp [readLoop] at h
  | succ fuel ih =>
    intro sock buf st o evs h hlen
    simp only [readLoop] at h
    split at h
    · simp only [Option.some.injEq, Prod.mk.injEq] at h
      obtain ⟨_, rfl⟩ := h
      intro e he
      simp only [List.mem_cons, List.mem_singleton, List.not_mem_nil, or_false] at he
      rcases he with he | he
      · subst he; simp only [Event.inBounds]; omega
      · subst he; simp only [Event.inBounds]
    · simp only [Option.some.injEq, Prod.mk.injEq] at h
      obtain ⟨_, rfl⟩ := h
      intro e he
      by_cases hb : buf = [] <;> simp [hb] at he
      · subst he; simp [Event.inBounds]
      · rcases he with he | he
        · subst he; simp only [Event.inBounds]; omega
        · subst he; simp only [Event.inBounds]
    · rename_i b bs sock1 hread
      have hle := sockRead_le _ _ _ _ hread
      have hlen1 : (buf ++ b :: bs).length ≤ 4096 := by
        simp only [List.length_append]
        omega
      have hpre : ∀ e ∈ [Event.read ((4096 : Int) - (buf.length : Int)) ((b :: bs).length : Int),
          Event.storeNul (buf ++ b :: bs).length], e.inBounds := by
        intro e he
        simp only [List.mem_cons, List.mem_singleton, List.not_mem_nil, or_false] at he
        rcases he with he | he <;> subst he <;> simp only [Event.inBounds]
        · omega
        · exact hlen1
      split at h
      · simp at h
      · rename_i o1 buf1 evs1 hscan
        simp only [Option.some.injEq, Prod.mk.injEq] at h
        obtain ⟨_, rfl⟩ := h
        obtain ⟨i1, _⟩ := scanLines_bounds c env _ _ _ _ _ _ _ hscan (Nat.zero_le _) hlen1
        intro e he
        rcases List.mem_append.1 he with he | he
        · exact hpre e he
        · exact i1 e he
      · rename_i st1 buf2 evs1 hscan
        obtain ⟨i1, i2⟩ := scanLines_bounds c env _ _ _ _ _ _ _ hscan (Nat.zero_le _) hlen1
        rcases hrec : readLoop c env fuel sock1 buf2 st1 with _ | ⟨o2, evs2⟩
        · rw [hrec] at h; simp at h
        · rw [hrec] at h
          simp only [Option.map_some', Option.some.injEq, Prod.mk.injEq] at h
          obtain ⟨_, rfl⟩ := h
          have h3 := ih sock1 buf2 st1 _ _ hrec i2
          intro e he
          rcases List.mem_append.1 he with he | he
          · rcases List.mem_append.1 he with he | he
            · exact hpre e he
            · exact i1 e he
          · exact h3 e he

/-- C20: on every socket script (a `read` never returns more than it was
asked for), every `read` requests between 0 and 4096 bytes, so the fill level
`be - buf` stays between 0 and 4096; the terminating NUL is stored at an
index of at most 4096; every `memmove` copies a non-negative number of bytes
(at most 4096). A buffer without a newline is kept whole by the inner loop,
and when 4096 bytes are in the buffer the next `read` requests 0 bytes, gets
0, and the call returns the result recorded so far. -/
theorem C20_line_buffer_bounds (c : Consts) (env : Env) :
    (∀ (sock : List ReadEv) (u p : List Nat) (ul pl : Int),
      ∃ o evs, starter_whack_read_reply c env sock u p ul pl = some (o, evs) ∧
        ∀ e ∈ evs, e.inBounds) ∧
    (∀ (fuel : Nat) (buf : List Nat) (st : St), findNL buf = none →
      scanLines c env (fuel + 1) buf 0 st =
        some ((Flow.next st, buf), [Event.memmove (buf.length : Int)])) ∧
    (∀ (fuel : Nat) (sock : List ReadEv) (buf : List Nat) (st : St), buf.length = 4096 →
      readLoop c env (fuel + 1) sock buf st =
        some (Outcome.returned st.ret,
          [Event.read 0 0, Event.diag Diag.lastLineUnterminated])) := by
  refine ⟨?_, ?_, ?_⟩
  · intro sock u p ul pl
    obtain ⟨⟨o, evs⟩, hrun⟩ := read_reply_total c env sock u p ul pl
    exact ⟨o, evs, hrun, readLoop_bounds c env _ sock [] _ o evs hrun (by simp)⟩
  · intro fuel buf st h
    simp [scanLines, strchr_nl, h]
  · intro fuel sock buf st h
    have hb : buf ≠ [] := by
      intro h0
      rw [h0] at h
      simp at h
    simp [readLoop, sockRead, h, hb]

/-- C20 (witness): a run of three lines keeps all bounds; a buffer of 4096
bytes without a newline is kept whole by the inner loop; with those 4096
bytes in the buffer the next `read` asks for 0 bytes, the line that is still
queued on the socket is never read, and the call returns the recorded 21. -/
theorem C20_line_buffer_bounds_witness :
    (∃ o evs, starter_whack_read_reply sampleConsts quietEnv
        (deliver [bytes "002 hel", bytes "lo\n21 no\n4 o", bytes "k\n"]) [] [] 0 0 =
          some (o, evs) ∧ ∀ e ∈ evs, e.inBounds) ∧
    scanLines sampleConsts quietEnv (4096 + 1) (List.replicate 4096 97) 0
        { St.init [] [] 0 0 with ret := 21 } =
      some ((Flow.next { St.init [] [] 0 0 with ret := 21 }, List.replicate 4096 97),
        [Event.memmove ((List.replicate 4096 97).length : Int)]) ∧
    readLoop sampleConsts quietEnv (7 + 1) [ReadEv.data (bytes "\n4 ok\n")]
        (List.replicate 4096 97) { St.init [] [] 0 0 with ret := 21 } =
      some (Outcome.returned 21, [Event.read 0 0, Event.diag Diag.lastLineUnterminated]) :=
  ⟨(C20_line_buffer_bounds sampleConsts quietEnv).1 _ [] [] 0 0,
    (C20_line_buffer_bounds sampleConsts quietEnv).2.1 4096 (List.replicate 4096 97) _
      (findNL_none_of_no_nl _ (by intro b hb; rw [List.mem_replicate] at hb; omega)),
    (C20_line_buffer_bounds sampleConsts quietEnv).2.2 7 _ (List.replicate 4096 97) _
      (List.length_replicate 4096 97)⟩

/-! ## `set_whack_end` -/

theorem set_whack_end_addr (D : Decls) (w : whack_end) (l : starter_end) (a : ip_address)
    (ha : host_addr_for l = some a)
    (hpre : l.pubkey_type = keyword_pubkey.PUBKEY_PREEXCHANGED →
      l.pubkey ≠ none ∧ l.pubkey_alg ≠ ipseckey_algorithm.ALG_UNSET) :
    ∃ w1, (set_whack_end D w l).1 = Ret.val (true, w1) ∧ w1.host_addr = a := by
  have hno : ¬ (l.pubkey_type = keyword_pubkey.PUBKEY_PREEXCHANGED ∧
      (l.pubkey = none ∨ l.pubkey_alg = ipseckey_algorithm.ALG_UNSET)) := by
    intro h
    obtain ⟨h1, h2⟩ := hpre h.1
    rcases h.2 with h3 | h3
    · exact h1 h3
    · exact h2 h3
  simp only [set_whack_end, ha, if_neg hno]
  refine ⟨_, rfl, ?_⟩
  cases nexthop_for l <;> by_cases hp : l.pubkey_type = keyword_pubkey.PUBKEY_PREEXCHANGED <;>
    simp [hp]

/-- C15: for every `starter_end` that passes the function's own `passert`
(a pre-exchanged key is present with a non-zero algorithm) and every prior
content of the `whack_end`: with address type `KH_IPADDR` or `KH_IFACE`,
`set_whack_end` returns true with `host_addr = l->addr`; with
`KH_DEFAULTROUTE`, `KH_IPHOSTNAME`, `KH_OPPO`, `KH_GROUP`, `KH_OPPOGROUP` or
`KH_ANY` it returns true with `host_addr = unset_address`; with any other
address type it returns false. -/
theorem C15_host_addr_by_address_type (D : Decls) (w : whack_end) (l : starter_end)
    (hpre : l.pubkey_type = keyword_pubkey.PUBKEY_PREEXCHANGED →
      l.pubkey ≠ none ∧ l.pubkey_alg ≠ ipseckey_algorithm.ALG_UNSET) :
    ((l.addrtype = keyword_host.KH_IPADDR ∨ l.addrtype = keyword_host.KH_IFACE) →
      ∃ w1, (set_whack_end D w l).1 = Ret.val (true, w1) ∧ w1.host_addr = l.addr) ∧
    ((l.addrtype = keyword_host.KH_DEFAULTROUTE ∨ l.addrtype = keyword_host.KH_IPHOSTNAME ∨
        l.addrtype = keyword_host.KH_OPPO ∨ l.addrtype = keyword_host.KH_GROUP ∨
        l.addrtype = keyword_host.KH_OPPOGROUP ∨ l.addrtype = keyword_host.KH_ANY) →
      ∃ w1, (set_whack_end D w l).1 = Ret.val (true, w1) ∧ w1.host_addr = unset_address) ∧
    ((l.addrtype = keyword_host.KH_NOTSET ∨ ∃ v, l.addrtype = keyword_host.KH_other v) →
      ∃ w1, (set_whack_end D w l).1 = Ret.val (false, w1)) := by
  refine ⟨?_, ?_, ?_⟩
  · intro h
    apply set_whack_end_addr D w l l.addr _ hpre
    rcases h with h | h <;> simp [host_addr_for, h]
  · intro h
    apply set_whack_end_addr D w l unset_address _ hpre
    rcases h with h | h | h | h | h | h <;> simp [host_addr_for, h]
  · intro h
    have : host_addr_for l = none := by
      rcases h with h | ⟨v, h⟩ <;> simp [host_addr_for, h]
    simp only [set_whack_end, this]
    exact ⟨_, rfl⟩

/-- C15 (witness): an endpoint with an explicit address overwrites a stale
host address; the same endpoint in default-route mode leaves the unset
address; with the address type not set the function returns false. -/
theorem C15_host_addr_by_address_type_witness :
    (∃ w1, (set_whack_end sampleDecls staleWhackEnd sampleEnd).1 = Ret.val (true, w1) ∧
      w1.host_addr = { is_set := true, ip_version := 4, bytes := [192, 0, 2, 1] }) ∧
    (∃ w1, (set_whack_end sampleDecls staleWhackEnd
        { sampleEnd with addrtype := keyword_host.KH_DEFAULTROUTE }).1 = Ret.val (true, w1) ∧
      w1.host_addr = unset_address) ∧
    (∃ w1, (set_whack_end sampleDecls whack_end.zero
        { sampleEnd with addrtype := keyword_host.KH_NOTSET }).1 = Ret.val (false, w1)) :=
  ⟨(C15_host_addr_by_address_type sampleDecls _ sampleEnd (by decide)).1 (by decide),
    (C15_host_addr_by_address_type sampleDecls _
      { sampleEnd with addrtype := keyword_host.KH_DEFAULTROUTE } (by decide)).2.1 (by decide),
    (C15_host_addr_by_address_type sampleDecls _
      { sampleEnd with addrtype := keyword_host.KH_NOTSET } (by decide)).2.2 (Or.inl rfl)⟩

/-! ## One transaction -/

theorem send_whack_msg_total (c : Consts) (D : Decls) (t : TxnEnv) (msg : whack_message) :
    ∃ r, send_whack_msg c D t msg = some r := by
  obtain ⟨⟨o, evs⟩, hrun⟩ :=
    read_reply_total c t.env t.reply t.xauthusername t.xauthpass 0 0
  unfold send_whack_msg
  simp only [hrun]
  split
  · exact ⟨_, rfl⟩
  · split
    · exact ⟨_, rfl⟩
    · split
      · exact ⟨_, rfl⟩
      · split
        · exact ⟨_, rfl⟩
        · cases o <;> exact ⟨_, rfl⟩

/-- The call reaches the reply reader: packing, socket, connect and the
request write have all succeeded. -/
theorem send_whack_msg_reply (c : Consts) (D : Decls) (t : TxnEnv) (msg : whack_message)
    (hp : (t.pack_whack_msg msg D.string_offset (D.string_offset + D.string_size)).1 = none)
    (hs : ¬ t.cloexec_socket < 0) (hc : ¬ t.connect < 0)
    (hw : t.write = (t.pack_whack_msg msg D.string_offset (D.string_offset + D.string_size)).2)
    (o : Outcome) (evs : List Event)
    (hrun : starter_whack_read_reply c t.env t.reply t.xauthusername t.xauthpass 0 0 =
      some (o, evs)) :
    send_whack_msg c D t msg =
      some (match o with
        | Outcome.returned r =>
          (Ret.val r,
            [SysEvent.pack, SysEvent.socket, SysEvent.connect,
              SysEvent.write
                (t.pack_whack_msg msg D.string_offset (D.string_offset + D.string_size)).2] ++
              evs.map SysEvent.reply ++ [SysEvent.close])
        | Outcome.exited r =>
          (Ret.exit r,
            [SysEvent.pack, SysEvent.socket, SysEvent.connect,
              SysEvent.write
                (t.pack_whack_msg msg D.string_offset (D.string_offset + D.string_size)).2] ++
              evs.map SysEvent.reply)) := by
  unfold send_whack_msg
  simp only [hp, if_neg hs, if_neg hc, hw, ne_eq, not_true_eq_false, if_false, hrun]
  cases o <;> rfl

/-- C12: if `pack_whack_msg` reports an error, `send_whack_msg` returns -1
and nothing follows the packing but the log entry: no socket, no connect, no
write. If packing succeeds and socket creation fails, or socket creation
succeeds and connect fails, it returns -1 and no write of the message
happens. -/
theorem C12_no_send_after_early_failure (c : Consts) (D : Decls) (t : TxnEnv)
    (msg : whack_message) :
    (∀ ugh, (t.pack_whack_msg msg D.string_offset (D.string_offset + D.string_size)).1 =
        some ugh →
      send_whack_msg c D t msg =
        some (Ret.val (-1), [SysEvent.pack, SysEvent.note (Note.cannot_pack ugh)])) ∧
    ((t.pack_whack_msg msg D.string_offset (D.string_offset + D.string_size)).1 = none →
      (t.cloexec_socket < 0 ∨ t.connect < 0) →
      ∃ evs, send_whack_msg c D t msg = some (Ret.val (-1), evs) ∧
        ∀ len, SysEvent.write len ∉ evs) := by
  constructor
  · intro ugh h
    simp only [send_whack_msg, h]
  · intro hp h
    by_cases hs : t.cloexec_socket < 0
    · refine ⟨[SysEvent.pack, SysEvent.socket, SysEvent.note Note.socket_failed], ?_, ?_⟩
      · simp only [send_whack_msg, hp, if_pos hs]
      · simp
    · have hc : t.connect < 0 := h.resolve_left hs
      refine ⟨[SysEvent.pack, SysEvent.socket, SysEvent.connect,
        SysEvent.note Note.connect_failed, SysEvent.close], ?_, ?_⟩
      · simp only [send_whack_msg, hp, if_neg hs, if_pos hc]
      · simp

/-- C12 (witness): a packing error, a failed `socket` and a failed
`connect`. -/
theorem C12_no_send_after_early_failure_witness :
    send_whack_msg sampleConsts sampleDecls (earlyTxn (some "too long") 3 0)
        (empty_whack_message sampleDecls) =
      some (Ret.val (-1), [SysEvent.pack, SysEvent.note (Note.cannot_pack "too long")]) ∧
    (∃ evs, send_whack_msg sampleConsts sampleDecls (earlyTxn none (-1) 0)
        (empty_whack_message sampleDecls) = some (Ret.val (-1), evs) ∧
      ∀ len, SysEvent.write len ∉ evs) ∧
    (∃ evs, send_whack_msg sampleConsts sampleDecls (earlyTxn none 3 (-1))
        (empty_whack_message sampleDecls) = some (Ret.val (-1), evs) ∧
      ∀ len, SysEvent.write len ∉ evs) :=
  ⟨(C12_no_send_after_early_failure sampleConsts sampleDecls (earlyTxn (some "too long") 3 0)
      (empty_whack_message sampleDecls)).1 "too long" rfl,
    (C12_no_send_after_early_failure sampleConsts sampleDecls (earlyTxn none (-1) 0)
      (empty_whack_message sampleDecls)).2 rfl (Or.inl (by decide)),
    (C12_no_send_after_early_failure sampleConsts sampleDecls (earlyTxn none 3 (-1))
      (empty_whack_message sampleDecls)).2 rfl (Or.inr (by decide))⟩

theorem scanLines_no_readFailed (c : Consts) (env : Env) :
    ∀ (fuel : Nat) (buf : List Nat) (ls : Nat) (st : St) (fl : Flow) (buf1 : List Nat)
      (evs : List Event), scanLines c env fuel buf ls st = some ((fl, buf1), evs) →
      Event.diag Diag.readFailed ∉ evs := by
  intro fuel
  induction fuel with
  | zero => intro buf ls st fl buf1 evs h; simp [scanLines] at h
  | succ fuel ih =>
    intro buf ls st fl buf1 evs h
    simp only [scanLines] at h
    split at h
    · simp only [Option.some.injEq, Prod.mk.injEq] at h
      obtain ⟨_, rfl⟩ := h
      simp
    · rename_i nl _
      have hv := doLine_visible c env buf ls (nl + 1) st
      split at h
      · rename_i o evs1 hdo
        simp only [Option.some.injEq, Prod.mk.injEq] at h
        obtain ⟨_, rfl⟩ := h
        rw [hdo] at hv
        intro hm
        have := hv _ hm
        simp [Event.visible] at this
      · rename_i st1 evs1 hdo
        rw [hdo] at hv
        rcases hrec : scanLines c env fuel buf (nl + 1) st1 with _ | ⟨⟨fl2, buf2⟩, evs2⟩
        · rw [hrec] at h; simp at h
        · rw [hrec] at h
          simp only [Option.map_some', Option.some.injEq, Prod.mk.injEq] at h
          obtain ⟨_, rfl⟩ := h
          intro hm
          rcases List.mem_append.1 hm with hm | hm
          · have := hv _ hm
            simp [Event.visible] at this
          · exact ih buf (nl + 1) st1 _ _ _ hrec hm

theorem readLoop_readFailed (c : Consts) (env : Env) :
    ∀ (fuel : Nat) (sock : List ReadEv) (buf : List Nat) (st : St) (o : Outcome)
      (evs : List Event), readLoop c env fuel sock buf st = some (o, evs) →
      Event.diag Diag.readFailed ∈ evs → o = Outcome.returned c.RC_WHACK_PROBLEM := by
  intro fuel
  induction fuel with
  | zero => intro sock buf st o evs h; simp [readLoop] at h
  | succ fuel ih =>
    intro sock buf st o evs h hm
    simp only [readLoop] at h
    split at h
    · simp only [Option.some.injEq, Prod.mk.injEq] at h
      exact h.1.symm
    · simp only [Option.some.injEq, Prod.mk.injEq] at h
      obtain ⟨_, rfl⟩ := h
      exfalso
      by_cases hb : buf = [] <;> simp [hb] at hm
    · rename_i b bs sock1 _
      split at h
      · simp at h
      · rename_i o1 buf1 evs1 hscan
        simp only [Option.some.injEq, Prod.mk.injEq] at h
        obtain ⟨_, rfl⟩ := h
        exfalso
        have hn := scanLines_no_readFailed c env _ _ _ _ _ _ _ hscan
        simp only [List.mem_append, List.mem_cons, List.mem_singleton, List.not_mem_nil,
          or_false] at hm
        rcases hm with (hm | hm) | hm
        · cases hm
        · cases hm
        · exact hn hm
      · rename_i st1 buf2 evs1 hscan
        have hn := scanLines_no_readFailed c env _ _ _ _ _ _ _ hscan
        rcases hrec : readLoop c env fuel sock1 buf2 st1 with _ | ⟨o2, evs2⟩
        · rw [hrec] at h; simp at h
        · rw [hrec] at h
          simp only [Option.map_some', Option.some.injEq, Prod.mk.injEq] at h
          obtain ⟨rfl, rfl⟩ := h
          simp only [List.mem_append, List.mem_cons, List.mem_singleton, List.not_mem_nil,
            or_false] at hm
          rcases hm with ((hm | hm) | hm) | hm
          · cases hm
          · cases hm
          · exact absurd hm hn
          · exact ih sock1 buf2 st1 _ _ hrec hm

/-- C13 (counterexample): packing, socket, connect and the request write
succeed and the first `read` of the reply fails: `send_whack_msg` returns
`RC_WHACK_PROBLEM` (33 here), which is not negative. -/
theorem C13_counterexample :
    send_whack_msg sampleConsts sampleDecls (okTxn [ReadEv.error])
        (empty_whack_message sampleDecls) =
      some (Ret.val 33,
        [SysEvent.pack, SysEvent.socket, SysEvent.connect, SysEvent.write 2148,
          SysEvent.reply (Event.read 4096 (-1)), SysEvent.reply (Event.diag Diag.readFailed),
          SysEvent.close]) ∧
    ¬ ((33 : Int) < 0) := by
  decide

/-- C13 (amended): a failure before the reply phase (packing, socket
creation, connect, or the request write) makes `send_whack_msg` return -1.
Once the request is written, a failed `read` of the reply, or a failed
credential reply write (with `RC_WHACK_PROBLEM` non-zero), makes it return
`RC_WHACK_PROBLEM`, which is an rc code and not negative. -/
theorem C13_client_failure_status (c : Consts) (D : Decls) (t : TxnEnv) (msg : whack_message) :
    (((t.pack_whack_msg msg D.string_offset (D.string_offset + D.string_size)).1 ≠ none ∨
        t.cloexec_socket < 0 ∨ t.connect < 0 ∨
        t.write ≠
          (t.pack_whack_msg msg D.string_offset (D.string_offset + D.string_size)).2) →
      ∃ evs, send_whack_msg c D t msg = some (Ret.val (-1), evs)) ∧
    ((t.pack_whack_msg msg D.string_offset (D.string_offset + D.string_size)).1 = none →
      ¬ t.cloexec_socket < 0 → ¬ t.connect < 0 →
      t.write = (t.pack_whack_msg msg D.string_offset (D.string_offset + D.string_size)).2 →
      ∀ o evs,
        starter_whack_read_reply c t.env t.reply t.xauthusername t.xauthpass 0 0 =
          some (o, evs) →
        (Event.diag Diag.readFailed ∈ evs ∨
          (Event.diag Diag.sockWriteFailed ∈ evs ∧ c.RC_WHACK_PROBLEM ≠ 0)) →
        ∃ sevs, send_whack_msg c D t msg = some (Ret.val (c.RC_WHACK_PROBLEM : Int), sevs) ∧
          (0 : Int) ≤ (c.RC_WHACK_PROBLEM : Int)) := by
  constructor
  · intro h
    rcases hp : (t.pack_whack_msg msg D.string_offset (D.string_offset + D.string_size)).1
      with _ | ugh
    · by_cases hs : t.cloexec_socket < 0
      · exact ⟨[SysEvent.pack, SysEvent.socket, SysEvent.note Note.socket_failed],
          by simp only [send_whack_msg, hp, if_pos hs]⟩
      · by_cases hc : t.connect < 0
        · exact ⟨[SysEvent.pack, SysEvent.socket, SysEvent.connect,
            SysEvent.note Note.connect_failed, SysEvent.close],
            by simp only [send_whack_msg, hp, if_neg hs, if_pos hc]⟩
        · have hw : t.write ≠
              (t.pack_whack_msg msg D.string_offset (D.string_offset + D.string_size)).2 := by
            rcases h with h | h | h | h
            · exact absurd hp h
            · exact absurd h hs
            · exact absurd h hc
            · exact h
          exact ⟨[SysEvent.pack, SysEvent.socket, SysEvent.connect,
            SysEvent.write
              (t.pack_whack_msg msg D.string_offset (D.string_offset + D.string_size)).2,
            SysEvent.note Note.write_failed, SysEvent.close],
            by simp only [send_whack_msg, hp, if_neg hs, if_neg hc, if_pos hw]⟩
    · exact ⟨[SysEvent.pack, SysEvent.note (Note.cannot_pack ugh)],
        by simp only [send_whack_msg, hp]⟩
  · intro hp hs hc hw o evs hrun hfail
    have ho : o = Outcome.returned c.RC_WHACK_PROBLEM := by
      rcases hfail with hf | ⟨hf, hz⟩
      · exact readLoop_readFailed c t.env _ _ _ _ _ _ hrun hf
      · rcases readLoop_failStop c t.env hz _ _ _ _ _ _ hrun with h | ⟨h1, _⟩
        · exact absurd hf h
        · cases h1; rfl
    subst ho
    exact ⟨_, send_whack_msg_reply c D t msg hp hs hc hw _ evs hrun, Int.natCast_nonneg _⟩

/-- C13 (witness): a failed `connect` gives -1; a failed `read` of the reply
gives `RC_WHACK_PROBLEM`. -/
theorem C13_client_failure_status_witness :
    (∃ evs, send_whack_msg sampleConsts sampleDecls (earlyTxn none 3 (-1))
        (empty_whack_message sampleDecls) = some (Ret.val (-1), evs)) ∧
    (∃ sevs, send_whack_msg sampleConsts sampleDecls (okTxn [ReadEv.error])
        (empty_whack_message sampleDecls) =
          some (Ret.val ((sampleConsts.RC_WHACK_PROBLEM : Nat) : Int), sevs) ∧
      (0 : Int) ≤ ((sampleConsts.RC_WHACK_PROBLEM : Nat) : Int)) :=
  ⟨(C13_client_failure_status sampleConsts sampleDecls (earlyTxn none 3 (-1))
      (empty_whack_message sampleDecls)).1 (Or.inr (Or.inr (Or.inl (by decide)))),
    (C13_client_failure_status sampleConsts sampleDecls (okTxn [ReadEv.error])
      (empty_whack_message sampleDecls)).2 rfl (by decide) (by decide) (by decide)
      (Outcome.returned 33) [Event.read 4096 (-1), Event.diag Diag.readFailed] (by decide)
      (Or.inl (by decide))⟩

/-- C17: when packing succeeds with the pool cursor between the start and
the roof of `msg->string`, and socket creation and connect succeed, the
request is written with exactly one `write`, whose length is the offset of
the string pool plus the pool bytes consumed; it is at least that offset
(the header size) and at most `sizeof(struct whack_message)`. -/
theorem C17_request_length (c : Consts) (D : Decls) (t : TxnEnv) (msg : whack_message)
    (hp : (t.pack_whack_msg msg D.string_offset (D.string_offset + D.string_size)).1 = none)
    (hs : ¬ t.cloexec_socket < 0) (hc : ¬ t.connect < 0)
    (hlo : (D.string_offset : Int) ≤
      (t.pack_whack_msg msg D.string_offset (D.string_offset + D.string_size)).2)
    (hhi : (t.pack_whack_msg msg D.string_offset (D.string_offset + D.string_size)).2 ≤
      ((D.string_offset + D.string_size : Nat) : Int)) :
    ∃ r evs len, send_whack_msg c D t msg = some (r, evs) ∧
      requestWrites evs = [SysEvent.write len] ∧
      len = (D.string_offset : Int) +
        ((t.pack_whack_msg msg D.string_offset (D.string_offset + D.string_size)).2 -
          (D.string_offset : Int)) ∧
      (D.string_offset : Int) ≤ len ∧ len ≤ (D.sizeof_whack_message : Int) := by
  have hin := D.string_inside
  have hreq : ∀ evs : List Event, requestWrites (evs.map SysEvent.reply) = [] := by
    intro evs
    induction evs with
    | nil => rfl
    | cons e evs ih => simpa [requestWrites] using ih
  have hreq2 : ∀ (evs : List Event) (tl : List SysEvent),
      requestWrites (evs.map SysEvent.reply ++ tl) = requestWrites tl := by
    intro evs tl
    induction evs with
    | nil => rfl
    | cons e evs ih => simpa [requestWrites] using ih
  obtain ⟨⟨r, sevs⟩, hsp⟩ := send_whack_msg_total c D t msg
  have hcast : ((D.string_offset + D.string_size : Nat) : Int) ≤
      (D.sizeof_whack_message : Int) := by
    exact_mod_cast hin
  refine ⟨r, sevs,
    (t.pack_whack_msg msg D.string_offset (D.string_offset + D.string_size)).2,
    hsp, ?_, by omega, hlo, by omega⟩
  by_cases hw : t.write =
      (t.pack_whack_msg msg D.string_offset (D.string_offset + D.string_size)).2
  · obtain ⟨⟨o, evs⟩, hrun⟩ :=
      read_reply_total c t.env t.reply t.xauthusername t.xauthpass 0 0
    rw [send_whack_msg_reply c D t msg hp hs hc hw o evs hrun] at hsp
    cases o <;> cases hsp <;> simp [requestWrites, hreq, hreq2]
  · simp only [send_whack_msg, hp, if_neg hs, if_neg hc, ne_eq, hw, not_false_eq_true,
      if_true] at hsp
    cases hsp
    simp [requestWrites]

/-- C17 (witness): 100 pool bytes used with the pool at offset 2048: one
write of 2148 bytes. -/
theorem C17_request_length_witness :
    ∃ r evs len, send_whack_msg sampleConsts sampleDecls (okTxn [])
        (empty_whack_message sampleDecls) = some (r, evs) ∧
      requestWrites evs = [SysEvent.write len] ∧
      len = (2048 : Int) + ((2148 : Int) - 2048) ∧ (2048 : Int) ≤ len ∧ len ≤ (6144 : Int) :=
  C17_request_length sampleConsts sampleDecls (okTxn []) (empty_whack_message sampleDecls)
    rfl (by decide) (by decide) (by decide) (by decide)

/-! ## Adding a connection -/

theorem transactions_append (a b : List ConnEvent) :
    transactions (a ++ b) = transactions a + transactions b := by
  simp [transactions, List.filter_append]

theorem transactions_notes (ns : List Note) : transactions (ns.map ConnEvent.note) = 0 := by
  induction ns with
  | nil => rfl
  | cons n ns ih => simp [transactions, List.filter, ih]

theorem transactions_replies (role : Role) (evs : List Event) :
    transactions ((evs.map SysEvent.reply).map (ConnEvent.txn role)) = 0 := by
  induction evs with
  | nil => rfl
  | cons e evs ih => simp [transactions, List.filter, ih]

theorem eventsOf_append (r : Role) (a b : List ConnEvent) :
    eventsOf r (a ++ b) = eventsOf r a ++ eventsOf r b := by
  simp [eventsOf, List.filter_append]

theorem eventsOf_notes (r : Role) (ns : List Note) : eventsOf r (ns.map ConnEvent.note) = [] := by
  induction ns with
  | nil => rfl
  | cons n ns ih => simp [eventsOf, List.filter, ih]

theorem eventsOf_other (r r1 : Role) (h : r1 ≠ r) (evs : List ConnEvent)
    (hev : ∀ r2 e, ConnEvent.txn r2 e ∈ evs → r2 = r1) : eventsOf r evs = [] := by
  unfold eventsOf
  rw [List.filter_eq_nil_iff]
  intro e he
  cases e with
  | note n => simp
  | txn r2 e =>
    have := hev r2 e he
    subst this
    simp [h]

theorem send_whack_msg_one_pack (c : Consts) (D : Decls) (t : TxnEnv) (msg : whack_message)
    (role : Role) (r : Ret Int) (sevs : List SysEvent)
    (h : send_whack_msg c D t msg = some (r, sevs)) :
    transactions (sevs.map (ConnEvent.txn role)) = 1 := by
  rcases hp : (t.pack_whack_msg msg D.string_offset (D.string_offset + D.string_size)).1
    with _ | ugh
  · by_cases hs : t.cloexec_socket < 0
    · simp only [send_whack_msg, hp, if_pos hs, Option.some.injEq, Prod.mk.injEq] at h
      obtain ⟨_, rfl⟩ := h
      rfl
    · by_cases hc : t.connect < 0
      · simp only [send_whack_msg, hp, if_neg hs, if_pos hc, Option.some.injEq,
          Prod.mk.injEq] at h
        obtain ⟨_, rfl⟩ := h
        rfl
      · by_cases hw : t.write =
            (t.pack_whack_msg msg D.string_offset (D.string_offset + D.string_size)).2
        · obtain ⟨⟨o, evs⟩, hrun⟩ :=
            read_reply_total c t.env t.reply t.xauthusername t.xauthpass 0 0
          rw [send_whack_msg_reply c D t msg hp hs hc hw o evs hrun] at h
          cases o with
          | returned v =>
            simp only [Option.some.injEq, Prod.mk.injEq] at h
            obtain ⟨_, rfl⟩ := h
            simp only [List.map_append, transactions_append, transactions_replies]
            rfl
          | exited v =>
            simp only [Option.some.injEq, Prod.mk.injEq] at h
            obtain ⟨_, rfl⟩ := h
            simp only [List.map_append, transactions_append, transactions_replies]
            rfl
        · simp only [send_whack_msg, hp, if_neg hs, if_neg hc, ne_eq, hw, not_false_eq_true,
            if_true, Option.some.injEq, Prod.mk.injEq] at h
          obtain ⟨_, rfl⟩ := h
          rfl
  · simp only [send_whack_msg, hp, Option.some.injEq, Prod.mk.injEq] at h
    obtain ⟨_, rfl⟩ := h
    rfl

theorem txn_mem_map (role r1 : Role) (e : SysEvent) (sevs : List SysEvent)
    (h : ConnEvent.txn r1 e ∈ sevs.map (ConnEvent.txn role)) : r1 = role := by
  simp only [List.mem_map, ConnEvent.txn.injEq] at h
  obtain ⟨_, _, h1, _⟩ := h
  exact h1.symm

/-- `starter_whack_add_pubkey` always ends, starts at most one transaction,
and tags its events with its role. -/
theorem add_pubkey_spec (c : Consts) (D : Decls) (t : TxnEnv)
    (tt : String → Nat → Except String (List Nat)) (role : Role) (conn : starter_conn)
    (e : starter_end) :
    ∃ res evs, starter_whack_add_pubkey c D t tt role conn e = some (res, evs) ∧
      transactions evs ≤ 1 ∧ ∀ r1 ev, ConnEvent.txn r1 ev ∈ evs → r1 = role := by
  unfold starter_whack_add_pubkey
  simp only
  split
  · rename_i key _ _
    split
    · exact ⟨_, _, rfl, by simp [transactions], by simp⟩
    · exact ⟨_, _, rfl, by simp [transactions], by simp⟩
    · exact ⟨_, _, rfl, by simp [transactions], by simp⟩
    · split
      · exact ⟨_, _, rfl, by simp [transactions], by simp⟩
      · split
        · exact ⟨_, _, rfl, by simp [transactions], by simp⟩
        · rename_i keyspace _
          obtain ⟨⟨r, sevs⟩, hs⟩ := send_whack_msg_total c D t
            { ({ ({ empty_whack_message D with
                      whack_key := true, pubkey_alg := e.pubkey_alg } : whack_message) with
                  keyid := e.id } : whack_message) with keyval := keyspace }
          have h1 := send_whack_msg_one_pack c D t _ role r sevs hs
          rw [hs]
          have hcount : ∀ (n : Note), transactions (ConnEvent.note n ::
              sevs.map (ConnEvent.txn role)) ≤ 1 := by
            intro n
            have := transactions_append [ConnEvent.note n] (sevs.map (ConnEvent.txn role))
            simp only [List.singleton_append] at this
            rw [this, h1]
            simp [transactions]
          have hrole : ∀ (n : Note) r1 ev, ConnEvent.txn r1 ev ∈ (ConnEvent.note n ::
              sevs.map (ConnEvent.txn role)) → r1 = role := by
            intro n r1 ev hm
            rcases List.mem_cons.1 hm with hm | hm
            · cases hm
            · exact txn_mem_map role r1 ev sevs hm
          cases r with
          | val v => exact ⟨_, _, rfl, hcount _, hrole _⟩
          | exit s => exact ⟨_, _, rfl, hcount _, hrole _⟩
          | abort => exact ⟨_, _, rfl, hcount _, hrole _⟩
  · exact ⟨_, _, rfl, by simp [transactions], by simp⟩

theorem followup_pubkey (D : Decls) (tt : String → Nat → Except String (List Nat))
    (e : starter_end) (m : whack_message) (hf : followup_message D tt e = some m) :
    e.pubkey ≠ none := by
  intro h
  unfold followup_message at hf
  rw [h] at hf
  cases hid : e.id <;> simp [hid] at hf

theorem add_pubkey_followup (c : Consts) (D : Decls) (t : TxnEnv)
    (tt : String → Nat → Except String (List Nat)) (role : Role) (conn : starter_conn)
    (e : starter_end) (m : whack_message) (ret : Int) (sevs : List SysEvent)
    (hf : followup_message D tt e = some m)
    (hs : send_whack_msg c D t m = some (Ret.val ret, sevs)) :
    ∃ n, starter_whack_add_pubkey c D t tt role conn e =
      some (Ret.val (if ret < 0 then ret else 0),
        ConnEvent.note n :: sevs.map (ConnEvent.txn role)) := by
  rcases hid : e.id with _ | i
  · simp [followup_message, hid] at hf
  rcases hpk : e.pubkey with _ | key
  · simp [followup_message, hid, hpk] at hf
  cases hty : e.pubkey_type
  · simp [followup_message, hid, hpk, hty] at hf
  · simp [followup_message, hid, hpk, hty] at hf
  · simp [followup_message, hid, hpk, hty] at hf
  rcases hb : pubkey_base e.pubkey_alg with _ | base
  · simp [followup_message, hid, hpk, hty, hb] at hf
  rcases htt : tt key base with err | keyspace
  · simp [followup_message, hid, hpk, hty, hb, htt] at hf
  simp only [followup_message, hid, hpk, hty, hb, htt, Option.some.injEq] at hf
  subst hf
  refine ⟨Note.debug (connection_name conn ++ " " ++ e.leftright) key, ?_⟩
  simp only [starter_whack_add_pubkey, hid, hpk, hty, hb, htt, hs]

/-- The two key steps of `starter_whack_add_conn` always end, start at most
two transactions, none of them for an end without a key. -/
theorem add_conn_keys_spec (c : Consts) (D : Decls) (W : World) (conn : starter_conn) :
    ∃ res evs, add_conn_keys c D W conn = some (res, evs) ∧ transactions evs ≤ 2 ∧
      (eventsOf Role.left evs ≠ [] → conn.left.pubkey ≠ none) ∧
      (eventsOf Role.right evs ≠ [] → conn.right.pubkey ≠ none) ∧
      eventsOf Role.main evs = [] := by
  obtain ⟨resL, evsL, hL, cL, rL⟩ :=
    add_pubkey_spec c D W.left W.ttochunk Role.left conn conn.left
  obtain ⟨resR, evsR, hR, cR, rR⟩ :=
    add_pubkey_spec c D W.right W.ttochunk Role.right conn conn.right
  have eLm := eventsOf_other Role.main Role.left (by decide) evsL rL
  have eLr := eventsOf_other Role.right Role.left (by decide) evsL rL
  have eRm := eventsOf_other Role.main Role.right (by decide) evsR rR
  have eRl := eventsOf_other Role.left Role.right (by decide) evsR rR
  unfold add_conn_keys
  by_cases hl : conn.left.pubkey ≠ none
  · simp only [if_pos hl, hL]
    cases resL with
    | exit s => exact ⟨_, _, rfl, by omega, fun _ => hl, by simp [eLr], eLm⟩
    | abort => exact ⟨_, _, rfl, by omega, fun _ => hl, by simp [eLr], eLm⟩
    | val r =>
      simp only
      by_cases hr0 : r ≠ 0
      · simp only [if_pos hr0]
        exact ⟨_, _, rfl, by omega, fun _ => hl, by simp [eLr], eLm⟩
      · simp only [if_neg hr0]
        by_cases hr : conn.right.pubkey ≠ none
        · simp only [if_pos hr, hR]
          cases resR <;>
            exact ⟨_, _, rfl, by rw [transactions_append]; omega, fun _ => hl, fun _ => hr,
              by rw [eventsOf_append, eLm, eRm]; rfl⟩
        · simp only [if_neg hr]
          exact ⟨_, _, rfl, by omega, fun _ => hl, by simp [eLr], eLm⟩
  · simp only [if_neg hl]
    by_cases hr : conn.right.pubkey ≠ none
    · simp only [ne_eq, not_true_eq_false, if_false, if_pos hr, hR]
      cases resR <;>
        exact ⟨_, _, rfl, by simp only [List.nil_append]; omega,
          by simp only [List.nil_append, eRl]; simp, fun _ => hr,
          by simp only [List.nil_append]; exact eRm⟩
    · simp only [ne_eq, not_true_eq_false, if_false, if_neg hr]
      exact ⟨_, _, rfl, by simp [transactions], by simp [eventsOf], by simp [eventsOf],
        by simp [eventsOf]⟩

/-- The shape of `starter_whack_add_conn` once both ends are accepted. -/
theorem add_conn_of_main (c : Consts) (D : Decls) (W : World) (conn : starter_conn)
    (mm : whack_message) (hm : main_message D conn = some mm) :
    ∃ ns : List Note, starter_whack_add_conn c D W conn =
      (match send_whack_msg c D W.main mm with
        | none => none
        | some (Ret.exit s, evs) =>
          some (Ret.exit s, ns.map ConnEvent.note ++ evs.map (ConnEvent.txn Role.main))
        | some (Ret.abort, evs) =>
          some (Ret.abort, ns.map ConnEvent.note ++ evs.map (ConnEvent.txn Role.main))
        | some (Ret.val r, evs) =>
          if r ≠ 0 then
            some (Ret.val r, ns.map ConnEvent.note ++ evs.map (ConnEvent.txn Role.main))
          else
            match add_conn_keys c D W conn with
            | none => none
            | some (res, kevs) =>
              some (res,
                ns.map ConnEvent.note ++ evs.map (ConnEvent.txn Role.main) ++ kevs)) := by
  unfold main_message at hm
  rcases hl : set_whack_end D (add_conn_fields D conn).1.left conn.left with ⟨rl, n1⟩
  rcases hr : set_whack_end D (add_conn_fields D conn).1.right conn.right with ⟨rr, n2⟩
  rw [hl, hr] at hm
  cases rl with
  | exit s => simp at hm
  | abort => simp at hm
  | val vl =>
    obtain ⟨bl, wl⟩ := vl
    cases bl with
    | false => simp at hm
    | true =>
      cases rr with
      | exit s => simp at hm
      | abort => simp at hm
      | val vr =>
        obtain ⟨br, wr⟩ := vr
        cases br with
        | false => simp at hm
        | true =>
          simp only [Option.some.injEq] at hm
          subst hm
          refine ⟨(add_conn_fields D conn).2 ++ n1 ++ n2 ++ conn_log_val "esp" conn.esp ++
            conn_log_val "ike" conn.ike_crypto, ?_⟩
          simp only [starter_whack_add_conn, hl, hr]

/-- Without an accepted pair of ends no transaction is started. -/
theorem add_conn_no_main (c : Consts) (D : Decls) (W : World) (conn : starter_conn)
    (hm : main_message D conn = none) :
    ∃ res, ∃ ns : List Note,
      starter_whack_add_conn c D W conn = some (res, ns.map ConnEvent.note) := by
  unfold main_message at hm
  rcases hl : set_whack_end D (add_conn_fields D conn).1.left conn.left with ⟨rl, n1⟩
  rcases hr : set_whack_end D (add_conn_fields D conn).1.right conn.right with ⟨rr, n2⟩
  rw [hl, hr] at hm
  cases rl with
  | exit s => exact ⟨_, (add_conn_fields D conn).2 ++ n1,
      by simp only [starter_whack_add_conn, hl]; rfl⟩
  | abort => exact ⟨_, (add_conn_fields D conn).2 ++ n1,
      by simp only [starter_whack_add_conn, hl]; rfl⟩
  | val vl =>
    obtain ⟨bl, wl⟩ := vl
    cases bl with
    | false => exact ⟨_, (add_conn_fields D conn).2 ++ n1,
      by simp only [starter_whack_add_conn, hl]; rfl⟩
    | true =>
      cases rr with
      | exit s => exact ⟨_, (add_conn_fields D conn).2 ++ n1 ++ n2,
          by simp only [starter_whack_add_conn, hl, hr]; rfl⟩
      | abort => exact ⟨_, (add_conn_fields D conn).2 ++ n1 ++ n2,
          by simp only [starter_whack_add_conn, hl, hr]; rfl⟩
      | val vr =>
        obtain ⟨br, wr⟩ := vr
        cases br with
        | false => exact ⟨_, (add_conn_fields D conn).2 ++ n1 ++ n2,
          by simp only [starter_whack_add_conn, hl, hr]; rfl⟩
        | true => simp at hm

theorem eventsOf_txn_same (r : Role) (sevs : List SysEvent) :
    eventsOf r (sevs.map (ConnEvent.txn r)) = sevs.map (ConnEvent.txn r) := by
  induction sevs with
  | nil => rfl
  | cons e sevs ih =>
    simp only [eventsOf, List.map_cons] at ih ⊢
    rw [List.filter_cons_of_pos (by simp), ih]

theorem eventsOf_txn_other (r r1 : Role) (h : r1 ≠ r) (sevs : List SysEvent) :
    eventsOf r (sevs.map (ConnEvent.txn r1)) = [] :=
  eventsOf_other r r1 h _ (fun r2 e he => txn_mem_map r1 r2 e sevs he)

theorem eventsOf_note_cons (r : Role) (n : Note) (evs : List ConnEvent) :
    eventsOf r (ConnEvent.note n :: evs) = eventsOf r evs := by
  simp [eventsOf]

/-- The shape of `starter_whack_add_conn` once the main transaction has
returned 0. -/
theorem add_conn_main_ok (c : Consts) (D : Decls) (W : World) (conn : starter_conn)
    (mm : whack_message) (mevs : List SysEvent) (hm : main_message D conn = some mm)
    (hs : send_whack_msg c D W.main mm = some (Ret.val 0, mevs)) :
    ∃ ns : List Note, starter_whack_add_conn c D W conn =
      (match add_conn_keys c D W conn with
        | none => none
        | some (res, kevs) =>
          some (res, ns.map ConnEvent.note ++ mevs.map (ConnEvent.txn Role.main) ++ kevs)) := by
  obtain ⟨ns, h⟩ := add_conn_of_main c D W conn mm hm
  refine ⟨ns, ?_⟩
  rw [h, hs]
  simp only [ne_eq, not_true_eq_false, if_false]

/-- The shape of `starter_whack_add_conn` when the main transaction returns
a status other than 0. -/
theorem add_conn_main_failed (c : Consts) (D : Decls) (W : World) (conn : starter_conn)
    (mm : whack_message) (r : Int) (mevs : List SysEvent)
    (hm : main_message D conn = some mm)
    (hs : send_whack_msg c D W.main mm = some (Ret.val r, mevs)) (hr : r ≠ 0) :
    ∃ ns : List Note, starter_whack_add_conn c D W conn =
      some (Ret.val r, ns.map ConnEvent.note ++ mevs.map (ConnEvent.txn Role.main)) := by
  obtain ⟨ns, h⟩ := add_conn_of_main c D W conn mm hm
  refine ⟨ns, ?_⟩
  rw [h, hs]
  simp only [if_pos hr]

/-- C14 (counterexample): the key transaction of the left end ends with the
daemon-reported status 21, and `starter_whack_add_conn` returns 0 after also
performing the key transaction of the right end. -/
theorem C14_counterexample :
    ((followup_message sampleDecls (sampleWorld [] (deliver [bytes "21 no\n"]) []).ttochunk
        keyedConn.left).bind (fun m =>
      (send_whack_msg sampleConsts sampleDecls
        (sampleWorld [] (deliver [bytes "21 no\n"]) []).left m).map Prod.fst)) =
      some (Ret.val 21) ∧
    (starter_whack_add_conn sampleConsts sampleDecls
        (sampleWorld [] (deliver [bytes "21 no\n"]) []) keyedConn).map
      (fun p => (p.1, transactions (eventsOf Role.right p.2))) = some (Ret.val 0, 1) := by
  decide

/-- C14 (amended): after a main transaction that returned 0, a key
transaction that ends with a negative status `r` makes
`starter_whack_add_conn` return `r`, and when it is the left end's the right
end's transaction is not performed. A key transaction that ends with a
status that is not negative counts as a success: after such a transaction
for the left end the right end's transaction is performed, and the call
returns the right end's status if that is negative and 0 otherwise. -/
theorem C14_followup_failure_status (c : Consts) (D : Decls) (W : World) (conn : starter_conn)
    (mm : whack_message) (mevs : List SysEvent) (hm : main_message D conn = some mm)
    (hs : send_whack_msg c D W.main mm = some (Ret.val 0, mevs)) :
    (∀ m r tevs, followup_message D W.ttochunk conn.left = some m →
      send_whack_msg c D W.left m = some (Ret.val r, tevs) → r < 0 →
      ∃ evs, starter_whack_add_conn c D W conn = some (Ret.val r, evs) ∧
        eventsOf Role.right evs = []) ∧
    (∀ m r tevs, conn.left.pubkey = none →
      followup_message D W.ttochunk conn.right = some m →
      send_whack_msg c D W.right m = some (Ret.val r, tevs) → r < 0 →
      ∃ evs, starter_whack_add_conn c D W conn = some (Ret.val r, evs)) ∧
    (∀ m1 r1 tevs1 m2 r2 tevs2, followup_message D W.ttochunk conn.left = some m1 →
      send_whack_msg c D W.left m1 = some (Ret.val r1, tevs1) → 0 ≤ r1 →
      followup_message D W.ttochunk conn.right = some m2 →
      send_whack_msg c D W.right m2 = some (Ret.val r2, tevs2) →
      ∃ evs, starter_whack_add_conn c D W conn =
          some (Ret.val (if r2 < 0 then r2 else 0), evs) ∧
        eventsOf Role.right evs = tevs2.map (ConnEvent.txn Role.right)) := by
  obtain ⟨ns, hadd⟩ := add_conn_main_ok c D W conn mm mevs hm hs
  refine ⟨?_, ?_, ?_⟩
  · intro m r tevs hf hsend hneg
    obtain ⟨n, hp⟩ := add_pubkey_followup c D W.left W.ttochunk Role.left conn conn.left m r
      tevs hf hsend
    have hpk := followup_pubkey D W.ttochunk conn.left m hf
    have hr0 : r ≠ 0 := by omega
    have hk : add_conn_keys c D W conn =
        some (Ret.val r, ConnEvent.note n :: tevs.map (ConnEvent.txn Role.left)) := by
      simp only [add_conn_keys, if_pos hpk, hp, if_pos hneg, if_pos hr0]
    rw [hk] at hadd
    refine ⟨_, hadd, ?_⟩
    rw [eventsOf_append, eventsOf_append, eventsOf_notes, eventsOf_note_cons,
      eventsOf_txn_other Role.right Role.main (by decide),
      eventsOf_txn_other Role.right Role.left (by decide)]
    rfl
  · intro m r tevs hnone hf hsend hneg
    obtain ⟨n, hp⟩ := add_pubkey_followup c D W.right W.ttochunk Role.right conn conn.right m r
      tevs hf hsend
    have hpk := followup_pubkey D W.ttochunk conn.right m hf
    have hr0 : r ≠ 0 := by omega
    have hk : add_conn_keys c D W conn =
        some (Ret.val r, [] ++ ConnEvent.note n :: tevs.map (ConnEvent.txn Role.right)) := by
      simp only [add_conn_keys, hnone, ne_eq, not_true_eq_false, if_false, if_pos hpk, hp,
        if_pos hneg, if_pos hr0]
    rw [hk] at hadd
    exact ⟨_, hadd⟩
  · intro m1 r1 tevs1 m2 r2 tevs2 hf1 hs1 hnn hf2 hs2
    obtain ⟨n1, hp1⟩ := add_pubkey_followup c D W.left W.ttochunk Role.left conn conn.left m1
      r1 tevs1 hf1 hs1
    obtain ⟨n2, hp2⟩ := add_pubkey_followup c D W.right W.ttochunk Role.right conn conn.right
      m2 r2 tevs2 hf2 hs2
    have hpk1 := followup_pubkey D W.ttochunk conn.left m1 hf1
    have hpk2 := followup_pubkey D W.ttochunk conn.right m2 hf2
    have hnn1 : ¬ r1 < 0 := by omega
    have hres : (if (if r2 < 0 then r2 else 0) ≠ 0 then (if r2 < 0 then r2 else 0) else 0) =
        (if r2 < 0 then r2 else 0) := by
      by_cases h2 : r2 < 0
      · have h20 : r2 ≠ 0 := by omega
        simp only [if_pos h2, if_pos h20]
      · simp only [if_neg h2, ne_eq, not_true_eq_false, if_false]
    have hk : add_conn_keys c D W conn =
        some (Ret.val (if r2 < 0 then r2 else 0),
          (ConnEvent.note n1 :: tevs1.map (ConnEvent.txn Role.left)) ++
            (ConnEvent.note n2 :: tevs2.map (ConnEvent.txn Role.right))) := by
      simp only [add_conn_keys, if_pos hpk1, hp1, if_neg hnn1, ne_eq, not_true_eq_false,
        if_false, if_pos hpk2, hp2]
      rw [hres]
    rw [hk] at hadd
    refine ⟨_, hadd, ?_⟩
    rw [eventsOf_append, eventsOf_append, eventsOf_append, eventsOf_notes, eventsOf_note_cons,
      eventsOf_note_cons, eventsOf_txn_other Role.right Role.main (by decide),
      eventsOf_txn_other Role.right Role.left (by decide), eventsOf_txn_same]
    rfl

/-- C14 (witness): with the left end's key transaction failing at `connect`
the call returns -1 and nothing is sent for the right end; with the left
end's key transaction ending with status 21 the right end's transaction is
performed and the call returns 0. -/
theorem C14_followup_failure_status_witness :
    (∃ evs, starter_whack_add_conn sampleConsts sampleDecls leftDownWorld keyedConn =
        some (Ret.val (-1), evs) ∧ eventsOf Role.right evs = []) ∧
    (∃ evs, starter_whack_add_conn sampleConsts sampleDecls
        (sampleWorld [] (deliver [bytes "21 no\n"]) []) keyedConn =
          some (Ret.val (if (0 : Int) < 0 then 0 else 0), evs) ∧
        eventsOf Role.right evs =
          (txnEvents sampleConsts sampleDecls (okTxn []) (keyedKey "right")).map
            (ConnEvent.txn Role.right)) :=
  ⟨(C14_followup_failure_status sampleConsts sampleDecls leftDownWorld keyedConn keyedMain
      (txnEvents sampleConsts sampleDecls (okTxn []) keyedMain) (by rfl) (by decide)).1
      (keyedKey "left") (-1)
      [SysEvent.pack, SysEvent.socket, SysEvent.connect, SysEvent.note Note.connect_failed,
        SysEvent.close] (by rfl) (by decide) (by decide),
    (C14_followup_failure_status sampleConsts sampleDecls
      (sampleWorld [] (deliver [bytes "21 no\n"]) []) keyedConn keyedMain
      (txnEvents sampleConsts sampleDecls (okTxn []) keyedMain) (by rfl) (by decide)).2.2
      (keyedKey "left") 21
      (txnEvents sampleConsts sampleDecls (okTxn (deliver [bytes "21 no\n"])) (keyedKey "left"))
      (keyedKey "right") 0
      (txnEvents sampleConsts sampleDecls (okTxn []) (keyedKey "right"))
      (by rfl) (by decide) (by decide) (by rfl) (by decide)⟩

/-- C18: when the main transaction of `starter_whack_add_conn` returns a
status `r` other than 0, the call returns exactly `r`, performs that one
transaction and no key transaction. Every call ends having started at most
three transactions, and a key transaction is performed for an end only if
that end's `pubkey` is not `NULL`. -/
theorem C18_main_failure_skips_followups (c : Consts) (D : Decls) (W : World)
    (conn : starter_conn) :
    (∀ mm r mevs, main_message D conn = some mm →
      send_whack_msg c D W.main mm = some (Ret.val r, mevs) → r ≠ 0 →
      ∃ evs, starter_whack_add_conn c D W conn = some (Ret.val r, evs) ∧
        eventsOf Role.left evs = [] ∧ eventsOf Role.right evs = [] ∧ transactions evs = 1) ∧
    (∃ res evs, starter_whack_add_conn c D W conn = some (res, evs) ∧ transactions evs ≤ 3 ∧
      (eventsOf Role.left evs ≠ [] → conn.left.pubkey ≠ none) ∧
      (eventsOf Role.right evs ≠ [] → conn.right.pubkey ≠ none)) := by
  have hmainOnly : ∀ (ns : List Note) (res : Ret Int) (sevs : List SysEvent) (mm : whack_message),
      send_whack_msg c D W.main mm = some (res, sevs) →
      transactions (ns.map ConnEvent.note ++ sevs.map (ConnEvent.txn Role.main)) = 1 ∧
      eventsOf Role.left (ns.map ConnEvent.note ++ sevs.map (ConnEvent.txn Role.main)) = [] ∧
      eventsOf Role.right (ns.map ConnEvent.note ++ sevs.map (ConnEvent.txn Role.main)) =
        [] := by
    intro ns res sevs mm h
    refine ⟨?_, ?_, ?_⟩
    · rw [transactions_append, transactions_notes,
        send_whack_msg_one_pack c D W.main mm Role.main res sevs h]
    · rw [eventsOf_append, eventsOf_notes, eventsOf_txn_other Role.left Role.main (by decide)]
      rfl
    · rw [eventsOf_append, eventsOf_notes, eventsOf_txn_other Role.right Role.main (by decide)]
      rfl
  constructor
  · intro mm r mevs hm hs hr
    obtain ⟨ns, h⟩ := add_conn_main_failed c D W conn mm r mevs hm hs hr
    obtain ⟨h1, h2, h3⟩ := hmainOnly ns _ mevs mm hs
    exact ⟨_, h, h2, h3, h1⟩
  · rcases hm : main_message D conn with _ | mm
    · obtain ⟨res, ns, h⟩ := add_conn_no_main c D W conn hm
      refine ⟨res, _, h, ?_, ?_, ?_⟩
      · rw [transactions_notes]
        omega
      · intro hne
        exact absurd (eventsOf_notes Role.left ns) hne
      · intro hne
        exact absurd (eventsOf_notes Role.right ns) hne
    · obtain ⟨ns, h⟩ := add_conn_of_main c D W conn mm hm
      obtain ⟨⟨res, sevs⟩, hs⟩ := send_whack_msg_total c D W.main mm
      obtain ⟨h1, h2, h3⟩ := hmainOnly ns res sevs mm hs
      rw [hs] at h
      cases res with
      | exit s =>
        exact ⟨_, _, h, by omega, fun hne => absurd h2 hne, fun hne => absurd h3 hne⟩
      | abort =>
        exact ⟨_, _, h, by omega, fun hne => absurd h2 hne, fun hne => absurd h3 hne⟩
      | val r =>
        by_cases hr : r ≠ 0
        · simp only [if_pos hr] at h
          exact ⟨_, _, h, by omega, fun hne => absurd h2 hne, fun hne => absurd h3 hne⟩
        · obtain ⟨kres, kevs, hk, kc, kl, kr, _⟩ := add_conn_keys_spec c D W conn
          simp only [if_neg hr, hk] at h
          refine ⟨_, _, h, ?_, ?_, ?_⟩
          · rw [transactions_append, h1]
            omega
          · intro hne
            rw [eventsOf_append, h2, List.nil_append] at hne
            exact kl hne
          · intro hne
            rw [eventsOf_append, h3, List.nil_append] at hne
            exact kr hne

/-- C18 (witness): the daemon answers the main transaction with status 21;
the call returns 21 after that one transaction, although both ends have a
key. -/
theorem C18_main_failure_skips_followups_witness :
    ∃ evs, starter_whack_add_conn sampleConsts sampleDecls
        (sampleWorld (deliver [bytes "21 no\n"]) [] []) keyedConn = some (Ret.val 21, evs) ∧
      eventsOf Role.left evs = [] ∧ eventsOf Role.right evs = [] ∧ transactions evs = 1 :=
  (C18_main_failure_skips_followups sampleConsts sampleDecls
    (sampleWorld (deliver [bytes "21 no\n"]) [] []) keyedConn).1 keyedMain 21
    (txnEvents sampleConsts sampleDecls (okTxn (deliver [bytes "21 no\n"])) keyedMain)
    (by rfl) (by decide) (by decide)

/-! ## The message fields set by `starter_whack_add_conn` -/

theorem add_conn_fields_in_delay (D : Decls) (conn : starter_conn) :
    (add_conn_fields D conn).1.iptfs_in_delay =
      (if conn.options_set KNCF.IPTFS_DROP_TIME then conn.options KNCF.IPTFS_DROP_TIME
      else if conn.options_set KNCF.IPTFS_REORD_WIN then conn.options KNCF.IPTFS_REORD_WIN
      else if conn.options_set KNCF.IPTFS_IN_DELAY then conn.options KNCF.IPTFS_IN_DELAY
      else 0) := by
  simp only [add_conn_fields, empty_whack_message]

theorem add_conn_fields_agree (D : Decls) (conn : starter_conn) (o' : KNCF → Nat)
    (os' : KNCF → Bool)
    (h : ∀ k, k ≠ KNCF.IPTFS_REORD_WIN → k ≠ KNCF.IPTFS_DROP_TIME →
      o' k = conn.options k ∧ os' k = conn.options_set k) :
    clear_iptfs_in_delay (add_conn_fields D { conn with options := o', options_set := os' }).1 =
      clear_iptfs_in_delay (add_conn_fields D conn).1 := by
  have ho : ∀ k, k ≠ KNCF.IPTFS_REORD_WIN → k ≠ KNCF.IPTFS_DROP_TIME →
      o' k = conn.options k := fun k a b => (h k a b).1
  have hos : ∀ k, k ≠ KNCF.IPTFS_REORD_WIN → k ≠ KNCF.IPTFS_DROP_TIME →
      os' k = conn.options_set k := fun k a b => (h k a b).2
  simp [add_conn_fields, clear_iptfs_in_delay, connection_name, ho, hos]

/-- The message of the main transaction is the message of `add_conn_fields`
with the two ends and the `esp` and `ike` strings filled in. -/
theorem main_message_fields (D : Decls) (conn : starter_conn) :
    main_message D conn =
      (match set_whack_end D (empty_whack_message D).left conn.left,
          set_whack_end D (empty_whack_message D).right conn.right with
        | (Ret.val (true, wl), _), (Ret.val (true, wr), _) =>
          some { (add_conn_fields D conn).1 with
                  left := wl, right := wr, esp := conn.esp, ike := conn.ike_crypto }
        | _, _ => none) :=
  rfl

/-- The message of the main transaction with `iptfs_in_delay` cleared. -/
theorem main_message_clear (D : Decls) (conn : starter_conn) :
    (main_message D conn).map clear_iptfs_in_delay =
      (match set_whack_end D (empty_whack_message D).left conn.left,
          set_whack_end D (empty_whack_message D).right conn.right with
        | (Ret.val (true, wl), _), (Ret.val (true, wr), _) =>
          some { clear_iptfs_in_delay (add_conn_fields D conn).1 with
                  left := wl, right := wr, esp := conn.esp, ike := conn.ike_crypto }
        | _, _ => none) := by
  rw [main_message_fields]
  split <;> rfl

/-- C21: in the message that `starter_whack_add_conn` builds (before the ends
are filled in, and in the message of the main transaction), `iptfs_in_delay`
is the drop-time option if that is set, otherwise the reorder-window option
if set, otherwise the in-delay option if set, otherwise 0. Two connections
that differ only in the values and set flags of the reorder-window and
drop-time options give messages that agree in every field other than
`iptfs_in_delay`. -/
theorem C21_iptfs_in_delay_precedence (D : Decls) (conn : starter_conn) :
    (add_conn_fields D conn).1.iptfs_in_delay =
      (if conn.options_set KNCF.IPTFS_DROP_TIME then conn.options KNCF.IPTFS_DROP_TIME
      else if conn.options_set KNCF.IPTFS_REORD_WIN then conn.options KNCF.IPTFS_REORD_WIN
      else if conn.options_set KNCF.IPTFS_IN_DELAY then conn.options KNCF.IPTFS_IN_DELAY
      else 0) ∧
    (∀ mm, main_message D conn = some mm →
      mm.iptfs_in_delay =
        (if conn.options_set KNCF.IPTFS_DROP_TIME then conn.options KNCF.IPTFS_DROP_TIME
        else if conn.options_set KNCF.IPTFS_REORD_WIN then conn.options KNCF.IPTFS_REORD_WIN
        else if conn.options_set KNCF.IPTFS_IN_DELAY then conn.options KNCF.IPTFS_IN_DELAY
        else 0)) ∧
    (∀ (o' : KNCF → Nat) (os' : KNCF → Bool),
      (∀ k, k ≠ KNCF.IPTFS_REORD_WIN → k ≠ KNCF.IPTFS_DROP_TIME →
        o' k = conn.options k ∧ os' k = conn.options_set k) →
      clear_iptfs_in_delay (add_conn_fields D { conn with options := o', options_set := os' }).1 =
        clear_iptfs_in_delay (add_conn_fields D conn).1 ∧
      (main_message D { conn with options := o', options_set := os' }).map
          clear_iptfs_in_delay =
        (main_message D conn).map clear_iptfs_in_delay) := by
  refine ⟨add_conn_fields_in_delay D conn, ?_, ?_⟩
  · intro mm hm
    rw [main_message_fields] at hm
    rw [← add_conn_fields_in_delay D conn]
    split at hm
    · simp only [Option.some.injEq] at hm
      rw [← hm]
    · simp at hm
  · intro o' os' h
    have hf := add_conn_fields_agree D conn o' os' h
    refine ⟨hf, ?_⟩
    rw [main_message_clear, main_message_clear, hf]

/-- C21 (witness): with in-delay 10 and reorder-window 20 set and drop-time
not set the message carries 20; setting drop-time to 30 and clearing the
reorder window changes no other field of the message. -/
theorem C21_iptfs_in_delay_precedence_witness :
    iptfsMain.iptfs_in_delay =
      (if iptfsConn.options_set KNCF.IPTFS_DROP_TIME then iptfsConn.options KNCF.IPTFS_DROP_TIME
      else if iptfsConn.options_set KNCF.IPTFS_REORD_WIN then
        iptfsConn.options KNCF.IPTFS_REORD_WIN
      else if iptfsConn.options_set KNCF.IPTFS_IN_DELAY then
        iptfsConn.options KNCF.IPTFS_IN_DELAY
      else 0) ∧
    iptfsMain.iptfs_in_delay = 20 ∧
    (main_message sampleDecls
        { iptfsConn with options := dropOptions, options_set := dropOptionsSet }).map
        clear_iptfs_in_delay =
      (main_message sampleDecls iptfsConn).map clear_iptfs_in_delay :=
  ⟨(C21_iptfs_in_delay_precedence sampleDecls iptfsConn).2.1 iptfsMain (by rfl), by rfl,
    ((C21_iptfs_in_delay_precedence sampleDecls iptfsConn).2.2 dropOptions dropOptionsSet
      (fun k h1 h2 => by
        cases k <;>
          first
          | exact ⟨rfl, rfl⟩
          | exact absurd rfl h1
          | exact absurd rfl h2)).2⟩

end StarterWhack
